import Mathlib

/-!
# 3D_Render: the clipping stage and the rasteriser of the software pipeline

A shallow embedding of `geometry.cpp`, `objects.cpp`, `camera.cpp`,
`renderer.cpp` and `box.cpp`.

* `double` is modelled by the exact rationals `ℚ`; every comparison and every
  branch of the source is kept.
* `std::sqrt` (reached through Eigen's `normalized()`) has no exact rational
  counterpart, so it is a parameter `sqrt : ℚ → ℚ` of the functions that reach
  it.  The only fact ever assumed about it is `SqrtPos sqrt`: the square root
  of a positive number is positive.
* C++ exceptions and failed `assert`s are values of `Error` in `Except`.
* Loops over `std::vector` are structural recursions over `List`; a vector
  passed by reference and appended to is threaded through as a value.
* `cos` and `sin` are parameters `cos sin : ℚ → ℚ` of the functions that reach
  them; nothing is assumed about them.
* `int` is modelled by `Int` (pixel coordinates stay far from the 32-bit
  range); the `while` loop of `draw_line` takes its number of steps as fuel.
* The four Eigen matrices of a `Screen` are total maps from index pairs; an
  access outside `w × h` is Eigen's index assertion.
* Where a floating value is converted to an integer (`rasterize_point`, the
  span ends of `fill_triangle`) the rounding of the operations that produce it
  decides the result.  There the rounding is a parameter: `fl : ℚ → ℚ` maps the
  exact result of a `double` operation to the `double` the machine stores,
  `flf : ℚ → ℚ` does so for `float`, and `oor : ℚ → Int` is the result of the
  conversion for a value outside the range of `int`, which C++ leaves
  undefined.  Nothing is assumed about the three.  Infinite and NaN values are
  not rationals; a rounding that overflows stands for them by any value
  outside the range of `int`.
* A division of `fill_triangle` by zero is the value `division_by_zero` of
  `Error`.
-/

namespace Renderer

/-- The ways a call can fail: `std::invalid_argument` (normalising a vector
with `w = 0`), `std::runtime_error` (line parallel to plane) and a failed
`assert` (of the source or of Eigen's index check).  `out_of_fuel` is not a
failure of the program: it marks a `while` loop of the model that was given
fewer steps than it needs.  `division_by_zero` marks a division of
`fill_triangle` whose divisor is zero. -/
inductive Error where
  | invalid_argument
  | runtime_error
  | assertion_failed
  | out_of_fuel
  | division_by_zero
  deriving DecidableEq, Repr

/-- The only property of `std::sqrt` the development relies on. -/
def SqrtPos (sqrt : ℚ → ℚ) : Prop := ∀ x : ℚ, 0 < x → 0 < sqrt x

/-- A rational stand-in for `std::sqrt`, exact on squares of rationals; it is
used only to run the model on concrete inputs. -/
def sqrt_model (x : ℚ) : ℚ := (Nat.sqrt x.num.toNat : ℚ) / (Nat.sqrt x.den : ℚ)

/-! ## Eigen vectors and matrices -/

/-- `Eigen::Vector3d`. -/
structure Vector3d where
  x : ℚ
  y : ℚ
  z : ℚ
  deriving DecidableEq, Repr

/-- `Eigen::Vector4d`; index 3 of the source is the field `w`. -/
structure Vector4d where
  x : ℚ
  y : ℚ
  z : ℚ
  w : ℚ
  deriving DecidableEq, Repr

/-- `Eigen::Matrix4d`, stored by rows: entry `(i, 3)` is the field `w` of row `i`. -/
structure Matrix4d where
  r0 : Vector4d
  r1 : Vector4d
  r2 : Vector4d
  r3 : Vector4d
  deriving DecidableEq, Repr

namespace Vector3d

/-- `a - b`. -/
def sub (a b : Vector3d) : Vector3d := ⟨a.x - b.x, a.y - b.y, a.z - b.z⟩

/-- `a.cross(b)`. -/
def cross (a b : Vector3d) : Vector3d :=
  ⟨a.y * b.z - a.z * b.y, a.z * b.x - a.x * b.z, a.x * b.y - a.y * b.x⟩

/-- `a.dot(b)`. -/
def dot (a b : Vector3d) : ℚ := a.x * b.x + a.y * b.y + a.z * b.z

/-- `a.squaredNorm()`. -/
def squaredNorm (a : Vector3d) : ℚ := a.dot a

/-- Eigen's `normalized()` (library code, Eigen 3.3 and later): the vector
divided by the square root of its squared norm when that is positive, the
vector itself otherwise. -/
def normalized (sqrt : ℚ → ℚ) (a : Vector3d) : Vector3d :=
  let z := a.squaredNorm
  if z > 0 then ⟨a.x / sqrt z, a.y / sqrt z, a.z / sqrt z⟩ else a

end Vector3d

namespace Vector4d

/-- `a + b`. -/
def add (a b : Vector4d) : Vector4d := ⟨a.x + b.x, a.y + b.y, a.z + b.z, a.w + b.w⟩

/-- `a - b`. -/
def sub (a b : Vector4d) : Vector4d := ⟨a.x - b.x, a.y - b.y, a.z - b.z, a.w - b.w⟩

/-- `a * t` for a scalar `t`. -/
def smul (a : Vector4d) (t : ℚ) : Vector4d := ⟨a.x * t, a.y * t, a.z * t, a.w * t⟩

/-- `a.dot(b)`. -/
def dot (a b : Vector4d) : ℚ := a.x * b.x + a.y * b.y + a.z * b.z + a.w * b.w

end Vector4d

/-- `matrix * vec`. -/
def Matrix4d.mulVec (m : Matrix4d) (v : Vector4d) : Vector4d :=
  ⟨m.r0.dot v, m.r1.dot v, m.r2.dot v, m.r3.dot v⟩

/-! ## geometry.cpp -/

/-- `normalize_vector`: divide by `w`, or throw when `w = 0`. -/
def normalize_vector (vec : Vector4d) : Except Error Vector4d :=
  if vec.w ≠ 0 then
    .ok ⟨vec.x / vec.w, vec.y / vec.w, vec.z / vec.w, 1⟩
  else
    .error .invalid_argument

/-- `apply_transform_and_normalize`. -/
def apply_transform_and_normalize (vec : Vector4d) (matrix : Matrix4d) :
    Except Error Vector4d :=
  let transformed_vec := matrix.mulVec vec
  normalize_vector transformed_vec

/-- `from_3d_to_4d`. -/
def from_3d_to_4d (vec3 : Vector3d) : Vector4d := ⟨vec3.x, vec3.y, vec3.z, 1⟩

/-- `from_4d_to_3d`. -/
def from_4d_to_3d (vec4 : Vector4d) : Except Error Vector3d := do
  let normalized_vec ← normalize_vector vec4
  pure ⟨normalized_vec.x, normalized_vec.y, normalized_vec.z⟩

/-! ## objects.cpp: primitives -/

/-- Modelled from the spec: `Color` is declared in `objects.h`, which is not
among the sources; three small-integer channels `r`, `g`, `b`, as read by
`Screen::put_pixel`. -/
structure Color where
  r : Nat
  g : Nat
  b : Nat
  deriving DecidableEq, Repr

/-- Modelled from the spec: class `Point` is declared in `objects.h`, which is
not among the sources; the members `p_`, `color_` are those `objects.cpp` and
`renderer.cpp` read and write. -/
structure Point where
  p_ : Vector4d
  color_ : Color
  deriving DecidableEq, Repr

/-- Modelled from the spec: class `Sector` (the spec's Segment) is declared in
`objects.h`, which is not among the sources; members `p1_`, `p2_`, `color_` as
`objects.cpp` uses them. -/
structure Sector where
  p1_ : Vector4d
  p2_ : Vector4d
  color_ : Color
  deriving DecidableEq, Repr

/-- Modelled from the spec: class `Triangle` is declared in `objects.h`, which
is not among the sources; members `p1_`, `p2_`, `p3_`, `color_` as
`objects.cpp` uses them. -/
structure Triangle where
  p1_ : Vector4d
  p2_ : Vector4d
  p3_ : Vector4d
  color_ : Color
  deriving DecidableEq, Repr

/-- Modelled from the spec: class `Plane` is declared in `objects.h`, which is
not among the sources; its member `nd_` holds the normal and the offset `d`.
The anonymous constructor is `Plane::Plane(Vector4d normal_d)`. -/
structure Plane where
  nd_ : Vector4d
  deriving DecidableEq, Repr

/-- Modelled from the spec: class `Line` is declared in `objects.h`, which is
not among the sources; members `s_` (start) and `v_` (direction).  The
anonymous constructor is `Line::Line(Vector4d start, Vector4d direction)`, the
one a call `Line(a, b)` on two vectors selects. -/
structure Line where
  s_ : Vector4d
  v_ : Vector4d
  deriving DecidableEq, Repr

/-- `Triangle::Triangle(Vector4d, Vector4d, Vector4d, Color)`: every vertex is
normalised. -/
def Triangle.of_4d (p1 p2 p3 : Vector4d) (color : Color) : Except Error Triangle := do
  let q1 ← normalize_vector p1
  let q2 ← normalize_vector p2
  let q3 ← normalize_vector p3
  pure ⟨q1, q2, q3, color⟩

/-- `Triangle::Triangle(Vector3d, Vector3d, Vector3d, Color)`. -/
def Triangle.of_3d (p1 p2 p3 : Vector3d) (color : Color) : Triangle :=
  ⟨from_3d_to_4d p1, from_3d_to_4d p2, from_3d_to_4d p3, color⟩

/-- `Triangle::transform`. -/
def Triangle.transform (self : Triangle) (m : Matrix4d) : Except Error Triangle := do
  let q1 ← apply_transform_and_normalize self.p1_ m
  let q2 ← apply_transform_and_normalize self.p2_ m
  let q3 ← apply_transform_and_normalize self.p3_ m
  Triangle.of_4d q1 q2 q3 self.color_

/-- `Point::Point(Vector4d, Color)`. -/
def Point.of_4d (p : Vector4d) (color : Color) : Except Error Point := do
  let q ← normalize_vector p
  pure ⟨q, color⟩

/-- `Point::Point(Vector3d, Color)`. -/
def Point.of_3d (p : Vector3d) (color : Color) : Point := ⟨from_3d_to_4d p, color⟩

/-- `Point::transform`. -/
def Point.transform (self : Point) (m : Matrix4d) : Except Error Point := do
  let q ← apply_transform_and_normalize self.p_ m
  Point.of_4d q self.color_

/-- `Sector::Sector(Vector4d, Vector4d, Color)`. -/
def Sector.of_4d (p1 p2 : Vector4d) (color : Color) : Except Error Sector := do
  let q1 ← normalize_vector p1
  let q2 ← normalize_vector p2
  pure ⟨q1, q2, color⟩

/-- `Sector::Sector(Vector3d, Vector3d, Color)`. -/
def Sector.of_3d (p1 p2 : Vector3d) (color : Color) : Sector :=
  ⟨from_3d_to_4d p1, from_3d_to_4d p2, color⟩

/-- `Sector::transform`. -/
def Sector.transform (self : Sector) (m : Matrix4d) : Except Error Sector := do
  let q1 ← apply_transform_and_normalize self.p1_ m
  let q2 ← apply_transform_and_normalize self.p2_ m
  Sector.of_4d q1 q2 self.color_

/-- `Plane::Plane(p1, p2, p3)`: the plane through three points. -/
def Plane.of_points (sqrt : ℚ → ℚ) (p1 p2 p3 : Vector3d) : Plane :=
  let normal := ((p2.sub p1).cross (p3.sub p1)).normalized sqrt
  ⟨⟨normal.x, normal.y, normal.z, -(p1.dot normal)⟩⟩

/-- `Plane::Plane(const Vector3d& normal, double d)`. -/
def Plane.of_normal (sqrt : ℚ → ℚ) (normal : Vector3d) (d : ℚ) : Plane :=
  let n := normal.normalized sqrt
  ⟨⟨n.x, n.y, n.z, d⟩⟩

/-- `Plane::distance_to_point`. -/
def Plane.distance_to_point (self : Plane) (point : Vector4d) : Except Error ℚ := do
  let q ← normalize_vector point
  pure (self.nd_.dot q)

/-- `Line::Line(const Sector&)`. -/
def Line.of_sector (sector : Sector) : Except Error Line := do
  let s ← normalize_vector sector.p1_
  let q1 ← normalize_vector sector.p1_
  let q2 ← normalize_vector sector.p2_
  pure ⟨s, q1.sub q2⟩

/-- `Line::operator()`: the point of the line at parameter `t`. -/
def Line.at (self : Line) (t : ℚ) : Vector4d := self.s_.add (self.v_.smul t)

/-- `plane_line_intersection`. -/
def plane_line_intersection (line : Line) (plane : Plane) : Except Error Vector4d :=
  let dot_product := plane.nd_.dot line.v_
  if dot_product = 0 then
    .error .runtime_error
  else
    .ok (line.at ((-(plane.nd_.dot line.s_)) / dot_product))

/-! ## camera.cpp -/

/-- Class `Frustum`. -/
structure Frustum where
  left_ : ℚ
  right_ : ℚ
  bottom_ : ℚ
  top_ : ℚ
  near_ : ℚ
  far_ : ℚ
  left_plane_ : Plane
  right_plane_ : Plane
  top_plane_ : Plane
  bottom_plane_ : Plane
  far_plane_ : Plane
  near_plane_ : Plane
  proj_matrix_ : Matrix4d
  deriving DecidableEq, Repr

namespace Frustum

/-- `Frustum::compute_projection_matrix`. -/
def compute_projection_matrix (self : Frustum) : Frustum :=
  { self with
    proj_matrix_ :=
      ⟨⟨2 * self.near_ / (self.right_ - self.left_), 0,
          (self.right_ + self.left_) / (self.right_ - self.left_), 0⟩,
        ⟨0, 2 * self.near_ / (self.top_ - self.bottom_),
          (self.top_ + self.bottom_) / (self.top_ - self.bottom_), 0⟩,
        ⟨0, 0, -(self.far_ + self.near_) / (self.far_ - self.near_),
          -2 * self.far_ * self.near_ / (self.far_ - self.near_)⟩,
        ⟨0, 0, -1, 0⟩⟩ }

/-- `Frustum::initialize_planes`. -/
def initialize_planes (sqrt : ℚ → ℚ) (self : Frustum) : Frustum :=
  { self with
    near_plane_ := Plane.of_points sqrt ⟨self.left_, self.bottom_, self.near_⟩
      ⟨self.left_, self.top_, -self.near_⟩ ⟨self.right_, self.bottom_, -self.near_⟩
    left_plane_ := Plane.of_points sqrt ⟨0, 0, 0⟩
      ⟨self.left_, self.bottom_, -self.near_⟩ ⟨self.left_, self.top_, -self.near_⟩
    right_plane_ := Plane.of_points sqrt ⟨0, 0, 0⟩
      ⟨self.right_, self.top_, -self.near_⟩ ⟨self.right_, self.bottom_, -self.near_⟩
    top_plane_ := Plane.of_points sqrt ⟨0, 0, 0⟩
      ⟨self.left_, self.top_, -self.near_⟩ ⟨self.right_, self.top_, -self.near_⟩
    bottom_plane_ := Plane.of_points sqrt ⟨0, 0, 0⟩
      ⟨self.right_, self.bottom_, -self.near_⟩ ⟨self.left_, self.bottom_, -self.near_⟩
    far_plane_ := Plane.of_points sqrt ⟨self.left_, self.bottom_, -self.far_⟩
      ⟨self.right_, self.bottom_, -self.far_⟩ ⟨self.left_, self.top_, -self.far_⟩ }

/-- The members of a `Frustum` right after the member-initialiser list of the
constructor: the six parameters are set, planes and matrix not yet computed
(both are overwritten before they are read). -/
def uninitialized (left right bottom top near far : ℚ) : Frustum :=
  { left_ := left, right_ := right, bottom_ := bottom, top_ := top,
    near_ := near, far_ := far,
    left_plane_ := ⟨⟨0, 0, 0, 0⟩⟩, right_plane_ := ⟨⟨0, 0, 0, 0⟩⟩,
    top_plane_ := ⟨⟨0, 0, 0, 0⟩⟩, bottom_plane_ := ⟨⟨0, 0, 0, 0⟩⟩,
    far_plane_ := ⟨⟨0, 0, 0, 0⟩⟩, near_plane_ := ⟨⟨0, 0, 0, 0⟩⟩,
    proj_matrix_ := ⟨⟨0, 0, 0, 0⟩, ⟨0, 0, 0, 0⟩, ⟨0, 0, 0, 0⟩, ⟨0, 0, 0, 0⟩⟩ }

/-- `Frustum::Frustum`: planes, then the three `assert`s, then the matrix. -/
def new (sqrt : ℚ → ℚ) (left right bottom top near far : ℚ) : Except Error Frustum :=
  let self := (uninitialized left right bottom top near far).initialize_planes sqrt
  if ¬ (self.left_ ≠ self.right_) then .error .assertion_failed
  else if ¬ (self.bottom_ ≠ self.top_) then .error .assertion_failed
  else if ¬ (self.near_ ≠ self.far_) then .error .assertion_failed
  else .ok self.compute_projection_matrix

/-- `Frustum::update_params`. -/
def update_params (sqrt : ℚ → ℚ) (self : Frustum)
    (left right bottom top near far : ℚ) : Frustum :=
  let self := { self with
    left_ := left, right_ := right, bottom_ := bottom, top_ := top,
    near_ := near, far_ := far }
  let self := self.initialize_planes sqrt
  self.compute_projection_matrix

/-- `Frustum::get_projection_matrix`. -/
def get_projection_matrix (self : Frustum) : Matrix4d := self.proj_matrix_

/-- `Frustum::get_frustum_planes`: near, left, right, top, bottom, far. -/
def get_frustum_planes (self : Frustum) : List Plane :=
  [self.near_plane_, self.left_plane_, self.right_plane_, self.top_plane_,
    self.bottom_plane_, self.far_plane_]

end Frustum

/-! ## renderer.cpp -/

/-- Modelled from the spec: class `Object` is declared in `objects.h`, which is
not among the sources; the model matrix and the untransformed primitives, as
`objects.cpp` uses them. -/
structure Object where
  transform_matrix_ : Matrix4d
  points_ : List Point
  sectors_ : List Sector
  triangles_ : List Triangle
  deriving DecidableEq, Repr

/-- Struct `ViewBox` of `box.h`. -/
structure ViewBox where
  triangles_ : List Triangle
  points_ : List Point
  sectors_ : List Sector
  deriving DecidableEq, Repr

/-- Class `World`. -/
structure World where
  frustum_ : Frustum
  objects_ : List Object
  triangles_ : List Triangle
  points_ : List Point
  sectors_ : List Sector
  deriving DecidableEq, Repr

/-- `all_points_inside(dists...)`: the fold `((dists >= 0) && ...)`. -/
def all_points_inside (dists : List ℚ) : Bool := dists.all fun d => decide (d ≥ 0)

namespace World

/-- `World::World()`: the default frustum `(-1, 1, -1, 1, 1, 10)`, nothing
registered. -/
def new (sqrt : ℚ → ℚ) : Except Error World := do
  let frustum ← Frustum.new sqrt (-1) 1 (-1) 1 1 10
  pure ⟨frustum, [], [], [], []⟩

/-- `World::add_triangle`. -/
def add_triangle (self : World) (triangle : Triangle) : World :=
  { self with triangles_ := self.triangles_ ++ [triangle] }

/-- `World::add_point`. -/
def add_point (self : World) (point : Point) : World :=
  { self with points_ := self.points_ ++ [point] }

/-- `World::add_sector`. -/
def add_sector (self : World) (sector : Sector) : World :=
  { self with sectors_ := self.sectors_ ++ [sector] }

/-- `World::add_object`. -/
def add_object (self : World) (object : Object) : World :=
  { self with objects_ := self.objects_ ++ [object] }

/-- `World::change_frustum_params`. -/
def change_frustum_params (sqrt : ℚ → ℚ) (self : World)
    (left right bottom top near far : ℚ) : World :=
  { self with frustum_ := self.frustum_.update_params sqrt left right bottom top near far }

/-- The loop of `World::clip_point` over the remaining planes. -/
def clip_point_loop (p : Point) : List Plane → Except Error (Option Point)
  | [] => .ok (some p)
  | plane :: rest => do
    let d ← plane.distance_to_point p.p_
    if d < 0 then
      pure none
    else
      clip_point_loop p rest

/-- `World::clip_point`. -/
def clip_point (self : World) (p : Point) : Except Error (Option Point) :=
  clip_point_loop p self.frustum_.get_frustum_planes

/-- `World::update_sector`. -/
def update_sector (s : Sector) (new_point : Vector4d) (p1_dist : ℚ) :
    Except Error Sector :=
  if p1_dist < 0 then
    Sector.of_4d new_point s.p2_ s.color_
  else
    Sector.of_4d s.p1_ new_point s.color_

/-- The loop of `World::clip_sector` over the remaining planes, with the
current sector `s`. -/
def clip_sector_loop : List Plane → Sector → Except Error (Option Sector)
  | [], s => .ok (some s)
  | plane :: rest, s => do
    let p1_dist ← plane.distance_to_point s.p1_
    let p2_dist ← plane.distance_to_point s.p2_
    if all_points_inside [p1_dist, p2_dist] then
      pure none
    else if !all_points_inside [p1_dist, p2_dist] then
      clip_sector_loop rest s
    else do
      let new_point ← plane_line_intersection ⟨s.p1_, s.p2_⟩ plane
      let s2 ← update_sector s new_point p1_dist
      clip_sector_loop rest s2

/-- `World::clip_sector`. -/
def clip_sector (self : World) (s : Sector) : Except Error (Option Sector) :=
  clip_sector_loop self.frustum_.get_frustum_planes s

/-- `World::handle_partial_clipping`; `result` is returned with the two new
triangles appended. -/
def handle_partial_clipping (triangle : Triangle) (p1_dist p2_dist _p3_dist : ℚ)
    (plane : Plane) (result : List Triangle) : Except Error (List Triangle) := do
  let (inside1, inside2, outside) :=
    if p1_dist < 0 then (triangle.p2_, triangle.p3_, triangle.p1_)
    else if p2_dist < 0 then (triangle.p3_, triangle.p1_, triangle.p2_)
    else (triangle.p1_, triangle.p2_, triangle.p3_)
  let intersection1 ← plane_line_intersection ⟨inside1, outside⟩ plane
  let intersection2 ← plane_line_intersection ⟨inside2, outside⟩ plane
  let t1 ← Triangle.of_4d inside1 intersection1 inside2 triangle.color_
  let t2 ← Triangle.of_4d inside2 intersection1 intersection2 triangle.color_
  pure (result ++ [t1, t2])

/-- `World::process_clipping_against_plane`; `result` is returned updated. -/
def process_clipping_against_plane (triangle : Triangle) (plane : Plane)
    (result : List Triangle) : Except Error (List Triangle) := do
  let p1_dist ← plane.distance_to_point triangle.p1_
  let p2_dist ← plane.distance_to_point triangle.p2_
  let p3_dist ← plane.distance_to_point triangle.p3_
  if all_points_inside [p1_dist, p2_dist, p3_dist] then
    pure (result ++ [triangle])
  else if !all_points_inside [p1_dist, p2_dist, p3_dist] then
    pure result
  else
    handle_partial_clipping triangle p1_dist p2_dist p3_dist plane result

/-- The inner loop of `World::clip_triangle`: every triangle still to clip is
processed against one plane. -/
def clip_triangles_against_plane (plane : Plane) :
    List Triangle → List Triangle → Except Error (List Triangle)
  | [], clipped_triangles => .ok clipped_triangles
  | triangle :: rest, clipped_triangles => do
    let clipped ← process_clipping_against_plane triangle plane clipped_triangles
    clip_triangles_against_plane plane rest clipped

/-- The outer loop of `World::clip_triangle` over the remaining planes. -/
def clip_triangle_loop : List Plane → List Triangle → Except Error (List Triangle)
  | [], triangles_to_clip => .ok triangles_to_clip
  | plane :: rest, triangles_to_clip => do
    let clipped_triangles ← clip_triangles_against_plane plane triangles_to_clip []
    clip_triangle_loop rest clipped_triangles

/-- `World::clip_triangle`. -/
def clip_triangle (self : World) (t : Triangle) : Except Error (List Triangle) :=
  clip_triangle_loop self.frustum_.get_frustum_planes [t]

/-- `World::project<Sector>`. -/
def project_sector (self : World) (obj : Sector) : Except Error Sector :=
  obj.transform self.frustum_.get_projection_matrix

/-- `World::project<Point>`. -/
def project_point (self : World) (obj : Point) : Except Error Point :=
  obj.transform self.frustum_.get_projection_matrix

/-- `World::project<Triangle>`. -/
def project_triangle (self : World) (obj : Triangle) : Except Error Triangle :=
  obj.transform self.frustum_.get_projection_matrix

/-- The loop of `World::process_sectors` over the remaining sectors. -/
def process_sectors_loop (self : World) : List Sector → ViewBox → Except Error ViewBox
  | [], view_box => .ok view_box
  | sector :: rest, view_box => do
    match ← self.clip_sector sector with
    | some clipped =>
      let projected ← self.project_sector clipped
      process_sectors_loop self rest
        { view_box with sectors_ := view_box.sectors_ ++ [projected] }
    | none => process_sectors_loop self rest view_box

/-- `World::process_sectors`. -/
def process_sectors (self : World) (view_box : ViewBox) : Except Error ViewBox :=
  process_sectors_loop self self.sectors_ view_box

/-- The loop of `World::process_points` over the remaining points. -/
def process_points_loop (self : World) : List Point → ViewBox → Except Error ViewBox
  | [], view_box => .ok view_box
  | point :: rest, view_box => do
    match ← self.clip_point point with
    | some clipped =>
      let projected ← self.project_point clipped
      process_points_loop self rest
        { view_box with points_ := view_box.points_ ++ [projected] }
    | none => process_points_loop self rest view_box

/-- `World::process_points`. -/
def process_points (self : World) (view_box : ViewBox) : Except Error ViewBox :=
  process_points_loop self self.points_ view_box

end World

/-! ## geometry.cpp: matrix product and rotation -/

namespace Matrix4d

/-- Column 0 of a matrix. -/
def col0 (m : Matrix4d) : Vector4d := ⟨m.r0.x, m.r1.x, m.r2.x, m.r3.x⟩

/-- Column 1 of a matrix. -/
def col1 (m : Matrix4d) : Vector4d := ⟨m.r0.y, m.r1.y, m.r2.y, m.r3.y⟩

/-- Column 2 of a matrix. -/
def col2 (m : Matrix4d) : Vector4d := ⟨m.r0.z, m.r1.z, m.r2.z, m.r3.z⟩

/-- Column 3 of a matrix (the translation column and the `(3, 3)` entry). -/
def col3 (m : Matrix4d) : Vector4d := ⟨m.r0.w, m.r1.w, m.r2.w, m.r3.w⟩

/-- The row of `a * b` that comes from the row `r` of `a`. -/
def mulRow (r : Vector4d) (b : Matrix4d) : Vector4d :=
  ⟨r.dot b.col0, r.dot b.col1, r.dot b.col2, r.dot b.col3⟩

/-- The matrix product `a * b`. -/
def mul (a b : Matrix4d) : Matrix4d :=
  ⟨mulRow a.r0 b, mulRow a.r1 b, mulRow a.r2 b, mulRow a.r3 b⟩

/-- The result of `setIdentity()`. -/
def identity : Matrix4d := ⟨⟨1, 0, 0, 0⟩, ⟨0, 1, 0, 0⟩, ⟨0, 0, 1, 0⟩, ⟨0, 0, 0, 1⟩⟩

end Matrix4d

/-- `create_rotation_matrix`. -/
def create_rotation_matrix (cos sin : ℚ → ℚ) (axis : Vector3d) (angle : ℚ) : Matrix4d :=
  let cos_theta := cos angle
  let sin_theta := sin angle
  let x := axis.x
  let y := axis.y
  let z := axis.z
  ⟨⟨cos_theta + (1 - cos_theta) * x * x, (1 - cos_theta) * x * y - sin_theta * z,
      (1 - cos_theta) * x * z + sin_theta * y, 0⟩,
    ⟨(1 - cos_theta) * x * y + sin_theta * z, cos_theta + (1 - cos_theta) * y * y,
      (1 - cos_theta) * y * z - sin_theta * x, 0⟩,
    ⟨(1 - cos_theta) * x * z - sin_theta * y, (1 - cos_theta) * y * z + sin_theta * x,
      cos_theta + (1 - cos_theta) * z * z, 0⟩,
    ⟨0, 0, 0, 1⟩⟩

/-! ## objects.cpp: Object -/

namespace Object

/-- `Object::Object()`: identity model matrix, no primitives. -/
def new : Object := ⟨Matrix4d.identity, [], [], []⟩

/-- `Object::get_translation`. -/
def get_translation (self : Object) : Vector3d :=
  ⟨self.transform_matrix_.r0.w, self.transform_matrix_.r1.w, self.transform_matrix_.r2.w⟩

/-- `Object::add_point`. -/
def add_point (self : Object) (point : Point) : Object :=
  { self with points_ := self.points_ ++ [point] }

/-- `Object::add_sector`. -/
def add_sector (self : Object) (sector : Sector) : Object :=
  { self with sectors_ := self.sectors_ ++ [sector] }

/-- `Object::add_triangle`. -/
def add_triangle (self : Object) (triangle : Triangle) : Object :=
  { self with triangles_ := self.triangles_ ++ [triangle] }

/-- `Object::rotate_global`. -/
def rotate_global (cos sin : ℚ → ℚ) (self : Object) (axis : Vector3d) (angle : ℚ) : Object :=
  { self with
    transform_matrix_ := (create_rotation_matrix cos sin axis angle).mul self.transform_matrix_ }

/-- `Object::reset_translation`. -/
def reset_translation (self : Object) : Object :=
  { self with
    transform_matrix_ :=
      ⟨{ self.transform_matrix_.r0 with w := 0 }, { self.transform_matrix_.r1 with w := 0 },
        { self.transform_matrix_.r2 with w := 0 }, self.transform_matrix_.r3⟩ }

/-- `Object::restore_translation`. -/
def restore_translation (self : Object) (translation : Vector3d) : Object :=
  { self with
    transform_matrix_ :=
      ⟨{ self.transform_matrix_.r0 with w := translation.x },
        { self.transform_matrix_.r1 with w := translation.y },
        { self.transform_matrix_.r2 with w := translation.z }, self.transform_matrix_.r3⟩ }

/-- `Object::rotate_local`. -/
def rotate_local (cos sin : ℚ → ℚ) (self : Object) (axis : Vector3d) (angle : ℚ) : Object :=
  let translate_vector := self.get_translation
  let self := self.reset_translation
  let self := { self with
    transform_matrix_ := (create_rotation_matrix cos sin axis angle).mul self.transform_matrix_ }
  self.restore_translation translate_vector

/-- `Object::translate`. -/
def translate (self : Object) (translation : Vector3d) : Object :=
  { self with
    transform_matrix_ :=
      ⟨{ self.transform_matrix_.r0 with w := self.transform_matrix_.r0.w + translation.x },
        { self.transform_matrix_.r1 with w := self.transform_matrix_.r1.w + translation.y },
        { self.transform_matrix_.r2 with w := self.transform_matrix_.r2.w + translation.z },
        self.transform_matrix_.r3⟩ }

/-- `Object::get_transform`. -/
def get_transform (self : Object) : Matrix4d := self.transform_matrix_

/-- `Object::set_transform`. -/
def set_transform (self : Object) (matrix : Matrix4d) : Object :=
  { self with transform_matrix_ := matrix }

/-- `Object::apply_transform`. -/
def apply_transform (self : Object) (m : Matrix4d) : Object :=
  { self with transform_matrix_ := m.mul self.transform_matrix_ }

/-- The loop of `Object::get_triangles`. -/
def get_triangles_loop (m : Matrix4d) : List Triangle → List Triangle →
    Except Error (List Triangle)
  | [], transformed_triangles => .ok transformed_triangles
  | triangle :: rest, transformed_triangles => do
    let t ← triangle.transform m
    get_triangles_loop m rest (transformed_triangles ++ [t])

/-- `Object::get_triangles`. -/
def get_triangles (self : Object) : Except Error (List Triangle) :=
  get_triangles_loop self.transform_matrix_ self.triangles_ []

/-- The loop of `Object::get_points`. -/
def get_points_loop (m : Matrix4d) : List Point → List Point → Except Error (List Point)
  | [], transformed_points => .ok transformed_points
  | point :: rest, transformed_points => do
    let q ← point.transform m
    get_points_loop m rest (transformed_points ++ [q])

/-- `Object::get_points`. -/
def get_points (self : Object) : Except Error (List Point) :=
  get_points_loop self.transform_matrix_ self.points_ []

/-- The loop of `Object::get_sectors`. -/
def get_sectors_loop (m : Matrix4d) : List Sector → List Sector → Except Error (List Sector)
  | [], transformed_sectors => .ok transformed_sectors
  | sector :: rest, transformed_sectors => do
    let s ← sector.transform m
    get_sectors_loop m rest (transformed_sectors ++ [s])

/-- `Object::get_sectors`. -/
def get_sectors (self : Object) : Except Error (List Sector) :=
  get_sectors_loop self.transform_matrix_ self.sectors_ []

end Object

/-! ## renderer.cpp: the render batch -/

namespace World

/-- The loop of `World::collect_scene_elements` over the remaining objects;
`append_elements` is list concatenation. -/
def collect_scene_elements_loop : List Object → World → Except Error World
  | [], self => .ok self
  | object :: rest, self => do
    let points ← object.get_points
    let self := { self with points_ := self.points_ ++ points }
    let sectors ← object.get_sectors
    let self := { self with sectors_ := self.sectors_ ++ sectors }
    let triangles ← object.get_triangles
    let self := { self with triangles_ := self.triangles_ ++ triangles }
    collect_scene_elements_loop rest self

/-- `World::collect_scene_elements`. -/
def collect_scene_elements (self : World) : Except Error World :=
  collect_scene_elements_loop self.objects_ self

/-- The inner loop of `World::process_triangles` over the clipped fragments of
one triangle. -/
def process_clipped_triangles (self : World) : List Triangle → ViewBox → Except Error ViewBox
  | [], view_box => .ok view_box
  | clipped_triangle :: rest, view_box => do
    let projected ← self.project_triangle clipped_triangle
    process_clipped_triangles self rest
      { view_box with triangles_ := view_box.triangles_ ++ [projected] }

/-- The outer loop of `World::process_triangles`. -/
def process_triangles_loop (self : World) : List Triangle → ViewBox → Except Error ViewBox
  | [], view_box => .ok view_box
  | triangle :: rest, view_box => do
    let clipped_triangles ← self.clip_triangle triangle
    let view_box ← process_clipped_triangles self clipped_triangles view_box
    process_triangles_loop self rest view_box

/-- `World::process_triangles`. -/
def process_triangles (self : World) (view_box : ViewBox) : Except Error ViewBox :=
  process_triangles_loop self self.triangles_ view_box

/-- `World::make_view_box`; the method is not `const`, so the world it leaves
behind is returned next to the ViewBox. -/
def make_view_box (self : World) : Except Error (ViewBox × World) := do
  let view_box : ViewBox := ⟨[], [], []⟩
  let self ← self.collect_scene_elements
  let view_box ← self.process_points view_box
  let view_box ← self.process_sectors view_box
  let view_box ← self.process_triangles view_box
  pure (view_box, self)

end World

/-! ## box.cpp: Screen -/

/-- Class `Screen` of `box.h`: the three colour planes, the depth buffer and
the dimensions.  The matrices are `w × h`; `r i j` is the source's `r(i, j)`. -/
structure Screen where
  r : Int → Int → Int
  g : Int → Int → Int
  b : Int → Int → Int
  z_buffer : Int → Int → ℚ
  w : Int
  h : Int

/-- `static_cast<int>` of a `double` or `float`: truncation toward zero when the
truncated value is an `int` of 32 bits, that is for `-2^31 - 1 < q < 2^31`.  For
any other value the conversion is undefined in C++; `oor q` is what the machine
yields then, and nothing is assumed about it. -/
def static_cast_int (oor : ℚ → Int) (q : ℚ) : Int :=
  if -2147483649 < q ∧ q < 2147483648 then (if 0 ≤ q then ⌊q⌋ else ⌈q⌉) else oor q

/-- `std::clamp(v, lo, hi)`. -/
def clamp (v lo hi : Int) : Int := if v < lo then lo else if hi < v then hi else v

/-- Assignment `m(i, j) = v` to one entry of a matrix. -/
def set_coeff {α : Type} (m : Int → Int → α) (i j : Int) (v : α) : Int → Int → α :=
  fun a b => if a = i ∧ b = j then v else m a b

namespace Screen

/-- `Screen::Screen(width, height)`: colours zero, depth the sentinel `2`. -/
def new (width height : Int) : Screen :=
  { r := fun _ _ => 0, g := fun _ _ => 0, b := fun _ _ => 0,
    z_buffer := fun _ _ => 2, w := width, h := height }

/-- `Screen::rasterize_point`.  The value converted to `int` decides the pixel,
so the three `double` operations of `(x + 1.0) * w / 2` are rounded here: `fl`
maps the exact result of an operation to the `double` the machine stores, and
nothing is assumed about it.  The conversions of `w`, `h` and `2` to `double`
are exact. -/
def rasterize_point (self : Screen) (fl : ℚ → ℚ) (oor : ℚ → Int) (x y : ℚ) : Int × Int :=
  let i := clamp (static_cast_int oor (fl (fl (fl (x + 1) * self.w) / 2))) 0 (self.w - 1)
  let j := clamp (static_cast_int oor (fl (fl (fl (y + 1) * self.h) / 2))) 0 (self.h - 1)
  (i, j)

/-- `Screen::put_pixel`; reading `z_buffer(i, j)` outside the matrix is
Eigen's index assertion. -/
def put_pixel (self : Screen) (i j : Int) (color : Color) (z : ℚ) : Except Error Screen :=
  if ¬ (0 ≤ i ∧ i < self.w ∧ 0 ≤ j ∧ j < self.h) then
    .error .assertion_failed
  else if z < self.z_buffer i j then
    .ok { self with
      z_buffer := set_coeff self.z_buffer i j z
      r := set_coeff self.r i j color.r
      g := set_coeff self.g i j color.g
      b := set_coeff self.b i j color.b }
  else
    .ok self

/-- `Screen::rasterize_and_put(const Point&)`. -/
def rasterize_and_put_point (self : Screen) (fl : ℚ → ℚ) (oor : ℚ → Int) (p : Point) :
    Except Error Screen :=
  let ij := self.rasterize_point fl oor p.p_.x p.p_.y
  self.put_pixel ij.1 ij.2 p.color_ p.p_.z

/-- The `while` loop of `Screen::draw_line`, run for at most `fuel` steps from
the current pixel `(x1, y1)` and error term `err`. -/
def draw_line_loop (x2 y2 : Int) (z1 z2 : ℚ) (dx dy sx sy : Int) (color : Color) :
    Nat → Int → Int → Int → Screen → Except Error Screen
  | 0, x1, y1, _, screen =>
    if x1 ≠ x2 ∨ y1 ≠ y2 then .error .out_of_fuel else .ok screen
  | fuel + 1, x1, y1, err, screen =>
    if x1 ≠ x2 ∨ y1 ≠ y2 then do
      let z := z1 + (z2 - z1) *
        (if dx > dy then ((|x1 - x2| : Int) : ℚ) / (dx : ℚ)
          else ((|y1 - y2| : Int) : ℚ) / (dy : ℚ))
      let screen ← screen.put_pixel x1 y1 color z
      let e2 := err * 2
      let err1 := if e2 > -dy then err - dy else err
      let x1n := if e2 > -dy then x1 + sx else x1
      let err2 := if e2 < dx then err1 + dx else err1
      let y1n := if e2 < dx then y1 + sy else y1
      draw_line_loop x2 y2 z1 z2 dx dy sx sy color fuel x1n y1n err2 screen
    else
      .ok screen

/-- `Screen::draw_line`, its loop run for at most `fuel` steps. -/
def draw_line (self : Screen) (fuel : Nat) (x1 y1 : Int) (z1 : ℚ) (x2 y2 : Int) (z2 : ℚ)
    (color : Color) : Except Error Screen :=
  let dx := |x2 - x1|
  let dy := |y2 - y1|
  let sx : Int := if x1 < x2 then 1 else -1
  let sy : Int := if y1 < y2 then 1 else -1
  let err := dx - dy
  draw_line_loop x2 y2 z1 z2 dx dy sx sy color fuel x1 y1 err self

/-- A vertex as `Screen::fill_triangle` receives it: pixel column, pixel row
and depth. -/
structure PixelVertex where
  x : Int
  y : Int
  z : ℚ

/-- A division of `fill_triangle`; dividing by zero is reported as
`division_by_zero`. -/
def checked_div (a b : ℚ) : Except Error ℚ :=
  if b = 0 then .error .division_by_zero else .ok (a / b)

/-- The three conditional swaps at the head of `Screen::fill_triangle`. -/
def sort_by_y (v1 v2 v3 : PixelVertex) : PixelVertex × PixelVertex × PixelVertex :=
  let s12 := if v1.y > v2.y then (v2, v1) else (v1, v2)
  let s13 := if s12.1.y > v3.y then (v3, s12.1) else (s12.1, v3)
  let s23 := if s12.2.y > s13.2.y then (s13.2, s12.2) else (s12.2, s13.2)
  (s13.1, s23.1, s23.2)

/-- The flag `second_half` of row `i` in `Screen::fill_triangle`. -/
def second_half (y1 y2 i : Int) : Bool := decide (i > y2 - y1 ∨ y2 = y1)

/-- The divisor `segment_height` of row `i` in `Screen::fill_triangle`. -/
def segment_height (y1 y2 y3 i : Int) : Int :=
  if second_half y1 y2 i then y3 - y2 else y2 - y1

/-- The span parameter `phi` of column `j` in `Screen::fill_triangle`. -/
def span_parameter (ax bx j : Int) : Except Error ℚ :=
  if bx = ax then .ok 1 else checked_div ((j - ax : Int) : ℚ) ((bx - ax : Int) : ℚ)

/-- The inner loop of `Screen::fill_triangle` over the columns `ax + k`. -/
def fill_span_loop (ax bx : Int) (az bz : ℚ) (row : Int) (color : Color) :
    List Nat → Screen → Except Error Screen
  | [], screen => .ok screen
  | k :: ks, screen => do
    let j := ax + (k : Int)
    let phi ← span_parameter ax bx j
    let z := az + phi * (bz - az)
    let screen ← screen.put_pixel j row color z
    fill_span_loop ax bx az bz row color ks screen

/-- The body of the scanline loop of `Screen::fill_triangle` for row `i`, the
vertices already sorted.  The values converted to `int` decide the span, so the
`float` operations that lead to `ax` and `bx` are rounded here: `flf` maps the
exact result of an operation to the `float` the machine stores, and nothing is
assumed about it.  The conversions of the `int` operands to `float` are taken
as exact (they are up to `2^24`), and the depths `az`, `bz` are computed
exactly from the rounded `alpha` and `beta`. -/
def fill_row (flf : ℚ → ℚ) (oor : ℚ → Int) (v1 v2 v3 : PixelVertex) (color : Color)
    (i : Int) (screen : Screen) : Except Error Screen := do
  let total_height := v3.y - v1.y
  let sh := second_half v1.y v2.y i
  let alpha_exact ← checked_div (i : ℚ) (total_height : ℚ)
  let alpha := flf alpha_exact
  let beta_exact ← checked_div ((i - (if sh then v2.y - v1.y else 0) : Int) : ℚ)
    (segment_height v1.y v2.y v3.y i : ℚ)
  let beta := flf beta_exact
  let ax := static_cast_int oor (flf ((v1.x : ℚ) + flf (((v3.x - v1.x : Int) : ℚ) * alpha)))
  let bx := static_cast_int oor
    (if sh then flf ((v2.x : ℚ) + flf (((v3.x - v2.x : Int) : ℚ) * beta))
      else flf ((v1.x : ℚ) + flf (((v2.x - v1.x : Int) : ℚ) * beta)))
  let az := v1.z + (v3.z - v1.z) * alpha
  let bz := if sh then v2.z + (v3.z - v2.z) * beta else v1.z + (v2.z - v1.z) * beta
  let ax1 := if ax > bx then bx else ax
  let bx1 := if ax > bx then ax else bx
  let az1 := if ax > bx then bz else az
  let bz1 := if ax > bx then az else bz
  fill_span_loop ax1 bx1 az1 bz1 (v1.y + i) color (List.range (bx1 - ax1 + 1).toNat) screen

/-- The scanline loop of `Screen::fill_triangle` over the rows `i`. -/
def fill_rows_loop (flf : ℚ → ℚ) (oor : ℚ → Int) (v1 v2 v3 : PixelVertex) (color : Color) :
    List Nat → Screen → Except Error Screen
  | [], screen => .ok screen
  | i :: rest, screen => do
    let screen ← fill_row flf oor v1 v2 v3 color (i : Int) screen
    fill_rows_loop flf oor v1 v2 v3 color rest screen

/-- `Screen::fill_triangle`. -/
def fill_triangle (self : Screen) (flf : ℚ → ℚ) (oor : ℚ → Int) (x1 y1 : Int) (z1 : ℚ)
    (x2 y2 : Int) (z2 : ℚ) (x3 y3 : Int) (z3 : ℚ) (color : Color) : Except Error Screen :=
  let s := sort_by_y ⟨x1, y1, z1⟩ ⟨x2, y2, z2⟩ ⟨x3, y3, z3⟩
  let total_height := s.2.2.y - s.1.y
  fill_rows_loop flf oor s.1 s.2.1 s.2.2 color (List.range total_height.toNat) self

/-- `Screen::rasterize_and_put(const Triangle&)`. -/
def rasterize_and_put_triangle (self : Screen) (fl flf : ℚ → ℚ) (oor : ℚ → Int)
    (t : Triangle) : Except Error Screen :=
  let p1 := self.rasterize_point fl oor t.p1_.x t.p1_.y
  let p2 := self.rasterize_point fl oor t.p2_.x t.p2_.y
  let p3 := self.rasterize_point fl oor t.p3_.x t.p3_.y
  self.fill_triangle flf oor p1.1 p1.2 t.p1_.z p2.1 p2.2 t.p2_.z p3.1 p3.2 t.p3_.z t.color_

end Screen

/-! ## Vocabulary of the specification -/

/-- The point `v` is on the keep side of `plane`: its signed distance is
defined and `>= 0`. -/
def Inside (plane : Plane) (v : Vector4d) : Prop :=
  ∃ d, plane.distance_to_point v = .ok d ∧ 0 ≤ d

/-- The point `v` is on the discard side of `plane`: its signed distance is
defined and `< 0`. -/
def Outside (plane : Plane) (v : Vector4d) : Prop :=
  ∃ d, plane.distance_to_point v = .ok d ∧ d < 0

/-- The frustum `World::World()` holds once the constructor
`Frustum(-1, 1, -1, 1, 1, 10)` has passed its asserts (`World.new_eq`). -/
def default_frustum (sqrt : ℚ → ℚ) : Frustum :=
  ((Frustum.uninitialized (-1) 1 (-1) 1 1 10).initialize_planes sqrt).compute_projection_matrix

/-- Membership of `(x, y, z)` in the view volume of the parameters: the
truncated pyramid between `z = -near` and `z = -far` whose cross-section at
depth `-z` is the near rectangle scaled by `-z / near`. -/
def InViewVolume (left right bottom top near far x y z : ℚ) : Prop :=
  -far ≤ z ∧ z ≤ -near ∧
  left * (-z) / near ≤ x ∧ x ≤ right * (-z) / near ∧
  bottom * (-z) / near ≤ y ∧ y ≤ top * (-z) / near

/-- The sum of two 3D vectors. -/
def Vector3d.add (a b : Vector3d) : Vector3d := ⟨a.x + b.x, a.y + b.y, a.z + b.z⟩

/-- A 3D vector scaled by `t`. -/
def Vector3d.smul (a : Vector3d) (t : ℚ) : Vector3d := ⟨a.x * t, a.y * t, a.z * t⟩

/-- The 3D position of a homogeneous point that is normalised (`w = 1`). -/
def Vector4d.xyz (v : Vector4d) : Vector3d := ⟨v.x, v.y, v.z⟩

/-- The cross-product area vector of the triangle `(a, b, c)`:
`(b - a) × (c - a)`, normal to the triangle, of length twice its area, its
direction given by the winding. -/
def area_vector (a b c : Vector4d) : Vector3d := (b.xyz.sub a.xyz).cross (c.xyz.sub a.xyz)

/-- The weight of the inside vertex in the point where the edge from `inside`
to `outside` meets the plane: `d_out / (d_out - d_in)` for the signed distances
of the two (normalised) vertices. -/
def edge_weight (plane : Plane) (inside outside : Vector4d) : ℚ :=
  plane.nd_.dot outside / (plane.nd_.dot outside - plane.nd_.dot inside)

/-- The point where the edge from `inside` to `outside` meets the plane, as the
combination of the two vertices with weights `edge_weight` and
`1 - edge_weight`. -/
def edge_cut (plane : Plane) (inside outside : Vector4d) : Vector4d :=
  (inside.smul (edge_weight plane inside outside)).add
    (outside.smul (1 - edge_weight plane inside outside))

/-- Exactly one of three signed distances is negative and the other two are
`>= 0`. -/
def OneOutside (d1 d2 d3 : ℚ) : Prop :=
  (d1 < 0 ∧ 0 ≤ d2 ∧ 0 ≤ d3) ∨ (0 ≤ d1 ∧ d2 < 0 ∧ 0 ≤ d3) ∨ (0 ≤ d1 ∧ 0 ≤ d2 ∧ d3 < 0)

/-- The lists `g a` that the elements `a` of a list produce, concatenated in
order; the first error stops the run. -/
def outputs {α β : Type} (g : α → Except Error (List β)) : List α → Except Error (List β)
  | [] => .ok []
  | a :: rest => do
    let d ← g a
    let ds ← outputs g rest
    pure (d ++ ds)

/-- What one point adds to the ViewBox in `process_points`: its projection if
`clip_point` keeps it, nothing otherwise. -/
def point_output (frustum : Frustum) (point : Point) : Except Error (List Point) := do
  match ← World.clip_point_loop point frustum.get_frustum_planes with
  | some clipped =>
    let projected ← clipped.transform frustum.get_projection_matrix
    pure [projected]
  | none => pure []

/-- What one segment adds to the ViewBox in `process_sectors`. -/
def sector_output (frustum : Frustum) (sector : Sector) : Except Error (List Sector) := do
  match ← World.clip_sector_loop frustum.get_frustum_planes sector with
  | some clipped =>
    let projected ← clipped.transform frustum.get_projection_matrix
    pure [projected]
  | none => pure []

/-- What one clipped fragment adds to the ViewBox in `process_triangles`. -/
def fragment_output (frustum : Frustum) (clipped_triangle : Triangle) :
    Except Error (List Triangle) := do
  let projected ← clipped_triangle.transform frustum.get_projection_matrix
  pure [projected]

/-- What one triangle adds to the ViewBox in `process_triangles`: the
projections of its clipped fragments. -/
def triangle_output (frustum : Frustum) (triangle : Triangle) :
    Except Error (List Triangle) := do
  let clipped_triangles ← World.clip_triangle_loop frustum.get_frustum_planes [triangle]
  outputs (fragment_output frustum) clipped_triangles

/-! ## Auxiliary facts -/

theorem sqrt_model_pos : SqrtPos sqrt_model := by
  intro x hx
  unfold sqrt_model
  have hn : 0 < x.num := Rat.num_pos.mpr hx
  have h1 : 0 < Nat.sqrt x.num.toNat := Nat.sqrt_pos.mpr (by omega)
  have h2 : 0 < Nat.sqrt x.den := Nat.sqrt_pos.mpr x.den_pos
  have h1q : (0 : ℚ) < (Nat.sqrt x.num.toNat : ℚ) := by exact_mod_cast h1
  have h2q : (0 : ℚ) < (Nat.sqrt x.den : ℚ) := by exact_mod_cast h2
  exact div_pos h1q h2q

theorem normalize_vector_ok (v : Vector4d) (hw : v.w ≠ 0) :
    normalize_vector v = .ok ⟨v.x / v.w, v.y / v.w, v.z / v.w, 1⟩ := by
  simp [normalize_vector, hw]

theorem normalize_vector_error (v : Vector4d) (hw : v.w = 0) :
    normalize_vector v = .error .invalid_argument := by
  simp [normalize_vector, hw]

theorem distance_to_point_ok (plane : Plane) (v : Vector4d) (hw : v.w ≠ 0) :
    plane.distance_to_point v
      = .ok (plane.nd_.dot ⟨v.x / v.w, v.y / v.w, v.z / v.w, 1⟩) := by
  simp [Plane.distance_to_point, normalize_vector_ok v hw, bind, Except.bind, pure, Except.pure]

theorem distance_to_point_w_ne {plane : Plane} {v : Vector4d} {d : ℚ}
    (h : plane.distance_to_point v = .ok d) : v.w ≠ 0 := by
  intro hw
  simp [Plane.distance_to_point, normalize_vector_error v hw, bind, Except.bind] at h

/-- The distance to a plane through three points, in terms of the cross
product of its two edge vectors. -/
theorem of_points_distance (sqrt : ℚ → ℚ) (p1 p2 p3 : Vector3d) (v : Vector4d)
    (hw : v.w ≠ 0) (hc : 0 < ((p2.sub p1).cross (p3.sub p1)).squaredNorm) :
    (Plane.of_points sqrt p1 p2 p3).distance_to_point v
      = .ok (((p2.sub p1).cross (p3.sub p1)).dot
              ((⟨v.x / v.w, v.y / v.w, v.z / v.w⟩ : Vector3d).sub p1)
            / sqrt ((p2.sub p1).cross (p3.sub p1)).squaredNorm) := by
  rw [distance_to_point_ok _ _ hw]
  unfold Plane.of_points
  generalize (p2.sub p1).cross (p3.sub p1) = c at hc
  have hn : c.normalized sqrt
      = ⟨c.x / sqrt c.squaredNorm, c.y / sqrt c.squaredNorm, c.z / sqrt c.squaredNorm⟩ := by
    simp [Vector3d.normalized, hc]
  simp only [hn, Vector4d.dot, Vector3d.dot, Vector3d.sub]
  congr 1
  ring

theorem ok_bind {α β : Type} (a : α) (f : α → Except Error β) :
    (Except.ok a >>= f) = f a := rfl

theorem inside_w_ne {plane : Plane} {v : Vector4d} (h : Inside plane v) : v.w ≠ 0 := by
  obtain ⟨d, hd, _⟩ := h
  exact distance_to_point_w_ne hd

theorem outside_w_ne {plane : Plane} {v : Vector4d} (h : Outside plane v) : v.w ≠ 0 := by
  obtain ⟨d, hd, _⟩ := h
  exact distance_to_point_w_ne hd

theorem inside_iff_of_dist {plane : Plane} {v : Vector4d} {a s : ℚ}
    (h : plane.distance_to_point v = .ok (a / s)) (hs : 0 < s) :
    Inside plane v ↔ 0 ≤ a := by
  constructor
  · rintro ⟨d, hd, h0⟩
    rw [h] at hd
    cases hd
    by_contra hneg
    exact absurd h0 (not_le.mpr (div_neg_of_neg_of_pos (not_le.mp hneg) hs))
  · intro ha
    exact ⟨a / s, h, div_nonneg ha hs.le⟩

theorem outside_iff_of_dist {plane : Plane} {v : Vector4d} {a s : ℚ}
    (h : plane.distance_to_point v = .ok (a / s)) (hs : 0 < s) :
    Outside plane v ↔ a < 0 := by
  constructor
  · rintro ⟨d, hd, h0⟩
    rw [h] at hd
    cases hd
    by_contra hneg
    exact absurd h0 (not_lt.mpr (div_nonneg (not_lt.mp hneg) hs.le))
  · intro ha
    exact ⟨a / s, h, div_neg_of_neg_of_pos ha hs⟩

theorem not_inside_of_outside {plane : Plane} {v : Vector4d} (h : Outside plane v) :
    ¬ Inside plane v := by
  rintro ⟨d, hd, h0⟩
  obtain ⟨e, he, hneg⟩ := h
  rw [hd] at he
  cases he
  exact absurd h0 (not_le.mpr hneg)

/-! ### The default frustum -/

/-- The constructor succeeds on non-degenerate parameters. -/
theorem Frustum.new_ok (sqrt : ℚ → ℚ) (left right bottom top near far : ℚ)
    (h1 : left ≠ right) (h2 : bottom ≠ top) (h3 : near ≠ far) :
    Frustum.new sqrt left right bottom top near far
      = .ok (((Frustum.uninitialized left right bottom top near far).initialize_planes
          sqrt).compute_projection_matrix) := by
  simp [Frustum.new, Frustum.initialize_planes, Frustum.uninitialized, h1, h2, h3]

theorem Frustum.new_default (sqrt : ℚ → ℚ) :
    Frustum.new sqrt (-1) 1 (-1) 1 1 10 = .ok (default_frustum sqrt) :=
  Frustum.new_ok sqrt (-1) 1 (-1) 1 1 10 (by norm_num) (by norm_num) (by norm_num)

theorem World.new_eq (sqrt : ℚ → ℚ) :
    World.new sqrt = .ok ⟨default_frustum sqrt, [], [], [], []⟩ := by
  simp [World.new, Frustum.new_default, bind, Except.bind, pure, Except.pure]

theorem default_near_dist (sqrt : ℚ → ℚ) (x y z : ℚ) :
    (Plane.of_points sqrt ⟨-1, -1, 1⟩ ⟨-1, 1, -1⟩ ⟨1, -1, -1⟩).distance_to_point ⟨x, y, z, 1⟩
      = .ok (-(4 * (x + y + z + 1)) / sqrt 48) := by
  rw [of_points_distance sqrt _ _ _ _ (by norm_num)
    (by norm_num [Vector3d.sub, Vector3d.cross, Vector3d.dot, Vector3d.squaredNorm])]
  norm_num [Vector3d.sub, Vector3d.cross, Vector3d.dot, Vector3d.squaredNorm]
  ring

theorem default_left_dist (sqrt : ℚ → ℚ) (x y z : ℚ) :
    (Plane.of_points sqrt ⟨0, 0, 0⟩ ⟨-1, -1, -1⟩ ⟨-1, 1, -1⟩).distance_to_point ⟨x, y, z, 1⟩
      = .ok (2 * (x - z) / sqrt 8) := by
  rw [of_points_distance sqrt _ _ _ _ (by norm_num)
    (by norm_num [Vector3d.sub, Vector3d.cross, Vector3d.dot, Vector3d.squaredNorm])]
  norm_num [Vector3d.sub, Vector3d.cross, Vector3d.dot, Vector3d.squaredNorm]
  ring

theorem default_right_dist (sqrt : ℚ → ℚ) (x y z : ℚ) :
    (Plane.of_points sqrt ⟨0, 0, 0⟩ ⟨1, 1, -1⟩ ⟨1, -1, -1⟩).distance_to_point ⟨x, y, z, 1⟩
      = .ok (-(2 * (x + z)) / sqrt 8) := by
  rw [of_points_distance sqrt _ _ _ _ (by norm_num)
    (by norm_num [Vector3d.sub, Vector3d.cross, Vector3d.dot, Vector3d.squaredNorm])]
  norm_num [Vector3d.sub, Vector3d.cross, Vector3d.dot, Vector3d.squaredNorm]
  ring

theorem default_top_dist (sqrt : ℚ → ℚ) (x y z : ℚ) :
    (Plane.of_points sqrt ⟨0, 0, 0⟩ ⟨-1, 1, -1⟩ ⟨1, 1, -1⟩).distance_to_point ⟨x, y, z, 1⟩
      = .ok (-(2 * (y + z)) / sqrt 8) := by
  rw [of_points_distance sqrt _ _ _ _ (by norm_num)
    (by norm_num [Vector3d.sub, Vector3d.cross, Vector3d.dot, Vector3d.squaredNorm])]
  norm_num [Vector3d.sub, Vector3d.cross, Vector3d.dot, Vector3d.squaredNorm]
  ring

theorem default_bottom_dist (sqrt : ℚ → ℚ) (x y z : ℚ) :
    (Plane.of_points sqrt ⟨0, 0, 0⟩ ⟨1, -1, -1⟩ ⟨-1, -1, -1⟩).distance_to_point ⟨x, y, z, 1⟩
      = .ok (2 * (y - z) / sqrt 8) := by
  rw [of_points_distance sqrt _ _ _ _ (by norm_num)
    (by norm_num [Vector3d.sub, Vector3d.cross, Vector3d.dot, Vector3d.squaredNorm])]
  norm_num [Vector3d.sub, Vector3d.cross, Vector3d.dot, Vector3d.squaredNorm]
  ring

theorem default_far_dist (sqrt : ℚ → ℚ) (x y z : ℚ) :
    (Plane.of_points sqrt ⟨-1, -1, -10⟩ ⟨1, -1, -10⟩ ⟨-1, 1, -10⟩).distance_to_point ⟨x, y, z, 1⟩
      = .ok (4 * (z + 10) / sqrt 16) := by
  rw [of_points_distance sqrt _ _ _ _ (by norm_num)
    (by norm_num [Vector3d.sub, Vector3d.cross, Vector3d.dot, Vector3d.squaredNorm])]
  norm_num [Vector3d.sub, Vector3d.cross, Vector3d.dot, Vector3d.squaredNorm]

theorem default_inside_near {sqrt : ℚ → ℚ} (hs : SqrtPos sqrt) {x y z : ℚ}
    (h : x + y + z + 1 ≤ 0) : Inside (default_frustum sqrt).near_plane_ ⟨x, y, z, 1⟩ :=
  (inside_iff_of_dist (default_near_dist sqrt x y z) (hs 48 (by norm_num))).mpr (by linarith)

theorem default_outside_near {sqrt : ℚ → ℚ} (hs : SqrtPos sqrt) {x y z : ℚ}
    (h : 0 < x + y + z + 1) : Outside (default_frustum sqrt).near_plane_ ⟨x, y, z, 1⟩ :=
  (outside_iff_of_dist (default_near_dist sqrt x y z) (hs 48 (by norm_num))).mpr (by linarith)

theorem default_inside_left {sqrt : ℚ → ℚ} (hs : SqrtPos sqrt) {x y z : ℚ}
    (h : z ≤ x) : Inside (default_frustum sqrt).left_plane_ ⟨x, y, z, 1⟩ :=
  (inside_iff_of_dist (default_left_dist sqrt x y z) (hs 8 (by norm_num))).mpr (by linarith)

theorem default_outside_left {sqrt : ℚ → ℚ} (hs : SqrtPos sqrt) {x y z : ℚ}
    (h : x < z) : Outside (default_frustum sqrt).left_plane_ ⟨x, y, z, 1⟩ :=
  (outside_iff_of_dist (default_left_dist sqrt x y z) (hs 8 (by norm_num))).mpr (by linarith)

theorem default_inside_right {sqrt : ℚ → ℚ} (hs : SqrtPos sqrt) {x y z : ℚ}
    (h : x + z ≤ 0) : Inside (default_frustum sqrt).right_plane_ ⟨x, y, z, 1⟩ :=
  (inside_iff_of_dist (default_right_dist sqrt x y z) (hs 8 (by norm_num))).mpr (by linarith)

theorem default_outside_right {sqrt : ℚ → ℚ} (hs : SqrtPos sqrt) {x y z : ℚ}
    (h : 0 < x + z) : Outside (default_frustum sqrt).right_plane_ ⟨x, y, z, 1⟩ :=
  (outside_iff_of_dist (default_right_dist sqrt x y z) (hs 8 (by norm_num))).mpr (by linarith)

theorem default_inside_top {sqrt : ℚ → ℚ} (hs : SqrtPos sqrt) {x y z : ℚ}
    (h : y + z ≤ 0) : Inside (default_frustum sqrt).top_plane_ ⟨x, y, z, 1⟩ :=
  (inside_iff_of_dist (default_top_dist sqrt x y z) (hs 8 (by norm_num))).mpr (by linarith)

theorem default_outside_top {sqrt : ℚ → ℚ} (hs : SqrtPos sqrt) {x y z : ℚ}
    (h : 0 < y + z) : Outside (default_frustum sqrt).top_plane_ ⟨x, y, z, 1⟩ :=
  (outside_iff_of_dist (default_top_dist sqrt x y z) (hs 8 (by norm_num))).mpr (by linarith)

theorem default_inside_bottom {sqrt : ℚ → ℚ} (hs : SqrtPos sqrt) {x y z : ℚ}
    (h : z ≤ y) : Inside (default_frustum sqrt).bottom_plane_ ⟨x, y, z, 1⟩ :=
  (inside_iff_of_dist (default_bottom_dist sqrt x y z) (hs 8 (by norm_num))).mpr (by linarith)

theorem default_outside_bottom {sqrt : ℚ → ℚ} (hs : SqrtPos sqrt) {x y z : ℚ}
    (h : y < z) : Outside (default_frustum sqrt).bottom_plane_ ⟨x, y, z, 1⟩ :=
  (outside_iff_of_dist (default_bottom_dist sqrt x y z) (hs 8 (by norm_num))).mpr (by linarith)

theorem default_inside_far {sqrt : ℚ → ℚ} (hs : SqrtPos sqrt) {x y z : ℚ}
    (h : -10 ≤ z) : Inside (default_frustum sqrt).far_plane_ ⟨x, y, z, 1⟩ :=
  (inside_iff_of_dist (default_far_dist sqrt x y z) (hs 16 (by norm_num))).mpr (by linarith)

theorem default_outside_far {sqrt : ℚ → ℚ} (hs : SqrtPos sqrt) {x y z : ℚ}
    (h : z < -10) : Outside (default_frustum sqrt).far_plane_ ⟨x, y, z, 1⟩ :=
  (outside_iff_of_dist (default_far_dist sqrt x y z) (hs 16 (by norm_num))).mpr (by linarith)

/-- Under the default frustum a point `(x, y, z, 1)` is inside the five planes
other than the far plane as soon as their five linear inequalities hold. -/
theorem default_inside_five {sqrt : ℚ → ℚ} (hs : SqrtPos sqrt) {x y z : ℚ}
    (hn : x + y + z + 1 ≤ 0) (hl : z ≤ x) (hr : x + z ≤ 0) (ht : y + z ≤ 0)
    (hb : z ≤ y) :
    ∀ plane ∈ [(default_frustum sqrt).near_plane_, (default_frustum sqrt).left_plane_,
        (default_frustum sqrt).right_plane_, (default_frustum sqrt).top_plane_,
        (default_frustum sqrt).bottom_plane_], Inside plane ⟨x, y, z, 1⟩ := by
  intro plane hp
  simp only [List.mem_cons, List.mem_singleton, List.not_mem_nil, or_false] at hp
  rcases hp with h | h | h | h | h <;> subst h
  · exact default_inside_near hs hn
  · exact default_inside_left hs hl
  · exact default_inside_right hs hr
  · exact default_inside_top hs ht
  · exact default_inside_bottom hs hb

/-- Under the default frustum a point `(x, y, z, 1)` is inside all six planes
as soon as the six linear inequalities of the planes hold. -/
theorem default_inside_all {sqrt : ℚ → ℚ} (hs : SqrtPos sqrt) {x y z : ℚ}
    (hn : x + y + z + 1 ≤ 0) (hl : z ≤ x) (hr : x + z ≤ 0) (ht : y + z ≤ 0)
    (hb : z ≤ y) (hf : -10 ≤ z) :
    ∀ plane ∈ (default_frustum sqrt).get_frustum_planes, Inside plane ⟨x, y, z, 1⟩ := by
  intro plane hp
  simp only [Frustum.get_frustum_planes, List.mem_cons, List.mem_singleton,
    List.not_mem_nil, or_false] at hp
  rcases hp with h | h | h | h | h | h <;> subst h
  · exact default_inside_near hs hn
  · exact default_inside_left hs hl
  · exact default_inside_right hs hr
  · exact default_inside_top hs ht
  · exact default_inside_bottom hs hb
  · exact default_inside_far hs hf

/-! ### The clipping loops -/

theorem all_points_inside_two (d1 d2 : ℚ) :
    all_points_inside [d1, d2] = true ↔ 0 ≤ d1 ∧ 0 ≤ d2 := by
  simp [all_points_inside]

theorem all_points_inside_three (d1 d2 d3 : ℚ) :
    all_points_inside [d1, d2, d3] = true ↔ 0 ≤ d1 ∧ 0 ≤ d2 ∧ 0 ≤ d3 := by
  simp [all_points_inside]

/-- One plane of `clip_point`, the distance being defined. -/
theorem clip_point_loop_cons (p : Point) (plane : Plane) (rest : List Plane) (d : ℚ)
    (h : plane.distance_to_point p.p_ = .ok d) :
    World.clip_point_loop p (plane :: rest)
      = if d < 0 then .ok none else World.clip_point_loop p rest := by
  simp only [World.clip_point_loop, h, ok_bind]
  rfl

theorem clip_point_loop_inside (p : Point) (planes : List Plane)
    (h : ∀ plane ∈ planes, Inside plane p.p_) :
    World.clip_point_loop p planes = .ok (some p) := by
  induction planes with
  | nil => rfl
  | cons plane rest ih =>
    obtain ⟨d, hd, h0⟩ := h plane (List.mem_cons_self _ _)
    rw [clip_point_loop_cons p plane rest d hd, if_neg (not_lt.mpr h0)]
    exact ih fun q hq => h q (List.mem_cons_of_mem _ hq)

theorem clip_point_loop_outside (p : Point) (planes : List Plane) (plane : Plane)
    (hmem : plane ∈ planes) (h : Outside plane p.p_) :
    World.clip_point_loop p planes = .ok none := by
  have hw := outside_w_ne h
  induction planes with
  | nil => cases hmem
  | cons q rest ih =>
    rw [clip_point_loop_cons p q rest _ (distance_to_point_ok q p.p_ hw)]
    split
    · rfl
    · next hneg =>
      rcases List.mem_cons.mp hmem with heq | hin
      · subst heq
        obtain ⟨d, hd, hlt⟩ := h
        rw [distance_to_point_ok plane p.p_ hw] at hd
        cases hd
        exact absurd hlt hneg
      · exact ih hin

/-- One plane of `clip_sector`, both distances being defined: the third branch
of the source is never taken. -/
theorem clip_sector_loop_cons (s : Sector) (plane : Plane) (rest : List Plane)
    (d1 d2 : ℚ) (h1 : plane.distance_to_point s.p1_ = .ok d1)
    (h2 : plane.distance_to_point s.p2_ = .ok d2) :
    World.clip_sector_loop (plane :: rest) s
      = if all_points_inside [d1, d2] then .ok none else World.clip_sector_loop rest s := by
  simp only [World.clip_sector_loop, h1, h2, ok_bind]
  cases hall : all_points_inside [d1, d2]
  · simp
  · simp
    rfl

/-- One triangle against one plane, the three distances being defined: the
third branch of the source is never taken. -/
theorem process_clipping_eq (t : Triangle) (plane : Plane) (result : List Triangle)
    (d1 d2 d3 : ℚ) (h1 : plane.distance_to_point t.p1_ = .ok d1)
    (h2 : plane.distance_to_point t.p2_ = .ok d2)
    (h3 : plane.distance_to_point t.p3_ = .ok d3) :
    World.process_clipping_against_plane t plane result
      = .ok (if all_points_inside [d1, d2, d3] then result ++ [t] else result) := by
  simp only [World.process_clipping_against_plane, h1, h2, h3, ok_bind]
  cases hall : all_points_inside [d1, d2, d3]
  · simp
    rfl
  · simp
    rfl

theorem clip_triangle_loop_nil (planes : List Plane) :
    World.clip_triangle_loop planes [] = .ok [] := by
  induction planes with
  | nil => rfl
  | cons plane rest ih =>
    simp only [World.clip_triangle_loop, World.clip_triangles_against_plane, ok_bind]
    exact ih

/-- One plane of `clip_triangle` on a one-triangle list. -/
theorem clip_triangle_loop_cons (t : Triangle) (plane : Plane) (rest : List Plane)
    (d1 d2 d3 : ℚ) (h1 : plane.distance_to_point t.p1_ = .ok d1)
    (h2 : plane.distance_to_point t.p2_ = .ok d2)
    (h3 : plane.distance_to_point t.p3_ = .ok d3) :
    World.clip_triangle_loop (plane :: rest) [t]
      = if all_points_inside [d1, d2, d3] then World.clip_triangle_loop rest [t]
        else .ok [] := by
  simp only [World.clip_triangle_loop, World.clip_triangles_against_plane,
    process_clipping_eq t plane [] d1 d2 d3 h1 h2 h3, ok_bind]
  cases hall : all_points_inside [d1, d2, d3]
  · simp
    exact clip_triangle_loop_nil rest
  · simp

theorem clip_triangle_loop_inside (t : Triangle) (planes : List Plane)
    (h : ∀ plane ∈ planes, Inside plane t.p1_ ∧ Inside plane t.p2_ ∧ Inside plane t.p3_) :
    World.clip_triangle_loop planes [t] = .ok [t] := by
  induction planes with
  | nil => rfl
  | cons plane rest ih =>
    obtain ⟨⟨d1, hd1, h1⟩, ⟨d2, hd2, h2⟩, ⟨d3, hd3, h3⟩⟩ := h plane (List.mem_cons_self _ _)
    rw [clip_triangle_loop_cons t plane rest d1 d2 d3 hd1 hd2 hd3,
      if_pos ((all_points_inside_three d1 d2 d3).mpr ⟨h1, h2, h3⟩)]
    exact ih fun q hq => h q (List.mem_cons_of_mem _ hq)

/-- What the code does with a triangle that has some vertex outside some plane
(all three vertices having `w ≠ 0`): it is dropped. -/
theorem clip_triangle_loop_outside (t : Triangle) (planes : List Plane) (plane : Plane)
    (hw1 : t.p1_.w ≠ 0) (hw2 : t.p2_.w ≠ 0) (hw3 : t.p3_.w ≠ 0)
    (hmem : plane ∈ planes)
    (hout : Outside plane t.p1_ ∨ Outside plane t.p2_ ∨ Outside plane t.p3_) :
    World.clip_triangle_loop planes [t] = .ok [] := by
  induction planes with
  | nil => cases hmem
  | cons q rest ih =>
    rw [clip_triangle_loop_cons t q rest _ _ _ (distance_to_point_ok q _ hw1)
      (distance_to_point_ok q _ hw2) (distance_to_point_ok q _ hw3)]
    split
    · next hall =>
      rcases List.mem_cons.mp hmem with heq | hin
      · subst heq
        obtain ⟨h1, h2, h3⟩ := (all_points_inside_three _ _ _).mp hall
        rcases hout with ho | ho | ho
        · exact absurd ⟨_, distance_to_point_ok plane _ hw1, h1⟩ (not_inside_of_outside ho)
        · exact absurd ⟨_, distance_to_point_ok plane _ hw2, h2⟩ (not_inside_of_outside ho)
        · exact absurd ⟨_, distance_to_point_ok plane _ hw3, h3⟩ (not_inside_of_outside ho)
      · exact ih hin
    · rfl

/-- What the code does with a sector that some plane keeps whole: it is
dropped. -/
theorem clip_sector_loop_none (s : Sector) (planes : List Plane) (plane : Plane)
    (hmem : plane ∈ planes) (h1 : Inside plane s.p1_) (h2 : Inside plane s.p2_) :
    World.clip_sector_loop planes s = .ok none := by
  have hw1 := inside_w_ne h1
  have hw2 := inside_w_ne h2
  induction planes with
  | nil => cases hmem
  | cons q rest ih =>
    rw [clip_sector_loop_cons s q rest _ _ (distance_to_point_ok q _ hw1)
      (distance_to_point_ok q _ hw2)]
    split
    · rfl
    · next hall =>
      rcases List.mem_cons.mp hmem with heq | hin
      · subst heq
        obtain ⟨d1, hd1, h01⟩ := h1
        obtain ⟨d2, hd2, h02⟩ := h2
        rw [distance_to_point_ok plane _ hw1] at hd1
        rw [distance_to_point_ok plane _ hw2] at hd2
        cases hd1
        cases hd2
        exact absurd ((all_points_inside_two _ _).mpr ⟨h01, h02⟩) hall
      · exact ih hin

/-- What the code does with a sector that no plane keeps whole: it is returned
as it came. -/
theorem clip_sector_loop_some (s : Sector) (planes : List Plane)
    (h : ∀ plane ∈ planes, Outside plane s.p1_ ∨ Outside plane s.p2_)
    (hw1 : s.p1_.w ≠ 0) (hw2 : s.p2_.w ≠ 0) :
    World.clip_sector_loop planes s = .ok (some s) := by
  induction planes with
  | nil => rfl
  | cons q rest ih =>
    rw [clip_sector_loop_cons s q rest _ _ (distance_to_point_ok q _ hw1)
      (distance_to_point_ok q _ hw2)]
    split
    · next hall =>
      obtain ⟨h01, h02⟩ := (all_points_inside_two _ _).mp hall
      rcases h q (List.mem_cons_self _ _) with ho | ho
      · exact absurd ⟨_, distance_to_point_ok q _ hw1, h01⟩ (not_inside_of_outside ho)
      · exact absurd ⟨_, distance_to_point_ok q _ hw2, h02⟩ (not_inside_of_outside ho)
    · exact ih fun p hp => h p (List.mem_cons_of_mem _ hp)

/-! ## Claims -/

/-- C1: a triangle whose three vertices all have signed distance `>= 0` to each
of the six frustum planes comes back from `clip_triangle` as the one-element
list holding the input itself (same vertices, same colour); under the default
frustum the triangle `(0,0,-2), (1,0,-2), (0,1,-2)` is inside all six planes
and `clip_triangle` returns exactly that triangle. -/
theorem clip_triangle_inside_unchanged :
    (∀ (world : World) (t : Triangle),
      (∀ plane ∈ world.frustum_.get_frustum_planes,
        Inside plane t.p1_ ∧ Inside plane t.p2_ ∧ Inside plane t.p3_) →
      world.clip_triangle t = .ok [t]) ∧
    (∀ (sqrt : ℚ → ℚ) (color : Color), SqrtPos sqrt →
      ∃ world, World.new sqrt = .ok world ∧
        (∀ plane ∈ world.frustum_.get_frustum_planes,
          Inside plane (Triangle.of_3d ⟨0, 0, -2⟩ ⟨1, 0, -2⟩ ⟨0, 1, -2⟩ color).p1_ ∧
          Inside plane (Triangle.of_3d ⟨0, 0, -2⟩ ⟨1, 0, -2⟩ ⟨0, 1, -2⟩ color).p2_ ∧
          Inside plane (Triangle.of_3d ⟨0, 0, -2⟩ ⟨1, 0, -2⟩ ⟨0, 1, -2⟩ color).p3_) ∧
        world.clip_triangle (Triangle.of_3d ⟨0, 0, -2⟩ ⟨1, 0, -2⟩ ⟨0, 1, -2⟩ color)
          = .ok [Triangle.of_3d ⟨0, 0, -2⟩ ⟨1, 0, -2⟩ ⟨0, 1, -2⟩ color]) := by
  have general : ∀ (world : World) (t : Triangle),
      (∀ plane ∈ world.frustum_.get_frustum_planes,
        Inside plane t.p1_ ∧ Inside plane t.p2_ ∧ Inside plane t.p3_) →
      world.clip_triangle t = .ok [t] :=
    fun world t h => clip_triangle_loop_inside t _ h
  refine ⟨general, fun sqrt color hs => ?_⟩
  have hin : ∀ plane ∈ (default_frustum sqrt).get_frustum_planes,
      Inside plane (Triangle.of_3d ⟨0, 0, -2⟩ ⟨1, 0, -2⟩ ⟨0, 1, -2⟩ color).p1_ ∧
      Inside plane (Triangle.of_3d ⟨0, 0, -2⟩ ⟨1, 0, -2⟩ ⟨0, 1, -2⟩ color).p2_ ∧
      Inside plane (Triangle.of_3d ⟨0, 0, -2⟩ ⟨1, 0, -2⟩ ⟨0, 1, -2⟩ color).p3_ :=
    fun plane hp =>
      ⟨default_inside_all hs (by norm_num) (by norm_num) (by norm_num) (by norm_num)
          (by norm_num) (by norm_num) plane hp,
        default_inside_all hs (by norm_num) (by norm_num) (by norm_num) (by norm_num)
          (by norm_num) (by norm_num) plane hp,
        default_inside_all hs (by norm_num) (by norm_num) (by norm_num) (by norm_num)
          (by norm_num) (by norm_num) plane hp⟩
  exact ⟨_, World.new_eq sqrt, hin, general _ _ hin⟩

/-- The general half of `clip_triangle_inside_unchanged` applied to the
world `World::World()` builds (run with `sqrt_model`) and the triangle
`(0,0,-3), (1,0,-3), (0,1,-3)`, whose eighteen plane distances are `>= 0`. -/
theorem clip_triangle_inside_unchanged_witness :
    ∃ world, World.new sqrt_model = .ok world ∧
      world.clip_triangle (Triangle.of_3d ⟨0, 0, -3⟩ ⟨1, 0, -3⟩ ⟨0, 1, -3⟩ ⟨255, 0, 0⟩)
        = .ok [Triangle.of_3d ⟨0, 0, -3⟩ ⟨1, 0, -3⟩ ⟨0, 1, -3⟩ ⟨255, 0, 0⟩] :=
  ⟨_, World.new_eq sqrt_model,
    clip_triangle_inside_unchanged.1 ⟨default_frustum sqrt_model, [], [], [], []⟩
      (Triangle.of_3d ⟨0, 0, -3⟩ ⟨1, 0, -3⟩ ⟨0, 1, -3⟩ ⟨255, 0, 0⟩)
      fun plane hp =>
        ⟨default_inside_all sqrt_model_pos (by norm_num) (by norm_num) (by norm_num)
            (by norm_num) (by norm_num) (by norm_num) plane hp,
          default_inside_all sqrt_model_pos (by norm_num) (by norm_num) (by norm_num)
            (by norm_num) (by norm_num) (by norm_num) plane hp,
          default_inside_all sqrt_model_pos (by norm_num) (by norm_num) (by norm_num)
            (by norm_num) (by norm_num) (by norm_num) plane hp⟩⟩

/-- C4: a triangle whose three vertices all have negative signed distance to one
same frustum plane is dropped: `clip_triangle` returns the empty list. -/
theorem clip_triangle_outside_dropped (world : World) (t : Triangle) (plane : Plane)
    (hmem : plane ∈ world.frustum_.get_frustum_planes)
    (h1 : Outside plane t.p1_) (h2 : Outside plane t.p2_) (h3 : Outside plane t.p3_) :
    world.clip_triangle t = .ok [] :=
  clip_triangle_loop_outside t _ plane (outside_w_ne h1) (outside_w_ne h2) (outside_w_ne h3)
    hmem (Or.inl h1)

/-- The triangle `(0,0,0), (1,0,0), (0,1,0)` lies behind the near plane of the
default frustum and is dropped. -/
theorem clip_triangle_outside_dropped_witness :
    ∃ world, World.new sqrt_model = .ok world ∧
      world.clip_triangle (Triangle.of_3d ⟨0, 0, 0⟩ ⟨1, 0, 0⟩ ⟨0, 1, 0⟩ ⟨255, 0, 0⟩)
        = .ok [] :=
  ⟨_, World.new_eq sqrt_model,
    clip_triangle_outside_dropped ⟨default_frustum sqrt_model, [], [], [], []⟩
      (Triangle.of_3d ⟨0, 0, 0⟩ ⟨1, 0, 0⟩ ⟨0, 1, 0⟩ ⟨255, 0, 0⟩)
      (default_frustum sqrt_model).near_plane_ (List.mem_cons_self _ _)
      (default_outside_near sqrt_model_pos (by norm_num))
      (default_outside_near sqrt_model_pos (by norm_num))
      (default_outside_near sqrt_model_pos (by norm_num))⟩

/-- C9: `clip_point p` returns `p` itself (position and colour unchanged) when
the signed distance of `p` to every one of the six frustum planes is `>= 0`,
and returns nothing when the distance to at least one plane is negative; under
the default frustum the point `(0,0,-100)` is beyond the far plane and is
dropped. -/
theorem clip_point_keeps_inside_drops_outside :
    (∀ (world : World) (p : Point),
      (∀ plane ∈ world.frustum_.get_frustum_planes, Inside plane p.p_) →
      world.clip_point p = .ok (some p)) ∧
    (∀ (world : World) (p : Point),
      (∃ plane ∈ world.frustum_.get_frustum_planes, Outside plane p.p_) →
      world.clip_point p = .ok none) ∧
    (∀ (sqrt : ℚ → ℚ) (color : Color), SqrtPos sqrt →
      ∃ world, World.new sqrt = .ok world ∧
        Outside world.frustum_.far_plane_ (Point.of_3d ⟨0, 0, -100⟩ color).p_ ∧
        world.clip_point (Point.of_3d ⟨0, 0, -100⟩ color) = .ok none) := by
  have drops : ∀ (world : World) (p : Point),
      (∃ plane ∈ world.frustum_.get_frustum_planes, Outside plane p.p_) →
      world.clip_point p = .ok none :=
    fun world p ⟨plane, hmem, hout⟩ => clip_point_loop_outside p _ plane hmem hout
  refine ⟨fun world p h => clip_point_loop_inside p _ h, drops, fun sqrt color hs => ?_⟩
  have hout : Outside (default_frustum sqrt).far_plane_ (Point.of_3d ⟨0, 0, -100⟩ color).p_ :=
    default_outside_far hs (by norm_num)
  refine ⟨_, World.new_eq sqrt, hout, drops _ _ ⟨_, ?_, hout⟩⟩
  simp [Frustum.get_frustum_planes]

/-- Both general halves of `clip_point_keeps_inside_drops_outside` at the
default world: `(0,0,-2)` is kept, `(0,0,-11)` is dropped. -/
theorem clip_point_keeps_inside_drops_outside_witness :
    ∃ world, World.new sqrt_model = .ok world ∧
      world.clip_point (Point.of_3d ⟨0, 0, -2⟩ ⟨0, 255, 0⟩)
        = .ok (some (Point.of_3d ⟨0, 0, -2⟩ ⟨0, 255, 0⟩)) ∧
      world.clip_point (Point.of_3d ⟨0, 0, -11⟩ ⟨0, 255, 0⟩) = .ok none :=
  ⟨_, World.new_eq sqrt_model,
    clip_point_keeps_inside_drops_outside.1 ⟨default_frustum sqrt_model, [], [], [], []⟩
      (Point.of_3d ⟨0, 0, -2⟩ ⟨0, 255, 0⟩)
      (default_inside_all sqrt_model_pos (by norm_num) (by norm_num) (by norm_num)
        (by norm_num) (by norm_num) (by norm_num)),
    clip_point_keeps_inside_drops_outside.2.1 ⟨default_frustum sqrt_model, [], [], [], []⟩
      (Point.of_3d ⟨0, 0, -11⟩ ⟨0, 255, 0⟩)
      ⟨(default_frustum sqrt_model).far_plane_, by simp [Frustum.get_frustum_planes],
        default_outside_far sqrt_model_pos (by norm_num)⟩⟩

/-- C10: under the default frustum `(-1, 1, -1, 1, 1, 10)` of `World::World()`
the centre of the view volume `(0, 0, -5.5)` has signed distance `>= 0` to each
of the six frustum planes, and `clip_point` returns it. -/
theorem clip_point_default_centre (sqrt : ℚ → ℚ) (color : Color) (hs : SqrtPos sqrt) :
    ∃ world, World.new sqrt = .ok world ∧
      (∀ plane ∈ world.frustum_.get_frustum_planes,
        Inside plane (Point.of_3d ⟨0, 0, -11 / 2⟩ color).p_) ∧
      world.clip_point (Point.of_3d ⟨0, 0, -11 / 2⟩ color)
        = .ok (some (Point.of_3d ⟨0, 0, -11 / 2⟩ color)) := by
  have hin : ∀ plane ∈ (default_frustum sqrt).get_frustum_planes,
      Inside plane (Point.of_3d ⟨0, 0, -11 / 2⟩ color).p_ :=
    default_inside_all hs (by norm_num) (by norm_num) (by norm_num) (by norm_num)
      (by norm_num) (by norm_num)
  exact ⟨_, World.new_eq sqrt, hin, clip_point_loop_inside _ _ hin⟩

/-- The statement of `clip_point_default_centre` with `sqrt_model` for the
square root and a white point. -/
theorem clip_point_default_centre_witness :
    ∃ world, World.new sqrt_model = .ok world ∧
      (∀ plane ∈ world.frustum_.get_frustum_planes,
        Inside plane (Point.of_3d ⟨0, 0, -11 / 2⟩ ⟨255, 255, 255⟩).p_) ∧
      world.clip_point (Point.of_3d ⟨0, 0, -11 / 2⟩ ⟨255, 255, 255⟩)
        = .ok (some (Point.of_3d ⟨0, 0, -11 / 2⟩ ⟨255, 255, 255⟩)) :=
  clip_point_default_centre sqrt_model ⟨255, 255, 255⟩ sqrt_model_pos

/-- C2 (behaviour of the code at a failing input): under the default frustum
the triangle `(0,0,-2), (1,0,-3), (0,0,-11)` has exactly one vertex, the third,
at negative distance from exactly one plane, the far plane, and every other
vertex/plane distance `>= 0`; `clip_triangle` returns the empty list for it,
not two triangles. -/
theorem clip_triangle_one_outside_dropped (sqrt : ℚ → ℚ) (color : Color)
    (hs : SqrtPos sqrt) :
    ∃ world, World.new sqrt = .ok world ∧
      (∀ plane ∈ [world.frustum_.near_plane_, world.frustum_.left_plane_,
          world.frustum_.right_plane_, world.frustum_.top_plane_,
          world.frustum_.bottom_plane_],
        Inside plane (Triangle.of_3d ⟨0, 0, -2⟩ ⟨1, 0, -3⟩ ⟨0, 0, -11⟩ color).p1_ ∧
        Inside plane (Triangle.of_3d ⟨0, 0, -2⟩ ⟨1, 0, -3⟩ ⟨0, 0, -11⟩ color).p2_ ∧
        Inside plane (Triangle.of_3d ⟨0, 0, -2⟩ ⟨1, 0, -3⟩ ⟨0, 0, -11⟩ color).p3_) ∧
      Inside world.frustum_.far_plane_
        (Triangle.of_3d ⟨0, 0, -2⟩ ⟨1, 0, -3⟩ ⟨0, 0, -11⟩ color).p1_ ∧
      Inside world.frustum_.far_plane_
        (Triangle.of_3d ⟨0, 0, -2⟩ ⟨1, 0, -3⟩ ⟨0, 0, -11⟩ color).p2_ ∧
      Outside world.frustum_.far_plane_
        (Triangle.of_3d ⟨0, 0, -2⟩ ⟨1, 0, -3⟩ ⟨0, 0, -11⟩ color).p3_ ∧
      world.clip_triangle (Triangle.of_3d ⟨0, 0, -2⟩ ⟨1, 0, -3⟩ ⟨0, 0, -11⟩ color)
        = .ok [] := by
  have hout : Outside (default_frustum sqrt).far_plane_
      (Triangle.of_3d ⟨0, 0, -2⟩ ⟨1, 0, -3⟩ ⟨0, 0, -11⟩ color).p3_ :=
    default_outside_far hs (by norm_num)
  refine ⟨_, World.new_eq sqrt, fun plane hp => ⟨?_, ?_, ?_⟩, ?_, ?_, hout, ?_⟩
  · exact default_inside_five hs (by norm_num) (by norm_num) (by norm_num) (by norm_num)
      (by norm_num) plane hp
  · exact default_inside_five hs (by norm_num) (by norm_num) (by norm_num) (by norm_num)
      (by norm_num) plane hp
  · exact default_inside_five hs (by norm_num) (by norm_num) (by norm_num) (by norm_num)
      (by norm_num) plane hp
  · exact default_inside_far hs (by norm_num)
  · exact default_inside_far hs (by norm_num)
  · exact clip_triangle_loop_outside _ _ (default_frustum sqrt).far_plane_
      one_ne_zero one_ne_zero one_ne_zero (by simp [Frustum.get_frustum_planes])
      (Or.inr (Or.inr hout))

/-- The statement of `clip_triangle_one_outside_dropped` with `sqrt_model`
for the square root and a red triangle. -/
theorem clip_triangle_one_outside_dropped_witness :
    ∃ world, World.new sqrt_model = .ok world ∧
      Outside world.frustum_.far_plane_
        (Triangle.of_3d ⟨0, 0, -2⟩ ⟨1, 0, -3⟩ ⟨0, 0, -11⟩ ⟨255, 0, 0⟩).p3_ ∧
      world.clip_triangle (Triangle.of_3d ⟨0, 0, -2⟩ ⟨1, 0, -3⟩ ⟨0, 0, -11⟩ ⟨255, 0, 0⟩)
        = .ok [] := by
  obtain ⟨world, hw, _, _, _, hout, hclip⟩ :=
    clip_triangle_one_outside_dropped sqrt_model ⟨255, 0, 0⟩ sqrt_model_pos
  exact ⟨world, hw, hout, hclip⟩

/-- C3 (behaviour of the code at a failing input): under the default frustum
the triangle `(0,0,-2), (1,0,-11), (0,1,-11)` has exactly two vertices, the
second and the third, at negative distance from exactly one plane, the far
plane, its first vertex inside it, and all three vertices inside the other five
planes; `clip_triangle` returns the empty list for it, not one triangle. -/
theorem clip_triangle_two_outside_dropped (sqrt : ℚ → ℚ) (color : Color)
    (hs : SqrtPos sqrt) :
    ∃ world, World.new sqrt = .ok world ∧
      (∀ plane ∈ [world.frustum_.near_plane_, world.frustum_.left_plane_,
          world.frustum_.right_plane_, world.frustum_.top_plane_,
          world.frustum_.bottom_plane_],
        Inside plane (Triangle.of_3d ⟨0, 0, -2⟩ ⟨1, 0, -11⟩ ⟨0, 1, -11⟩ color).p1_ ∧
        Inside plane (Triangle.of_3d ⟨0, 0, -2⟩ ⟨1, 0, -11⟩ ⟨0, 1, -11⟩ color).p2_ ∧
        Inside plane (Triangle.of_3d ⟨0, 0, -2⟩ ⟨1, 0, -11⟩ ⟨0, 1, -11⟩ color).p3_) ∧
      Inside world.frustum_.far_plane_
        (Triangle.of_3d ⟨0, 0, -2⟩ ⟨1, 0, -11⟩ ⟨0, 1, -11⟩ color).p1_ ∧
      Outside world.frustum_.far_plane_
        (Triangle.of_3d ⟨0, 0, -2⟩ ⟨1, 0, -11⟩ ⟨0, 1, -11⟩ color).p2_ ∧
      Outside world.frustum_.far_plane_
        (Triangle.of_3d ⟨0, 0, -2⟩ ⟨1, 0, -11⟩ ⟨0, 1, -11⟩ color).p3_ ∧
      world.clip_triangle (Triangle.of_3d ⟨0, 0, -2⟩ ⟨1, 0, -11⟩ ⟨0, 1, -11⟩ color)
        = .ok [] := by
  have hout2 : Outside (default_frustum sqrt).far_plane_
      (Triangle.of_3d ⟨0, 0, -2⟩ ⟨1, 0, -11⟩ ⟨0, 1, -11⟩ color).p2_ :=
    default_outside_far hs (by norm_num)
  have hout3 : Outside (default_frustum sqrt).far_plane_
      (Triangle.of_3d ⟨0, 0, -2⟩ ⟨1, 0, -11⟩ ⟨0, 1, -11⟩ color).p3_ :=
    default_outside_far hs (by norm_num)
  refine ⟨_, World.new_eq sqrt, fun plane hp => ⟨?_, ?_, ?_⟩, ?_, hout2, hout3, ?_⟩
  · exact default_inside_five hs (by norm_num) (by norm_num) (by norm_num) (by norm_num)
      (by norm_num) plane hp
  · exact default_inside_five hs (by norm_num) (by norm_num) (by norm_num) (by norm_num)
      (by norm_num) plane hp
  · exact default_inside_five hs (by norm_num) (by norm_num) (by norm_num) (by norm_num)
      (by norm_num) plane hp
  · exact default_inside_far hs (by norm_num)
  · exact clip_triangle_loop_outside _ _ (default_frustum sqrt).far_plane_
      one_ne_zero one_ne_zero one_ne_zero (by simp [Frustum.get_frustum_planes])
      (Or.inr (Or.inl hout2))

/-- The statement of `clip_triangle_two_outside_dropped` with `sqrt_model`
for the square root and a red triangle. -/
theorem clip_triangle_two_outside_dropped_witness :
    ∃ world, World.new sqrt_model = .ok world ∧
      Outside world.frustum_.far_plane_
        (Triangle.of_3d ⟨0, 0, -2⟩ ⟨1, 0, -11⟩ ⟨0, 1, -11⟩ ⟨255, 0, 0⟩).p2_ ∧
      Outside world.frustum_.far_plane_
        (Triangle.of_3d ⟨0, 0, -2⟩ ⟨1, 0, -11⟩ ⟨0, 1, -11⟩ ⟨255, 0, 0⟩).p3_ ∧
      world.clip_triangle (Triangle.of_3d ⟨0, 0, -2⟩ ⟨1, 0, -11⟩ ⟨0, 1, -11⟩ ⟨255, 0, 0⟩)
        = .ok [] := by
  obtain ⟨world, hw, _, _, hout2, hout3, hclip⟩ :=
    clip_triangle_two_outside_dropped sqrt_model ⟨255, 0, 0⟩ sqrt_model_pos
  exact ⟨world, hw, hout2, hout3, hclip⟩

/-- C5 (behaviour of the code at a failing input): under the default frustum
both endpoints of the segment `(0,0,-2)-(0,0,-3)` have signed distance `>= 0`
to all six planes, yet `clip_sector` returns nothing for it, and
`process_sectors` on the world holding just this segment leaves the ViewBox
empty. -/
theorem clip_sector_inside_dropped (sqrt : ℚ → ℚ) (color : Color) (hs : SqrtPos sqrt) :
    ∃ world, World.new sqrt = .ok world ∧
      (∀ plane ∈ world.frustum_.get_frustum_planes,
        Inside plane (Sector.of_3d ⟨0, 0, -2⟩ ⟨0, 0, -3⟩ color).p1_ ∧
        Inside plane (Sector.of_3d ⟨0, 0, -2⟩ ⟨0, 0, -3⟩ color).p2_) ∧
      world.clip_sector (Sector.of_3d ⟨0, 0, -2⟩ ⟨0, 0, -3⟩ color) = .ok none ∧
      (world.add_sector (Sector.of_3d ⟨0, 0, -2⟩ ⟨0, 0, -3⟩ color)).process_sectors
        ⟨[], [], []⟩ = .ok ⟨[], [], []⟩ := by
  have hin : ∀ plane ∈ (default_frustum sqrt).get_frustum_planes,
      Inside plane (Sector.of_3d ⟨0, 0, -2⟩ ⟨0, 0, -3⟩ color).p1_ ∧
      Inside plane (Sector.of_3d ⟨0, 0, -2⟩ ⟨0, 0, -3⟩ color).p2_ :=
    fun plane hp =>
      ⟨default_inside_all hs (by norm_num) (by norm_num) (by norm_num) (by norm_num)
          (by norm_num) (by norm_num) plane hp,
        default_inside_all hs (by norm_num) (by norm_num) (by norm_num) (by norm_num)
          (by norm_num) (by norm_num) plane hp⟩
  have hclip : World.clip_sector_loop (default_frustum sqrt).get_frustum_planes
      (Sector.of_3d ⟨0, 0, -2⟩ ⟨0, 0, -3⟩ color) = .ok none :=
    clip_sector_loop_none _ _ (default_frustum sqrt).near_plane_ (List.mem_cons_self _ _)
      (hin _ (List.mem_cons_self _ _)).1 (hin _ (List.mem_cons_self _ _)).2
  refine ⟨_, World.new_eq sqrt, hin, hclip, ?_⟩
  simp only [World.process_sectors, World.add_sector, List.nil_append,
    World.process_sectors_loop, World.clip_sector, hclip, ok_bind]

/-- The statement of `clip_sector_inside_dropped` with `sqrt_model` for the
square root and a blue segment. -/
theorem clip_sector_inside_dropped_witness :
    ∃ world, World.new sqrt_model = .ok world ∧
      world.clip_sector (Sector.of_3d ⟨0, 0, -2⟩ ⟨0, 0, -3⟩ ⟨0, 0, 255⟩) = .ok none := by
  obtain ⟨world, hw, _, hclip, _⟩ :=
    clip_sector_inside_dropped sqrt_model ⟨0, 0, 255⟩ sqrt_model_pos
  exact ⟨world, hw, hclip⟩

/-- C6 (behaviour of the code at a failing input): under the default frustum
both endpoints of the segment `(0,0,5)-(100,0,-11)` have negative signed
distance to the right plane, yet `clip_sector` returns the segment, unchanged,
instead of nothing. -/
theorem clip_sector_outside_kept (sqrt : ℚ → ℚ) (color : Color) (hs : SqrtPos sqrt) :
    ∃ world, World.new sqrt = .ok world ∧
      world.frustum_.right_plane_ ∈ world.frustum_.get_frustum_planes ∧
      Outside world.frustum_.right_plane_
        (Sector.of_3d ⟨0, 0, 5⟩ ⟨100, 0, -11⟩ color).p1_ ∧
      Outside world.frustum_.right_plane_
        (Sector.of_3d ⟨0, 0, 5⟩ ⟨100, 0, -11⟩ color).p2_ ∧
      world.clip_sector (Sector.of_3d ⟨0, 0, 5⟩ ⟨100, 0, -11⟩ color)
        = .ok (some (Sector.of_3d ⟨0, 0, 5⟩ ⟨100, 0, -11⟩ color)) := by
  refine ⟨_, World.new_eq sqrt, by simp [Frustum.get_frustum_planes],
    default_outside_right hs (by norm_num), default_outside_right hs (by norm_num), ?_⟩
  refine clip_sector_loop_some _ _ (fun plane hp => ?_) one_ne_zero one_ne_zero
  simp only [Frustum.get_frustum_planes, List.mem_cons, List.mem_singleton,
    List.not_mem_nil, or_false] at hp
  rcases hp with h | h | h | h | h | h <;> subst h
  · exact Or.inl (default_outside_near hs (by norm_num))
  · exact Or.inl (default_outside_left hs (by norm_num))
  · exact Or.inl (default_outside_right hs (by norm_num))
  · exact Or.inl (default_outside_top hs (by norm_num))
  · exact Or.inl (default_outside_bottom hs (by norm_num))
  · exact Or.inr (default_outside_far hs (by norm_num))

/-- The statement of `clip_sector_outside_kept` with `sqrt_model` for the
square root and a blue segment. -/
theorem clip_sector_outside_kept_witness :
    ∃ world, World.new sqrt_model = .ok world ∧
      world.clip_sector (Sector.of_3d ⟨0, 0, 5⟩ ⟨100, 0, -11⟩ ⟨0, 0, 255⟩)
        = .ok (some (Sector.of_3d ⟨0, 0, 5⟩ ⟨100, 0, -11⟩ ⟨0, 0, 255⟩)) := by
  obtain ⟨world, hw, _, _, _, hclip⟩ :=
    clip_sector_outside_kept sqrt_model ⟨0, 0, 255⟩ sqrt_model_pos
  exact ⟨world, hw, hclip⟩

/-- C7 (behaviour of the code at a failing input): under the default frustum
the segment `(0,0,-2)-(0,0,-11)` straddles the far plane (first endpoint at
distance `>= 0`, second at distance `< 0`) and has both endpoints inside the
other five planes, yet `clip_sector` returns nothing instead of the segment
shortened to the far plane. -/
theorem clip_sector_straddling_dropped (sqrt : ℚ → ℚ) (color : Color)
    (hs : SqrtPos sqrt) :
    ∃ world, World.new sqrt = .ok world ∧
      (∀ plane ∈ [world.frustum_.near_plane_, world.frustum_.left_plane_,
          world.frustum_.right_plane_, world.frustum_.top_plane_,
          world.frustum_.bottom_plane_],
        Inside plane (Sector.of_3d ⟨0, 0, -2⟩ ⟨0, 0, -11⟩ color).p1_ ∧
        Inside plane (Sector.of_3d ⟨0, 0, -2⟩ ⟨0, 0, -11⟩ color).p2_) ∧
      Inside world.frustum_.far_plane_ (Sector.of_3d ⟨0, 0, -2⟩ ⟨0, 0, -11⟩ color).p1_ ∧
      Outside world.frustum_.far_plane_ (Sector.of_3d ⟨0, 0, -2⟩ ⟨0, 0, -11⟩ color).p2_ ∧
      world.clip_sector (Sector.of_3d ⟨0, 0, -2⟩ ⟨0, 0, -11⟩ color) = .ok none := by
  have hin : ∀ plane ∈ [(default_frustum sqrt).near_plane_,
        (default_frustum sqrt).left_plane_, (default_frustum sqrt).right_plane_,
        (default_frustum sqrt).top_plane_, (default_frustum sqrt).bottom_plane_],
      Inside plane (Sector.of_3d ⟨0, 0, -2⟩ ⟨0, 0, -11⟩ color).p1_ ∧
      Inside plane (Sector.of_3d ⟨0, 0, -2⟩ ⟨0, 0, -11⟩ color).p2_ :=
    fun plane hp =>
      ⟨default_inside_five hs (by norm_num) (by norm_num) (by norm_num) (by norm_num)
          (by norm_num) plane hp,
        default_inside_five hs (by norm_num) (by norm_num) (by norm_num) (by norm_num)
          (by norm_num) plane hp⟩
  refine ⟨_, World.new_eq sqrt, hin, default_inside_far hs (by norm_num),
    default_outside_far hs (by norm_num), ?_⟩
  exact clip_sector_loop_none _ _ (default_frustum sqrt).near_plane_
    (List.mem_cons_self _ _) (hin _ (List.mem_cons_self _ _)).1
    (hin _ (List.mem_cons_self _ _)).2

/-- The statement of `clip_sector_straddling_dropped` with `sqrt_model` for
the square root and a blue segment. -/
theorem clip_sector_straddling_dropped_witness :
    ∃ world, World.new sqrt_model = .ok world ∧
      Outside world.frustum_.far_plane_
        (Sector.of_3d ⟨0, 0, -2⟩ ⟨0, 0, -11⟩ ⟨0, 0, 255⟩).p2_ ∧
      world.clip_sector (Sector.of_3d ⟨0, 0, -2⟩ ⟨0, 0, -11⟩ ⟨0, 0, 255⟩) = .ok none := by
  obtain ⟨world, hw, _, _, hout, hclip⟩ :=
    clip_sector_straddling_dropped sqrt_model ⟨0, 0, 255⟩ sqrt_model_pos
  exact ⟨world, hw, hout, hclip⟩

/-- C8 (behaviour of the code): for every frustum built from parameters with
`left < right`, `bottom < top` and `0 < near < far`, the corner
`(right, top, -near)` of the near rectangle is a point of the view volume whose
signed distance to the near plane returned by `get_frustum_planes` is negative:
the near plane is built through `(left, bottom, +near)` and does not keep the
whole volume. -/
theorem near_plane_rejects_volume_corner (sqrt : ℚ → ℚ) (left right bottom top near far : ℚ)
    (hs : SqrtPos sqrt) (hlr : left < right) (hbt : bottom < top) (hn : 0 < near)
    (hnf : near < far) :
    ∃ frustum, Frustum.new sqrt left right bottom top near far = .ok frustum ∧
      frustum.near_plane_ ∈ frustum.get_frustum_planes ∧
      InViewVolume left right bottom top near far right top (-near) ∧
      Outside frustum.near_plane_ ⟨right, top, -near, 1⟩ := by
  refine ⟨_, Frustum.new_ok sqrt left right bottom top near far hlr.ne hbt.ne hnf.ne,
    List.mem_cons_self _ _, ?_, ?_⟩
  · have hne : near ≠ 0 := hn.ne.symm
    refine ⟨by linarith, le_refl _, ?_, ?_, ?_, ?_⟩
    · rw [neg_neg, mul_div_assoc, div_self hne, mul_one]
      exact hlr.le
    · rw [neg_neg, mul_div_assoc, div_self hne, mul_one]
    · rw [neg_neg, mul_div_assoc, div_self hne, mul_one]
      exact hbt.le
    · rw [neg_neg, mul_div_assoc, div_self hne, mul_one]
  · have hp : 0 < (top - bottom) * (right - left) :=
      mul_pos (sub_pos.mpr hbt) (sub_pos.mpr hlr)
    have hc : 0 < (((⟨left, top, -near⟩ : Vector3d).sub ⟨left, bottom, near⟩).cross
        ((⟨right, bottom, -near⟩ : Vector3d).sub ⟨left, bottom, near⟩)).squaredNorm := by
      simp only [Vector3d.sub, Vector3d.cross, Vector3d.dot, Vector3d.squaredNorm]
      nlinarith [mul_pos hp hp, sq_nonneg ((top - bottom) * (-near - near)),
        sq_nonneg ((-near - near) * (right - left))]
    have hd := of_points_distance sqrt ⟨left, bottom, near⟩ ⟨left, top, -near⟩
      ⟨right, bottom, -near⟩ ⟨right, top, -near, 1⟩ one_ne_zero hc
    refine (outside_iff_of_dist hd (hs _ hc)).mpr ?_
    simp only [Vector3d.sub, Vector3d.cross, Vector3d.dot]
    nlinarith [mul_pos hn hp]

/-- The default frustum `(-1, 1, -1, 1, 1, 10)`: the point `(1, 1, -1)` of its
view volume is on the discard side of its near plane. -/
theorem near_plane_rejects_volume_corner_witness :
    ∃ frustum, Frustum.new sqrt_model (-1) 1 (-1) 1 1 10 = .ok frustum ∧
      frustum.near_plane_ ∈ frustum.get_frustum_planes ∧
      InViewVolume (-1) 1 (-1) 1 1 10 1 1 (-1) ∧
      Outside frustum.near_plane_ ⟨1, 1, -1, 1⟩ :=
  near_plane_rejects_volume_corner sqrt_model (-1) 1 (-1) 1 1 10 sqrt_model_pos
    (by norm_num) (by norm_num) (by norm_num) (by norm_num)

/-! ## Claims on normalisation, the frustum parameters and the model matrix -/

/-- C16: `normalize_vector v` returns `(x/w, y/w, z/w, 1)` for every
`v = (x, y, z, w)` with `w ≠ 0`, and fails with an error, never returning a
value, exactly when `w = 0`. -/
theorem normalize_vector_spec (v : Vector4d) :
    (v.w ≠ 0 → normalize_vector v = .ok ⟨v.x / v.w, v.y / v.w, v.z / v.w, 1⟩) ∧
    (v.w = 0 → normalize_vector v = .error .invalid_argument) ∧
    ((∃ e, normalize_vector v = .error e) ↔ v.w = 0) := by
  refine ⟨normalize_vector_ok v, normalize_vector_error v, ?_, fun hw => ⟨_, normalize_vector_error v hw⟩⟩
  rintro ⟨e, he⟩
  by_contra hw
  rw [normalize_vector_ok v hw] at he
  cases he

/-- Both sides of `normalize_vector_spec`: `(2, 4, 6, 2)` normalises to
`(1, 2, 3, 1)` and `(1, 2, 3, 0)` is refused. -/
theorem normalize_vector_spec_witness :
    normalize_vector ⟨2, 4, 6, 2⟩ = .ok ⟨2 / 2, 4 / 2, 6 / 2, 1⟩ ∧
    normalize_vector ⟨1, 2, 3, 0⟩ = .error .invalid_argument :=
  ⟨(normalize_vector_spec ⟨2, 4, 6, 2⟩).1 (by norm_num),
    (normalize_vector_spec ⟨1, 2, 3, 0⟩).2.1 rfl⟩

/-- A vector whose `w` is `1` is its own normalisation. -/
theorem normalize_vector_of_w_one (q : Vector4d) (hq : q.w = 1) :
    normalize_vector q = .ok q := by
  rw [normalize_vector_ok q (by rw [hq]; exact one_ne_zero)]
  cases q
  simp only at hq
  subst hq
  simp

/-- What `normalize_vector` returns has `w = 1`. -/
theorem normalize_vector_w {v q : Vector4d} (h : normalize_vector v = .ok q) : q.w = 1 := by
  by_cases hw : v.w = 0
  · rw [normalize_vector_error v hw] at h
    cases h
  · rw [normalize_vector_ok v hw] at h
    cases h
    rfl

/-- C17: normalisation is idempotent: for every `v` with `w ≠ 0`,
`normalize_vector (normalize_vector v)` succeeds and equals
`normalize_vector v`; the same holds for every defined result of
`apply_transform_and_normalize v M`. -/
theorem normalize_vector_idempotent :
    (∀ v : Vector4d, v.w ≠ 0 →
      ∃ q, normalize_vector v = .ok q ∧ normalize_vector q = .ok q ∧
        (normalize_vector v >>= normalize_vector) = normalize_vector v) ∧
    (∀ (v : Vector4d) (m : Matrix4d) (q : Vector4d),
      apply_transform_and_normalize v m = .ok q → normalize_vector q = .ok q) := by
  constructor
  · intro v hw
    have h := normalize_vector_ok v hw
    have hq := normalize_vector_of_w_one ⟨v.x / v.w, v.y / v.w, v.z / v.w, 1⟩ rfl
    refine ⟨_, h, hq, ?_⟩
    rw [h, ok_bind]
    exact hq
  · intro v m q h
    exact normalize_vector_of_w_one q (normalize_vector_w h)

/-- The first half of `normalize_vector_idempotent` at `(2, 4, 6, 2)`. -/
theorem normalize_vector_idempotent_witness :
    ∃ q, normalize_vector ⟨2, 4, 6, 2⟩ = .ok q ∧ normalize_vector q = .ok q ∧
      (normalize_vector ⟨2, 4, 6, 2⟩ >>= normalize_vector) = normalize_vector ⟨2, 4, 6, 2⟩ :=
  normalize_vector_idempotent.1 ⟨2, 4, 6, 2⟩ (by norm_num)

/-- What `update_params` installs: the state the constructor would reach for
the same parameters, whatever they are. -/
theorem Frustum.update_params_eq (sqrt : ℚ → ℚ) (self : Frustum)
    (left right bottom top near far : ℚ) :
    self.update_params sqrt left right bottom top near far
      = ((Frustum.uninitialized left right bottom top near far).initialize_planes
          sqrt).compute_projection_matrix := rfl

/-- C18 (behaviour of the code at a failing input): the constructor refuses
every degenerate view volume, but `update_params` has no such check: called on
the default frustum with `left = right = 0` it installs the planes and the
projection matrix of those parameters, the very state the refused constructor
call `Frustum(0, 0, -1, 1, 1, 10)` was building. -/
theorem update_params_accepts_degenerate (sqrt : ℚ → ℚ) :
    (∀ left right bottom top near far : ℚ, left = right ∨ bottom = top ∨ near = far →
      Frustum.new sqrt left right bottom top near far = .error .assertion_failed) ∧
    Frustum.new sqrt 0 0 (-1) 1 1 10 = .error .assertion_failed ∧
    (default_frustum sqrt).update_params sqrt 0 0 (-1) 1 1 10
      = ((Frustum.uninitialized 0 0 (-1) 1 1 10).initialize_planes
          sqrt).compute_projection_matrix ∧
    ((default_frustum sqrt).update_params sqrt 0 0 (-1) 1 1 10).left_
      = ((default_frustum sqrt).update_params sqrt 0 0 (-1) 1 1 10).right_ := by
  have hnew : ∀ left right bottom top near far : ℚ,
      left = right ∨ bottom = top ∨ near = far →
      Frustum.new sqrt left right bottom top near far = .error .assertion_failed := by
    intro left right bottom top near far h
    simp only [Frustum.new, Frustum.initialize_planes, Frustum.uninitialized]
    rcases h with h | h | h
    · simp [h]
    · by_cases h1 : left = right <;> simp [h, h1]
    · by_cases h1 : left = right <;> by_cases h2 : bottom = top <;> simp [h, h1, h2]
  exact ⟨hnew, hnew 0 0 (-1) 1 1 10 (Or.inl rfl), rfl, rfl⟩

/-- The constructor half of `update_params_accepts_degenerate` at
`Frustum(-1, 1, 2, 2, 1, 10)`, whose `bottom` equals its `top`. -/
theorem update_params_accepts_degenerate_witness :
    Frustum.new sqrt_model (-1) 1 2 2 1 10 = .error .assertion_failed :=
  (update_params_accepts_degenerate sqrt_model).1 (-1) 1 2 2 1 10 (Or.inr (Or.inl rfl))

/-- C20: `rotate_local` leaves the translation column unchanged: the entries
`(0,3)`, `(1,3)`, `(2,3)` of the model matrix after the call are the entries
before it, and every other entry is the entry of
`create_rotation_matrix(axis, angle)` times the old matrix with its translation
column zeroed. -/
theorem rotate_local_keeps_translation (cos sin : ℚ → ℚ) (o : Object) (axis : Vector3d)
    (angle : ℚ) :
    ((o.rotate_local cos sin axis angle).transform_matrix_.r0.w = o.transform_matrix_.r0.w ∧
      (o.rotate_local cos sin axis angle).transform_matrix_.r1.w = o.transform_matrix_.r1.w ∧
      (o.rotate_local cos sin axis angle).transform_matrix_.r2.w = o.transform_matrix_.r2.w) ∧
    ((o.rotate_local cos sin axis angle).transform_matrix_.r0.x
        = ((create_rotation_matrix cos sin axis angle).mul
            o.reset_translation.transform_matrix_).r0.x ∧
      (o.rotate_local cos sin axis angle).transform_matrix_.r0.y
        = ((create_rotation_matrix cos sin axis angle).mul
            o.reset_translation.transform_matrix_).r0.y ∧
      (o.rotate_local cos sin axis angle).transform_matrix_.r0.z
        = ((create_rotation_matrix cos sin axis angle).mul
            o.reset_translation.transform_matrix_).r0.z ∧
      (o.rotate_local cos sin axis angle).transform_matrix_.r1.x
        = ((create_rotation_matrix cos sin axis angle).mul
            o.reset_translation.transform_matrix_).r1.x ∧
      (o.rotate_local cos sin axis angle).transform_matrix_.r1.y
        = ((create_rotation_matrix cos sin axis angle).mul
            o.reset_translation.transform_matrix_).r1.y ∧
      (o.rotate_local cos sin axis angle).transform_matrix_.r1.z
        = ((create_rotation_matrix cos sin axis angle).mul
            o.reset_translation.transform_matrix_).r1.z ∧
      (o.rotate_local cos sin axis angle).transform_matrix_.r2.x
        = ((create_rotation_matrix cos sin axis angle).mul
            o.reset_translation.transform_matrix_).r2.x ∧
      (o.rotate_local cos sin axis angle).transform_matrix_.r2.y
        = ((create_rotation_matrix cos sin axis angle).mul
            o.reset_translation.transform_matrix_).r2.y ∧
      (o.rotate_local cos sin axis angle).transform_matrix_.r2.z
        = ((create_rotation_matrix cos sin axis angle).mul
            o.reset_translation.transform_matrix_).r2.z ∧
      (o.rotate_local cos sin axis angle).transform_matrix_.r3
        = ((create_rotation_matrix cos sin axis angle).mul
            o.reset_translation.transform_matrix_).r3) ∧
    (o.reset_translation.transform_matrix_.r0.w = 0 ∧
      o.reset_translation.transform_matrix_.r1.w = 0 ∧
      o.reset_translation.transform_matrix_.r2.w = 0 ∧
      o.reset_translation.transform_matrix_.r0.x = o.transform_matrix_.r0.x ∧
      o.reset_translation.transform_matrix_.r0.y = o.transform_matrix_.r0.y ∧
      o.reset_translation.transform_matrix_.r0.z = o.transform_matrix_.r0.z ∧
      o.reset_translation.transform_matrix_.r1.x = o.transform_matrix_.r1.x ∧
      o.reset_translation.transform_matrix_.r1.y = o.transform_matrix_.r1.y ∧
      o.reset_translation.transform_matrix_.r1.z = o.transform_matrix_.r1.z ∧
      o.reset_translation.transform_matrix_.r2.x = o.transform_matrix_.r2.x ∧
      o.reset_translation.transform_matrix_.r2.y = o.transform_matrix_.r2.y ∧
      o.reset_translation.transform_matrix_.r2.z = o.transform_matrix_.r2.z ∧
      o.reset_translation.transform_matrix_.r3 = o.transform_matrix_.r3) ∧
    (o.rotate_local cos sin axis angle).points_ = o.points_ ∧
    (o.rotate_local cos sin axis angle).sectors_ = o.sectors_ ∧
    (o.rotate_local cos sin axis angle).triangles_ = o.triangles_ :=
  ⟨⟨rfl, rfl, rfl⟩, ⟨rfl, rfl, rfl, rfl, rfl, rfl, rfl, rfl, rfl, rfl⟩,
    ⟨rfl, rfl, rfl, rfl, rfl, rfl, rfl, rfl, rfl, rfl, rfl, rfl, rfl⟩, rfl, rfl, rfl⟩

/-! ## Claims on the rasteriser -/

/-- The result of `put_pixel` on a pixel of the screen. -/
theorem put_pixel_in_range (screen : Screen) (i j : Int) (color : Color) (z : ℚ)
    (hi : 0 ≤ i) (hiw : i < screen.w) (hj : 0 ≤ j) (hjh : j < screen.h) :
    screen.put_pixel i j color z
      = .ok (if z < screen.z_buffer i j then
          { screen with
            z_buffer := set_coeff screen.z_buffer i j z
            r := set_coeff screen.r i j color.r
            g := set_coeff screen.g i j color.g
            b := set_coeff screen.b i j color.b }
        else screen) := by
  unfold Screen.put_pixel
  rw [if_neg (not_not.mpr ⟨hi, hiw, hj, hjh⟩)]
  split <;> rfl

theorem set_coeff_same {α : Type} (m : Int → Int → α) (i j : Int) (v : α) :
    set_coeff m i j v i j = v := by
  simp [set_coeff]

theorem set_coeff_other {α : Type} (m : Int → Int → α) (i j a b : Int) (v : α)
    (h : ¬ (a = i ∧ b = j)) : set_coeff m i j v a b = m a b := by
  simp [set_coeff, h]

/-- What one depth-tested write leaves at the pixel it addresses. -/
theorem put_pixel_at (screen : Screen) (i j : Int) (color : Color) (z : ℚ)
    (hi : 0 ≤ i) (hiw : i < screen.w) (hj : 0 ≤ j) (hjh : j < screen.h) :
    ∃ s, screen.put_pixel i j color z = .ok s ∧ s.w = screen.w ∧ s.h = screen.h ∧
      s.z_buffer i j = (if z < screen.z_buffer i j then z else screen.z_buffer i j) ∧
      s.r i j = (if z < screen.z_buffer i j then (color.r : Int) else screen.r i j) ∧
      s.g i j = (if z < screen.z_buffer i j then (color.g : Int) else screen.g i j) ∧
      s.b i j = (if z < screen.z_buffer i j then (color.b : Int) else screen.b i j) := by
  rw [put_pixel_in_range screen i j color z hi hiw hj hjh]
  by_cases hz : z < screen.z_buffer i j
  · simp only [if_pos hz]
    exact ⟨_, rfl, rfl, rfl, set_coeff_same _ _ _ _, set_coeff_same _ _ _ _,
      set_coeff_same _ _ _ _, set_coeff_same _ _ _ _⟩
  · simp only [if_neg hz]
    exact ⟨_, rfl, rfl, rfl, rfl, rfl, rfl, rfl⟩

/-- C12: on any screen state and pixel `(i, j)` of it, `put_pixel i j color z`
with `z` strictly less than the stored depth sets the three colour channels at
`(i, j)` to `color` and the stored depth to `z`; otherwise it leaves the whole
screen unchanged; in both cases every other pixel keeps its colour and depth.
On a fresh screen, `put_pixel(5,5,{255,0,0},0.5)` followed by
`put_pixel(5,5,{0,255,0},0.9)` leaves pixel `(5,5)` red with depth `0.5`. -/
theorem put_pixel_depth_test :
    (∀ (screen : Screen) (i j : Int) (color : Color) (z : ℚ),
      0 ≤ i → i < screen.w → 0 ≤ j → j < screen.h → z < screen.z_buffer i j →
      ∃ s, screen.put_pixel i j color z = .ok s ∧
        s.r i j = color.r ∧ s.g i j = color.g ∧ s.b i j = color.b ∧ s.z_buffer i j = z ∧
        s.w = screen.w ∧ s.h = screen.h ∧
        ∀ a b : Int, ¬ (a = i ∧ b = j) →
          s.r a b = screen.r a b ∧ s.g a b = screen.g a b ∧ s.b a b = screen.b a b ∧
          s.z_buffer a b = screen.z_buffer a b) ∧
    (∀ (screen : Screen) (i j : Int) (color : Color) (z : ℚ),
      0 ≤ i → i < screen.w → 0 ≤ j → j < screen.h → ¬ z < screen.z_buffer i j →
      screen.put_pixel i j color z = .ok screen) ∧
    (∀ w h : Int, 5 < w → 5 < h →
      ∃ s1 s2, (Screen.new w h).put_pixel 5 5 ⟨255, 0, 0⟩ (1 / 2) = .ok s1 ∧
        s1.put_pixel 5 5 ⟨0, 255, 0⟩ (9 / 10) = .ok s2 ∧
        s2.r 5 5 = 255 ∧ s2.g 5 5 = 0 ∧ s2.b 5 5 = 0 ∧ s2.z_buffer 5 5 = 1 / 2) := by
  refine ⟨?_, ?_, ?_⟩
  · intro screen i j color z hi hiw hj hjh hz
    rw [put_pixel_in_range screen i j color z hi hiw hj hjh, if_pos hz]
    refine ⟨_, rfl, set_coeff_same _ _ _ _, set_coeff_same _ _ _ _, set_coeff_same _ _ _ _,
      set_coeff_same _ _ _ _, rfl, rfl, fun a b hab => ?_⟩
    exact ⟨set_coeff_other _ _ _ _ _ _ hab, set_coeff_other _ _ _ _ _ _ hab,
      set_coeff_other _ _ _ _ _ _ hab, set_coeff_other _ _ _ _ _ _ hab⟩
  · intro screen i j color z hi hiw hj hjh hz
    rw [put_pixel_in_range screen i j color z hi hiw hj hjh, if_neg hz]
  · intro w h hw hh
    obtain ⟨s1, h1, h1w, h1h, hz1, hr1, hg1, hb1⟩ :=
      put_pixel_at (Screen.new w h) 5 5 ⟨255, 0, 0⟩ (1 / 2) (by norm_num) hw (by norm_num) hh
    obtain ⟨s2, h2, _, _, hz2, hr2, hg2, hb2⟩ :=
      put_pixel_at s1 5 5 ⟨0, 255, 0⟩ (9 / 10) (by norm_num) (h1w ▸ hw) (by norm_num)
        (h1h ▸ hh)
    have hd : (Screen.new w h).z_buffer 5 5 = 2 := rfl
    rw [hd, if_pos (by norm_num)] at hz1 hr1 hg1 hb1
    rw [hz1, if_neg (by norm_num)] at hz2 hr2 hg2 hb2
    exact ⟨s1, s2, h1, h2, hr2.trans hr1, hg2.trans hg1, hb2.trans hb1, hz2⟩

/-- The first two parts of `put_pixel_depth_test` on a fresh `8 × 8` screen: a
write at depth `1/2` passes the test against the sentinel `2`, a write at depth
`3` does not. -/
theorem put_pixel_depth_test_witness :
    (∃ s, (Screen.new 8 8).put_pixel 5 5 ⟨255, 0, 0⟩ (1 / 2) = .ok s ∧
      s.r 5 5 = 255 ∧ s.z_buffer 5 5 = 1 / 2) ∧
    (Screen.new 8 8).put_pixel 5 5 ⟨255, 0, 0⟩ 3 = .ok (Screen.new 8 8) := by
  obtain ⟨s, hs, hr, _, _, hz, _⟩ :=
    put_pixel_depth_test.1 (Screen.new 8 8) 5 5 ⟨255, 0, 0⟩ (1 / 2) (by norm_num)
      (by norm_num [Screen.new]) (by norm_num) (by norm_num [Screen.new])
      (by norm_num [Screen.new])
  exact ⟨⟨s, hs, hr, hz⟩,
    put_pixel_depth_test.2.1 (Screen.new 8 8) 5 5 ⟨255, 0, 0⟩ 3 (by norm_num)
      (by norm_num [Screen.new]) (by norm_num) (by norm_num [Screen.new])
      (by norm_num [Screen.new])⟩

/-- C15 (counterexample): on a fresh `10 × 10` screen a red and a green write
to pixel `(5, 5)`, both at depth `1/2`, leave the pixel red in one order and
green in the other. -/
theorem put_pixel_tie_depends_on_order :
    ∃ sa sa2 sb sb2,
      (Screen.new 10 10).put_pixel 5 5 ⟨255, 0, 0⟩ (1 / 2) = .ok sa ∧
      sa.put_pixel 5 5 ⟨0, 255, 0⟩ (1 / 2) = .ok sa2 ∧
      (Screen.new 10 10).put_pixel 5 5 ⟨0, 255, 0⟩ (1 / 2) = .ok sb ∧
      sb.put_pixel 5 5 ⟨255, 0, 0⟩ (1 / 2) = .ok sb2 ∧
      sa2.r 5 5 = 255 ∧ sb2.r 5 5 = 0 ∧ sa2.r 5 5 ≠ sb2.r 5 5 := by
  obtain ⟨sa, ha, haw, hah, hza, hra, _, _⟩ :=
    put_pixel_at (Screen.new 10 10) 5 5 ⟨255, 0, 0⟩ (1 / 2) (by norm_num)
      (by norm_num [Screen.new]) (by norm_num) (by norm_num [Screen.new])
  obtain ⟨sb, hb, hbw, hbh, hzb, hrb, _, _⟩ :=
    put_pixel_at (Screen.new 10 10) 5 5 ⟨0, 255, 0⟩ (1 / 2) (by norm_num)
      (by norm_num [Screen.new]) (by norm_num) (by norm_num [Screen.new])
  have hza2 : sa.z_buffer 5 5 = 1 / 2 := by rw [hza]; norm_num [Screen.new]
  have hzb2 : sb.z_buffer 5 5 = 1 / 2 := by rw [hzb]; norm_num [Screen.new]
  have hra2 : sa.r 5 5 = 255 := by rw [hra]; norm_num [Screen.new]
  have hrb2 : sb.r 5 5 = 0 := by rw [hrb]; norm_num [Screen.new]
  obtain ⟨sa2, ha2, _, _, _, hra3, _, _⟩ :=
    put_pixel_at sa 5 5 ⟨0, 255, 0⟩ (1 / 2) (by norm_num)
      (by rw [haw]; norm_num [Screen.new]) (by norm_num) (by rw [hah]; norm_num [Screen.new])
  obtain ⟨sb2, hb2, _, _, _, hrb3, _, _⟩ :=
    put_pixel_at sb 5 5 ⟨255, 0, 0⟩ (1 / 2) (by norm_num)
      (by rw [hbw]; norm_num [Screen.new]) (by norm_num) (by rw [hbh]; norm_num [Screen.new])
  rw [hza2, if_neg (lt_irrefl _), hra2] at hra3
  rw [hzb2, if_neg (lt_irrefl _), hrb2] at hrb3
  exact ⟨sa, sa2, sb, sb2, ha, ha2, hb, hb2, hra3, hrb3, by rw [hra3, hrb3]; norm_num⟩

/-- C15 (amended): for every screen state, pixel `(i, j)` of it and two writes
`(c1, z1)`, `(c2, z2)`, both orders of the two `put_pixel` calls leave the same
depth at `(i, j)`, and the same colour too unless the writes tie (`z1 = z2`)
below the stored depth with different colours; in a tie below the stored depth
the write performed first keeps the pixel. -/
theorem put_pixel_order_independent (screen : Screen) (i j : Int) (c1 c2 : Color)
    (z1 z2 : ℚ) (hi : 0 ≤ i) (hiw : i < screen.w) (hj : 0 ≤ j) (hjh : j < screen.h) :
    ∃ sa sa2 sb sb2,
      screen.put_pixel i j c1 z1 = .ok sa ∧ sa.put_pixel i j c2 z2 = .ok sa2 ∧
      screen.put_pixel i j c2 z2 = .ok sb ∧ sb.put_pixel i j c1 z1 = .ok sb2 ∧
      sa2.z_buffer i j = sb2.z_buffer i j ∧
      (¬ (z1 = z2 ∧ z1 < screen.z_buffer i j ∧ c1 ≠ c2) →
        sa2.r i j = sb2.r i j ∧ sa2.g i j = sb2.g i j ∧ sa2.b i j = sb2.b i j) ∧
      (z1 = z2 → z1 < screen.z_buffer i j →
        (sa2.r i j = (c1.r : Int) ∧ sa2.g i j = (c1.g : Int) ∧ sa2.b i j = (c1.b : Int)) ∧
        (sb2.r i j = (c2.r : Int) ∧ sb2.g i j = (c2.g : Int) ∧ sb2.b i j = (c2.b : Int))) := by
  obtain ⟨sa, ha, haw, hah, hza, hra, hga, hba⟩ := put_pixel_at screen i j c1 z1 hi hiw hj hjh
  obtain ⟨sb, hb, hbw, hbh, hzb, hrb, hgb, hbb⟩ := put_pixel_at screen i j c2 z2 hi hiw hj hjh
  obtain ⟨sa2, ha2, _, _, hza2, hra2, hga2, hba2⟩ :=
    put_pixel_at sa i j c2 z2 hi (haw ▸ hiw) hj (hah ▸ hjh)
  obtain ⟨sb2, hb2, _, _, hzb2, hrb2, hgb2, hbb2⟩ :=
    put_pixel_at sb i j c1 z1 hi (hbw ▸ hiw) hj (hbh ▸ hjh)
  refine ⟨sa, sa2, sb, sb2, ha, ha2, hb, hb2, ?_, ?_, ?_⟩
  · rw [hza2, hzb2, hza, hzb]
    split_ifs <;> linarith
  rotate_left
  · intro h12 hz
    subst h12
    rw [hra2, hrb2, hga2, hgb2, hba2, hbb2, hza, hzb, hra, hrb, hga, hgb, hba, hbb]
    simp [hz]
  · intro hne
    rw [hra2, hrb2, hga2, hgb2, hba2, hbb2, hza, hzb, hra, hrb, hga, hgb, hba, hbb]
    by_cases h12 : z1 = z2
    · subst h12
      by_cases hz : z1 < screen.z_buffer i j
      · have hc : c1 = c2 := by
          by_contra hc
          exact hne ⟨rfl, hz, hc⟩
        subst hc
        simp [hz]
      · simp [hz]
    · rcases lt_or_gt_of_ne h12 with hlt | hgt
      · by_cases hz1 : z1 < screen.z_buffer i j <;> by_cases hz2 : z2 < screen.z_buffer i j <;>
          first
          | (exfalso; linarith)
          | simp [hz1, hz2, hlt, not_lt.mpr hlt.le]
      · by_cases hz1 : z1 < screen.z_buffer i j <;> by_cases hz2 : z2 < screen.z_buffer i j <;>
          first
          | (exfalso; linarith)
          | simp [hz1, hz2, hgt, not_lt.mpr hgt.le]

/-- The statement of `put_pixel_order_independent` for a red write at depth
`1/2` and a green write at depth `9/10` on pixel `(5, 5)` of a fresh
`10 × 10` screen. -/
theorem put_pixel_order_independent_witness :
    ∃ sa sa2 sb sb2,
      (Screen.new 10 10).put_pixel 5 5 ⟨255, 0, 0⟩ (1 / 2) = .ok sa ∧
      sa.put_pixel 5 5 ⟨0, 255, 0⟩ (9 / 10) = .ok sa2 ∧
      (Screen.new 10 10).put_pixel 5 5 ⟨0, 255, 0⟩ (9 / 10) = .ok sb ∧
      sb.put_pixel 5 5 ⟨255, 0, 0⟩ (1 / 2) = .ok sb2 ∧
      sa2.z_buffer 5 5 = sb2.z_buffer 5 5 ∧
      (¬ ((1 / 2 : ℚ) = 9 / 10 ∧ (1 / 2 : ℚ) < (Screen.new 10 10).z_buffer 5 5 ∧
          (⟨255, 0, 0⟩ : Color) ≠ ⟨0, 255, 0⟩) →
        sa2.r 5 5 = sb2.r 5 5 ∧ sa2.g 5 5 = sb2.g 5 5 ∧ sa2.b 5 5 = sb2.b 5 5) ∧
      ((1 / 2 : ℚ) = 9 / 10 → (1 / 2 : ℚ) < (Screen.new 10 10).z_buffer 5 5 →
        (sa2.r 5 5 = ((⟨255, 0, 0⟩ : Color).r : Int) ∧ sa2.g 5 5 = ((⟨255, 0, 0⟩ : Color).g : Int) ∧
          sa2.b 5 5 = ((⟨255, 0, 0⟩ : Color).b : Int)) ∧
        (sb2.r 5 5 = ((⟨0, 255, 0⟩ : Color).r : Int) ∧ sb2.g 5 5 = ((⟨0, 255, 0⟩ : Color).g : Int) ∧
          sb2.b 5 5 = ((⟨0, 255, 0⟩ : Color).b : Int))) :=
  put_pixel_order_independent (Screen.new 10 10) 5 5 ⟨255, 0, 0⟩ ⟨0, 255, 0⟩ (1 / 2) (9 / 10)
    (by norm_num) (by norm_num [Screen.new]) (by norm_num) (by norm_num [Screen.new])

/-- In the range of `int`, truncation toward zero followed by a clamp from
below at `0` is rounding down followed by the same clamp. -/
theorem clamp_static_cast_int (oor : ℚ → Int) (q : ℚ) (hi : Int) (h : 0 ≤ hi)
    (hq : -2147483649 < q ∧ q < 2147483648) :
    clamp (static_cast_int oor q) 0 hi = clamp ⌊q⌋ 0 hi := by
  unfold static_cast_int
  rw [if_pos hq]
  split
  · rfl
  · next hq =>
    have hq2 : q < 0 := not_le.mp hq
    have hfl : ⌊q⌋ < 0 := Int.floor_lt.mpr (by exact_mod_cast hq2)
    have hce : ⌈q⌉ ≤ 0 := Int.ceil_le.mpr (by exact_mod_cast hq2.le)
    unfold clamp
    rw [if_pos hfl]
    by_cases hc : ⌈q⌉ < 0
    · rw [if_pos hc]
    · have h0 : ⌈q⌉ = 0 := le_antisymm hce (not_lt.mp hc)
      rw [h0, if_neg (lt_irrefl _), if_neg (not_lt.mpr h)]

/-- C14 (counterexample): on a `10 × 10` screen `rasterize_point(0.125, 0)` is
`(5, 5)`, while the formula with rounding to the nearest integer gives `(6, 5)`:
the scaled coordinate `5.625` is truncated, not rounded.  The intermediate
values `1.125`, `11.25`, `5.625` and `1`, `10`, `5` are all of type `double`, so
the result is the same for every rounding `fl` that leaves them unchanged, in
particular for the exact arithmetic `id`. -/
theorem rasterize_point_not_round :
    (∀ (fl : ℚ → ℚ) (oor : ℚ → Int), fl (9 / 8) = 9 / 8 → fl (45 / 4) = 45 / 4 →
      fl (45 / 8) = 45 / 8 → fl 1 = 1 → fl 10 = 10 → fl 5 = 5 →
      (Screen.new 10 10).rasterize_point fl oor (1 / 8) 0 = (5, 5)) ∧
    (Screen.new 10 10).rasterize_point id (fun _ => 0) (1 / 8) 0 = (5, 5) ∧
    (clamp (round (((1 / 8 : ℚ) + 1) * ((10 : Int) : ℚ) / 2)) 0 (10 - 1),
      clamp (round (((0 : ℚ) + 1) * ((10 : Int) : ℚ) / 2)) 0 (10 - 1)) = ((6 : Int), (5 : Int)) ∧
    (Screen.new 10 10).rasterize_point id (fun _ => 0) (1 / 8) 0
      ≠ (clamp (round (((1 / 8 : ℚ) + 1) * ((10 : Int) : ℚ) / 2)) 0 (10 - 1),
          clamp (round (((0 : ℚ) + 1) * ((10 : Int) : ℚ) / 2)) 0 (10 - 1)) := by
  have hgen : ∀ (fl : ℚ → ℚ) (oor : ℚ → Int), fl (9 / 8) = 9 / 8 → fl (45 / 4) = 45 / 4 →
      fl (45 / 8) = 45 / 8 → fl 1 = 1 → fl 10 = 10 → fl 5 = 5 →
      (Screen.new 10 10).rasterize_point fl oor (1 / 8) 0 = (5, 5) := by
    intro fl oor h1 h2 h3 h4 h5 h6
    have hx : fl (fl (fl ((1 / 8 : ℚ) + 1) * ((10 : Int) : ℚ)) / 2) = 45 / 8 := by
      rw [show ((1 / 8 : ℚ) + 1) = 9 / 8 by norm_num, h1,
        show (9 / 8 : ℚ) * ((10 : Int) : ℚ) = 45 / 4 by norm_num, h2,
        show (45 / 4 : ℚ) / 2 = 45 / 8 by norm_num, h3]
    have hy : fl (fl (fl ((0 : ℚ) + 1) * ((10 : Int) : ℚ)) / 2) = 5 := by
      rw [show ((0 : ℚ) + 1) = 1 by norm_num, h4,
        show (1 : ℚ) * ((10 : Int) : ℚ) = 10 by norm_num, h5,
        show (10 : ℚ) / 2 = 5 by norm_num, h6]
    have cx : static_cast_int oor (45 / 8) = 5 := by
      unfold static_cast_int
      rw [if_pos (by norm_num), if_pos (by norm_num)]
      exact Int.floor_eq_iff.mpr ⟨by norm_num, by norm_num⟩
    have cy : static_cast_int oor 5 = 5 := by
      unfold static_cast_int
      rw [if_pos (by norm_num), if_pos (by norm_num)]
      exact Int.floor_eq_iff.mpr ⟨by norm_num, by norm_num⟩
    simp only [Screen.rasterize_point, Screen.new, hx, hy, cx, cy]
    decide
  have hcode := hgen id (fun _ => 0) rfl rfl rfl rfl rfl rfl
  have hrx : round (((1 / 8 : ℚ) + 1) * ((10 : Int) : ℚ) / 2) = 6 := by
    rw [round_eq]
    exact Int.floor_eq_iff.mpr ⟨by norm_num, by norm_num⟩
  have hry : round (((0 : ℚ) + 1) * ((10 : Int) : ℚ) / 2) = 5 := by
    rw [round_eq]
    exact Int.floor_eq_iff.mpr ⟨by norm_num, by norm_num⟩
  have hround : (clamp (round (((1 / 8 : ℚ) + 1) * ((10 : Int) : ℚ) / 2)) 0 (10 - 1),
      clamp (round (((0 : ℚ) + 1) * ((10 : Int) : ℚ) / 2)) 0 (10 - 1))
      = ((6 : Int), (5 : Int)) := by
    rw [hrx, hry]
    decide
  refine ⟨hgen, hcode, hround, ?_⟩
  rw [hcode, hround]
  decide

/-- C14 (amended): for every screen of width `w >= 1` and height `h >= 1` and
every `x`, `y`, each axis of `rasterize_point(x, y)` is computed independently
by truncation, not by rounding to the nearest integer: with `qx` the value of
`(x + 1.0) * w / 2` as the `double` operations compute it (each result rounded
by `fl`), the column is `clamp(floor(qx), 0, w-1)` whenever `qx` is in the range
of `int` (`-2^31 - 1 < qx < 2^31`; outside it the conversion is undefined), and
likewise the row from `qy`; `static_cast<int>` truncates toward zero, which
under the clamp at `0` is rounding down.  Where the three operations are exact,
`qx` is `(x+1)*w/2` and the column is `clamp(floor((x+1)*w/2), 0, w-1)`. -/
theorem rasterize_point_floor (screen : Screen) (fl : ℚ → ℚ) (oor : ℚ → Int) (x y : ℚ)
    (hw : 1 ≤ screen.w) (hh : 1 ≤ screen.h) :
    (-2147483649 < fl (fl (fl (x + 1) * (screen.w : ℚ)) / 2) ∧
        fl (fl (fl (x + 1) * (screen.w : ℚ)) / 2) < 2147483648 →
      (screen.rasterize_point fl oor x y).1
        = clamp ⌊fl (fl (fl (x + 1) * (screen.w : ℚ)) / 2)⌋ 0 (screen.w - 1)) ∧
    (-2147483649 < fl (fl (fl (y + 1) * (screen.h : ℚ)) / 2) ∧
        fl (fl (fl (y + 1) * (screen.h : ℚ)) / 2) < 2147483648 →
      (screen.rasterize_point fl oor x y).2
        = clamp ⌊fl (fl (fl (y + 1) * (screen.h : ℚ)) / 2)⌋ 0 (screen.h - 1)) ∧
    (fl (x + 1) = x + 1 → fl ((x + 1) * (screen.w : ℚ)) = (x + 1) * (screen.w : ℚ) →
      fl ((x + 1) * (screen.w : ℚ) / 2) = (x + 1) * (screen.w : ℚ) / 2 →
      -2147483649 < (x + 1) * (screen.w : ℚ) / 2 ∧ (x + 1) * (screen.w : ℚ) / 2 < 2147483648 →
      (screen.rasterize_point fl oor x y).1
        = clamp ⌊(x + 1) * (screen.w : ℚ) / 2⌋ 0 (screen.w - 1)) ∧
    (fl (y + 1) = y + 1 → fl ((y + 1) * (screen.h : ℚ)) = (y + 1) * (screen.h : ℚ) →
      fl ((y + 1) * (screen.h : ℚ) / 2) = (y + 1) * (screen.h : ℚ) / 2 →
      -2147483649 < (y + 1) * (screen.h : ℚ) / 2 ∧ (y + 1) * (screen.h : ℚ) / 2 < 2147483648 →
      (screen.rasterize_point fl oor x y).2
        = clamp ⌊(y + 1) * (screen.h : ℚ) / 2⌋ 0 (screen.h - 1)) := by
  have hX : -2147483649 < fl (fl (fl (x + 1) * (screen.w : ℚ)) / 2) ∧
        fl (fl (fl (x + 1) * (screen.w : ℚ)) / 2) < 2147483648 →
      (screen.rasterize_point fl oor x y).1
        = clamp ⌊fl (fl (fl (x + 1) * (screen.w : ℚ)) / 2)⌋ 0 (screen.w - 1) := by
    intro hq
    simp only [Screen.rasterize_point]
    exact clamp_static_cast_int oor _ _ (by omega) hq
  have hY : -2147483649 < fl (fl (fl (y + 1) * (screen.h : ℚ)) / 2) ∧
        fl (fl (fl (y + 1) * (screen.h : ℚ)) / 2) < 2147483648 →
      (screen.rasterize_point fl oor x y).2
        = clamp ⌊fl (fl (fl (y + 1) * (screen.h : ℚ)) / 2)⌋ 0 (screen.h - 1) := by
    intro hq
    simp only [Screen.rasterize_point]
    exact clamp_static_cast_int oor _ _ (by omega) hq
  refine ⟨hX, hY, fun e1 e2 e3 hq => ?_, fun e1 e2 e3 hq => ?_⟩
  · have e : fl (fl (fl (x + 1) * (screen.w : ℚ)) / 2) = (x + 1) * (screen.w : ℚ) / 2 := by
      rw [e1, e2, e3]
    rw [e] at hX
    exact hX hq
  · have e : fl (fl (fl (y + 1) * (screen.h : ℚ)) / 2) = (y + 1) * (screen.h : ℚ) / 2 := by
      rw [e1, e2, e3]
    rw [e] at hY
    exact hY hq

/-- The statement of `rasterize_point_floor` on a `10 × 10` screen at
`(0.125, 0)` with exact arithmetic: the column is `clamp(floor(5.625), 0, 9)`. -/
theorem rasterize_point_floor_witness :
    ((Screen.new 10 10).rasterize_point id (fun _ => 0) (1 / 8) 0).1
      = clamp ⌊id (id (id ((1 / 8 : ℚ) + 1) * (((Screen.new 10 10).w : Int) : ℚ)) / 2)⌋ 0
          ((Screen.new 10 10).w - 1) :=
  (rasterize_point_floor (Screen.new 10 10) id (fun _ => 0) (1 / 8) 0
    (by norm_num [Screen.new]) (by norm_num [Screen.new])).1 (by norm_num [Screen.new])

/-! ## Claims on the projection -/

/-- The perspective matrix of `compute_projection_matrix` sends every point of
the view volume into the cube `[-1, 1]³`, with `w = 1` after normalisation. -/
theorem projection_in_cube (left right bottom top near far x y z : ℚ)
    (hlr : left < right) (hbt : bottom < top) (hn : 0 < near) (hnf : near < far)
    (hv : InViewVolume left right bottom top near far x y z) :
    ∃ q, apply_transform_and_normalize ⟨x, y, z, 1⟩
        ⟨⟨2 * near / (right - left), 0, (right + left) / (right - left), 0⟩,
          ⟨0, 2 * near / (top - bottom), (top + bottom) / (top - bottom), 0⟩,
          ⟨0, 0, -(far + near) / (far - near), -2 * far * near / (far - near)⟩,
          ⟨0, 0, -1, 0⟩⟩ = .ok q ∧
      -1 ≤ q.x ∧ q.x ≤ 1 ∧ -1 ≤ q.y ∧ q.y ≤ 1 ∧ -1 ≤ q.z ∧ q.z ≤ 1 ∧ q.w = 1 := by
  obtain ⟨hzf, hzn, hxl, hxr, hyb, hyt⟩ := hv
  have hd : 0 < -z := by linarith
  have hrl : 0 < right - left := sub_pos.mpr hlr
  have htb : 0 < top - bottom := sub_pos.mpr hbt
  have hfn : 0 < far - near := sub_pos.mpr hnf
  have hf : 0 < far := by linarith
  have hxl2 : left * -z ≤ x * near := (div_le_iff₀ hn).mp hxl
  have hxr2 : x * near ≤ right * -z := (le_div_iff₀ hn).mp hxr
  have hyb2 : bottom * -z ≤ y * near := (div_le_iff₀ hn).mp hyb
  have hyt2 : y * near ≤ top * -z := (le_div_iff₀ hn).mp hyt
  have hnz : far * near ≤ far * -z := mul_le_mul_of_nonneg_left (by linarith) hf.le
  have hzf2 : near * -z ≤ near * far := mul_le_mul_of_nonneg_left (by linarith) hn.le
  have ex : 2 * near / (right - left) * x + 0 * y + (right + left) / (right - left) * z + 0 * 1
      = (2 * near * x + (right + left) * z) / (right - left) := by
    field_simp
  have ey : 0 * x + 2 * near / (top - bottom) * y + (top + bottom) / (top - bottom) * z + 0 * 1
      = (2 * near * y + (top + bottom) * z) / (top - bottom) := by
    field_simp
  have ez : 0 * x + 0 * y + -(far + near) / (far - near) * z
        + -2 * far * near / (far - near) * 1
      = (-(far + near) * z - 2 * far * near) / (far - near) := by
    field_simp
    ring
  have ew : 0 * x + 0 * y + -1 * z + 0 * 1 = -z := by ring
  have hw : (Matrix4d.mulVec
      ⟨⟨2 * near / (right - left), 0, (right + left) / (right - left), 0⟩,
        ⟨0, 2 * near / (top - bottom), (top + bottom) / (top - bottom), 0⟩,
        ⟨0, 0, -(far + near) / (far - near), -2 * far * near / (far - near)⟩,
        ⟨0, 0, -1, 0⟩⟩ ⟨x, y, z, 1⟩).w ≠ 0 := by
    simp only [Matrix4d.mulVec, Vector4d.dot, ew]
    exact hd.ne.symm
  unfold apply_transform_and_normalize
  rw [normalize_vector_ok _ hw]
  refine ⟨_, rfl, ?_⟩
  simp only [Matrix4d.mulVec, Vector4d.dot, ex, ey, ez, ew]
  refine ⟨?_, ?_, ?_, ?_, ?_, ?_, trivial⟩
  · rw [le_div_iff₀ hd, le_div_iff₀ hrl]
    linarith
  · rw [div_le_iff₀ hd, div_le_iff₀ hrl]
    linarith
  · rw [le_div_iff₀ hd, le_div_iff₀ htb]
    linarith
  · rw [div_le_iff₀ hd, div_le_iff₀ htb]
    linarith
  · rw [le_div_iff₀ hd, le_div_iff₀ hfn]
    linarith
  · rw [div_le_iff₀ hd, div_le_iff₀ hfn]
    linarith

/-- C11: for every frustum with `left < right`, `bottom < top` and
`0 < near < far`, built by the constructor or installed by `update_params`, and
every point `(x, y, z, 1)` of the view volume, `apply_transform_and_normalize`
with `get_projection_matrix()` succeeds and yields `x`, `y` and `z` each in
`[-1, 1]` and `w = 1`. -/
theorem projection_maps_volume_into_cube (sqrt : ℚ → ℚ)
    (left right bottom top near far x y z : ℚ)
    (hlr : left < right) (hbt : bottom < top) (hn : 0 < near) (hnf : near < far)
    (hv : InViewVolume left right bottom top near far x y z) :
    (∃ frustum, Frustum.new sqrt left right bottom top near far = .ok frustum ∧
      ∃ q, apply_transform_and_normalize ⟨x, y, z, 1⟩ frustum.get_projection_matrix = .ok q ∧
        -1 ≤ q.x ∧ q.x ≤ 1 ∧ -1 ≤ q.y ∧ q.y ≤ 1 ∧ -1 ≤ q.z ∧ q.z ≤ 1 ∧ q.w = 1) ∧
    (∀ old : Frustum,
      ∃ q, apply_transform_and_normalize ⟨x, y, z, 1⟩
          (old.update_params sqrt left right bottom top near far).get_projection_matrix
            = .ok q ∧
        -1 ≤ q.x ∧ q.x ≤ 1 ∧ -1 ≤ q.y ∧ q.y ≤ 1 ∧ -1 ≤ q.z ∧ q.z ≤ 1 ∧ q.w = 1) :=
  ⟨⟨_, Frustum.new_ok sqrt left right bottom top near far hlr.ne hbt.ne hnf.ne,
      projection_in_cube left right bottom top near far x y z hlr hbt hn hnf hv⟩,
    fun _ => projection_in_cube left right bottom top near far x y z hlr hbt hn hnf hv⟩

/-- The default frustum `(-1, 1, -1, 1, 1, 10)` and the corner `(10, 10, -10)`
of its far rectangle. -/
theorem projection_maps_volume_into_cube_witness :
    ∃ frustum, Frustum.new sqrt_model (-1) 1 (-1) 1 1 10 = .ok frustum ∧
      ∃ q, apply_transform_and_normalize ⟨10, 10, -10, 1⟩ frustum.get_projection_matrix
          = .ok q ∧
        -1 ≤ q.x ∧ q.x ≤ 1 ∧ -1 ≤ q.y ∧ q.y ≤ 1 ∧ -1 ≤ q.z ∧ q.z ≤ 1 ∧ q.w = 1 :=
  (projection_maps_volume_into_cube sqrt_model (-1) 1 (-1) 1 1 10 10 10 (-10)
    (by norm_num) (by norm_num) (by norm_num) (by norm_num)
    (by norm_num [InViewVolume])).1


/-! ## Claims on `draw_line` -/

/-- The loop of `draw_line` stops at once when the current pixel is the end
pixel. -/
theorem draw_line_loop_done (x2 y2 : Int) (z1 z2 : ℚ) (dx dy sx sy : Int) (color : Color)
    (fuel : Nat) (err : Int) (screen : Screen) :
    Screen.draw_line_loop x2 y2 z1 z2 dx dy sx sy color fuel x2 y2 err screen = .ok screen := by
  cases fuel <;> simp [Screen.draw_line_loop]

/-- One step of the loop of `draw_line` on the horizontal line from `(0, 0)` to
`(n, 0)`: the pixel `(x, 0)` is written with the depth at parameter
`(n - x) / n`, and the walk moves to `(x + 1, 0)` with the error term
unchanged. -/
theorem draw_line_loop_horizontal_step (n : Int) (z1 z2 : ℚ) (color : Color) (fuel : Nat)
    (x : Int) (screen : Screen) (hx0 : 0 ≤ x) (hx : x < n) :
    Screen.draw_line_loop n 0 z1 z2 n 0 1 (-1) color (fuel + 1) x 0 n screen
      = (screen.put_pixel x 0 color (z1 + (z2 - z1) * (((n - x : Int) : ℚ) / (n : ℚ))) >>=
          fun s => Screen.draw_line_loop n 0 z1 z2 n 0 1 (-1) color fuel (x + 1) 0 n s) := by
  have hne : x ≠ n := hx.ne
  have habs : |x - n| = n - x := by rw [abs_of_neg (by omega)]; ring
  have h1 : n > 0 := by omega
  have h2 : n * 2 > -0 := by omega
  have h3 : ¬ n * 2 < n := by omega
  simp only [Screen.draw_line_loop]
  rw [if_pos (Or.inl hne), if_pos h1, if_pos h2, if_neg h3, if_neg h3, if_pos h2, habs, sub_zero]

/-- A value interpolated between two depths below the sentinel is below the
sentinel. -/
theorem interp_lt_two (z1 z2 t : ℚ) (h1 : z1 < 2) (h2 : z2 < 2) (ht0 : 0 ≤ t) (ht1 : t ≤ 1) :
    z1 + (z2 - z1) * t < 2 := by
  rcases le_total z1 z2 with h | h
  · have : (z2 - z1) * t ≤ (z2 - z1) * 1 := mul_le_mul_of_nonneg_left ht1 (by linarith)
    linarith
  · have : (z2 - z1) * t ≤ 0 := mul_nonpos_of_nonpos_of_nonneg (by linarith) ht0
    linarith

/-- The walk of `draw_line` along the horizontal line to `(n, 0)`, started at
`(x, 0)` on a screen whose pixels `(x, 0) .. (n, 0)` still hold the sentinel:
it ends, writes the pixels `(k, 0)` with `x <= k < n` and nothing else. -/
theorem draw_line_loop_horizontal (n : Int) (z1 z2 : ℚ) (color : Color)
    (hz1 : z1 < 2) (hz2 : z2 < 2) :
    ∀ (m : Nat) (x : Int) (fuel : Nat) (screen : Screen), 0 ≤ x → x + m = n → m ≤ fuel →
      n < screen.w → 0 < screen.h → (∀ k, x ≤ k → k < n → screen.z_buffer k 0 = 2) →
      ∃ s, Screen.draw_line_loop n 0 z1 z2 n 0 1 (-1) color fuel x 0 n screen = .ok s ∧
        s.w = screen.w ∧ s.h = screen.h ∧
        (∀ k, x ≤ k → k < n →
          s.z_buffer k 0 = z1 + (z2 - z1) * (((n - k : Int) : ℚ) / (n : ℚ)) ∧
          s.r k 0 = color.r ∧ s.g k 0 = color.g ∧ s.b k 0 = color.b) ∧
        (∀ a b, ¬ (x ≤ a ∧ a < n ∧ b = 0) →
          s.z_buffer a b = screen.z_buffer a b ∧ s.r a b = screen.r a b ∧
          s.g a b = screen.g a b ∧ s.b a b = screen.b a b) := by
  intro m
  induction m with
  | zero =>
    intro x fuel screen _ hxm _ _ _ _
    have hxn : x = n := by simpa using hxm
    subst hxn
    refine ⟨screen, draw_line_loop_done _ _ _ _ _ _ _ _ _ _ _ _, rfl, rfl, ?_, ?_⟩
    · intro k hk1 hk2
      omega
    · intro a b _
      exact ⟨rfl, rfl, rfl, rfl⟩
  | succ m ih =>
    intro x fuel screen hx0 hxm hfuel hw hh hfresh
    have hxn : x < n := by push_cast at hxm; omega
    obtain ⟨fuel, rfl⟩ : ∃ f, fuel = f + 1 := ⟨fuel - 1, by omega⟩
    have hnpos : (0 : ℚ) < (n : ℚ) := by exact_mod_cast (by omega : 0 < n)
    have ht0 : (0 : ℚ) ≤ ((n - x : Int) : ℚ) / (n : ℚ) :=
      div_nonneg (by exact_mod_cast (by omega : 0 ≤ n - x)) hnpos.le
    have ht1 : ((n - x : Int) : ℚ) / (n : ℚ) ≤ 1 := by
      rw [div_le_one hnpos]
      exact_mod_cast (by omega : n - x ≤ n)
    have hpass : z1 + (z2 - z1) * (((n - x : Int) : ℚ) / (n : ℚ)) < screen.z_buffer x 0 := by
      rw [hfresh x le_rfl hxn]
      exact interp_lt_two z1 z2 _ hz1 hz2 ht0 ht1
    rw [draw_line_loop_horizontal_step n z1 z2 color fuel x screen hx0 hxn,
      put_pixel_in_range screen x 0 color _ hx0 (by omega) le_rfl hh, if_pos hpass, ok_bind]
    obtain ⟨s, hs, hsw, hsh, hwritten, hother⟩ :=
      ih (x + 1) fuel
        { screen with
          z_buffer := set_coeff screen.z_buffer x 0
            (z1 + (z2 - z1) * (((n - x : Int) : ℚ) / (n : ℚ)))
          r := set_coeff screen.r x 0 color.r
          g := set_coeff screen.g x 0 color.g
          b := set_coeff screen.b x 0 color.b }
        (by omega) (by push_cast at hxm ⊢; omega) (by omega) hw hh
        (fun k hk1 hk2 => by
          show set_coeff screen.z_buffer x 0 _ k 0 = 2
          rw [set_coeff_other _ _ _ _ _ _ (by omega)]
          exact hfresh k (by omega) hk2)
    refine ⟨s, hs, hsw, hsh, ?_, ?_⟩
    · intro k hk1 hk2
      by_cases hkx : k = x
      · subst hkx
        obtain ⟨e1, e2, e3, e4⟩ := hother k 0 (by omega)
        rw [e1, e2, e3, e4]
        exact ⟨set_coeff_same _ _ _ _, set_coeff_same _ _ _ _, set_coeff_same _ _ _ _,
          set_coeff_same _ _ _ _⟩
      · exact hwritten k (by omega) hk2
    · intro a b hab
      obtain ⟨e1, e2, e3, e4⟩ := hother a b (by omega)
      rw [e1, e2, e3, e4]
      have hne : ¬ (a = x ∧ b = 0) := by omega
      exact ⟨set_coeff_other _ _ _ _ _ _ hne, set_coeff_other _ _ _ _ _ _ hne,
        set_coeff_other _ _ _ _ _ _ hne, set_coeff_other _ _ _ _ _ _ hne⟩

/-- C13 (behaviour of the code): for every `n >= 1` and depths `z1`, `z2` below
the sentinel, `draw_line(0,0,z1, n,0,z2, color)` on a fresh screen wider than
`n`, given at least `n` steps, ends after writing the `n` pixels `(k, 0)` with
`0 <= k < n`; pixel `(k, 0)` receives the depth `z1 + (z2 - z1)*(n - k)/n`,
which is `z2` at the start pixel, and every other pixel, the end pixel `(n, 0)`
included, is as on the fresh screen: `n` pixels are written, not `n + 1`, and
the depths run from `z2` towards `z1`, not from `z1` to `z2`. -/
theorem draw_line_horizontal (n : Int) (z1 z2 : ℚ) (color : Color) (w h : Int) (fuel : Nat)
    (hn : 1 ≤ n) (hz1 : z1 < 2) (hz2 : z2 < 2) (hw : n < w) (hh : 0 < h)
    (hfuel : n.toNat ≤ fuel) :
    ∃ s, (Screen.new w h).draw_line fuel 0 0 z1 n 0 z2 color = .ok s ∧
      (∀ k, 0 ≤ k → k < n →
        s.z_buffer k 0 = z1 + (z2 - z1) * (((n - k : Int) : ℚ) / (n : ℚ)) ∧
        s.r k 0 = color.r ∧ s.g k 0 = color.g ∧ s.b k 0 = color.b) ∧
      (∀ a b, ¬ (0 ≤ a ∧ a < n ∧ b = 0) →
        s.z_buffer a b = 2 ∧ s.r a b = 0 ∧ s.g a b = 0 ∧ s.b a b = 0) ∧
      s.z_buffer 0 0 = z2 ∧ s.z_buffer n 0 = 2 := by
  have hnpos : 0 < n := by omega
  have hloop : (Screen.new w h).draw_line fuel 0 0 z1 n 0 z2 color
      = Screen.draw_line_loop n 0 z1 z2 n 0 1 (-1) color fuel 0 0 n (Screen.new w h) := by
    simp only [Screen.draw_line, sub_zero, abs_zero, abs_of_pos hnpos, if_pos hnpos,
      lt_irrefl, if_false]
  obtain ⟨s, hs, _, _, hwritten, hother⟩ :=
    draw_line_loop_horizontal n z1 z2 color hz1 hz2 n.toNat 0 fuel (Screen.new w h) le_rfl
      (by rw [Int.toNat_of_nonneg hnpos.le]; ring) hfuel hw hh (fun _ _ _ => rfl)
  refine ⟨s, hloop.trans hs, hwritten, hother, ?_, ?_⟩
  · have hq : (n : ℚ) ≠ 0 := by exact_mod_cast hnpos.ne.symm
    rw [(hwritten 0 le_rfl hnpos).1, sub_zero, div_self hq]
    ring
  · exact (hother n 0 (by omega)).1

/-- The line of the specification's scenario, from `(0, 0, depth 0)` to
`(4, 0, depth 1)` on a fresh `10 × 10` screen with four steps of fuel: the
pixels `x = 0..3` receive the depths `1`, `3/4`, `1/2`, `1/4` and the pixel
`(4, 0)` keeps the sentinel `2` and the colour zero. -/
theorem draw_line_horizontal_witness :
    ∃ s, (Screen.new 10 10).draw_line 4 0 0 0 4 0 1 ⟨255, 0, 0⟩ = .ok s ∧
      s.z_buffer 0 0 = 1 ∧ s.z_buffer 1 0 = 3 / 4 ∧ s.z_buffer 2 0 = 1 / 2 ∧
      s.z_buffer 3 0 = 1 / 4 ∧ s.z_buffer 4 0 = 2 ∧ s.r 3 0 = 255 ∧ s.r 4 0 = 0 := by
  obtain ⟨s, hs, hwritten, hother, _, _⟩ :=
    draw_line_horizontal 4 0 1 ⟨255, 0, 0⟩ 10 10 4 (by norm_num) (by norm_num) (by norm_num)
      (by norm_num) (by norm_num) (by decide)
  refine ⟨s, hs, ?_, ?_, ?_, ?_, (hother 4 0 (by omega)).1, ?_, (hother 4 0 (by omega)).2.1⟩
  · rw [(hwritten 0 (by norm_num) (by norm_num)).1]
    norm_num
  · rw [(hwritten 1 (by norm_num) (by norm_num)).1]
    norm_num
  · rw [(hwritten 2 (by norm_num) (by norm_num)).1]
    norm_num
  · rw [(hwritten 3 (by norm_num) (by norm_num)).1]
    norm_num
  · rw [(hwritten 3 (by norm_num) (by norm_num)).2.1]
    rfl

/-! ## Claims on the render batch -/

theorem mulVec_identity (v : Vector4d) : Matrix4d.identity.mulVec v = v := by
  cases v
  simp [Matrix4d.mulVec, Matrix4d.identity, Vector4d.dot]

/-- A point built from 3D coordinates is unchanged by the identity model
matrix. -/
theorem Point.transform_identity (p : Vector3d) (color : Color) :
    (Point.of_3d p color).transform Matrix4d.identity = .ok (Point.of_3d p color) := by
  have h : normalize_vector (from_3d_to_4d p) = .ok (from_3d_to_4d p) :=
    normalize_vector_of_w_one _ rfl
  simp only [Point.transform, Point.of_3d, apply_transform_and_normalize, mulVec_identity,
    h, ok_bind, Point.of_4d]
  rfl

/-- The projection of the point `(0, 0, -2)` by the default frustum. -/
theorem project_default_point (sqrt : ℚ → ℚ) (color : Color) :
    (Point.of_3d ⟨0, 0, -2⟩ color).transform (default_frustum sqrt).get_projection_matrix
      = .ok ⟨⟨0, 0, 1 / 9, 1⟩, color⟩ := by
  have h1 : apply_transform_and_normalize (Point.of_3d ⟨0, 0, -2⟩ color).p_
      (default_frustum sqrt).get_projection_matrix = .ok ⟨0, 0, 1 / 9, 1⟩ := by
    unfold apply_transform_and_normalize
    rw [normalize_vector_ok _ (by
      norm_num [Matrix4d.mulVec, Vector4d.dot, default_frustum, Frustum.get_projection_matrix,
        Frustum.compute_projection_matrix, Frustum.initialize_planes, Frustum.uninitialized,
        Point.of_3d, from_3d_to_4d])]
    norm_num [Matrix4d.mulVec, Vector4d.dot, default_frustum, Frustum.get_projection_matrix,
      Frustum.compute_projection_matrix, Frustum.initialize_planes, Frustum.uninitialized,
      Point.of_3d, from_3d_to_4d]
  simp only [Point.transform, h1, ok_bind, Point.of_4d,
    normalize_vector_of_w_one ⟨0, 0, 1 / 9, 1⟩ rfl]
  rfl

/-- One point of `process_points` that survives clipping. -/
theorem process_points_loop_kept (world : World) (p projected : Point) (rest : List Point)
    (view_box : ViewBox) (hclip : world.clip_point p = .ok (some p))
    (hproj : world.project_point p = .ok projected) :
    World.process_points_loop world (p :: rest) view_box
      = World.process_points_loop world rest
          { view_box with points_ := view_box.points_ ++ [projected] } := by
  simp only [World.process_points_loop, hclip, ok_bind, hproj]

/-- How `make_view_box` continues once the scene elements are collected. -/
theorem make_view_box_of_collect (world collected : World)
    (h : world.collect_scene_elements = .ok collected) :
    world.make_view_box
      = (collected.process_points ⟨[], [], []⟩ >>= fun v1 =>
          collected.process_sectors v1 >>= fun v2 =>
            collected.process_triangles v2 >>= fun v3 => pure (v3, collected)) := by
  simp only [World.make_view_box, h, ok_bind]

/-- An object holding the single point `p`, built from 3D coordinates, under
the identity model matrix yields `p` and nothing else. -/
theorem Object.get_single_point (p : Vector3d) (color : Color) :
    (Object.new.add_point (Point.of_3d p color)).get_points = .ok [Point.of_3d p color] ∧
    (Object.new.add_point (Point.of_3d p color)).get_sectors = .ok [] ∧
    (Object.new.add_point (Point.of_3d p color)).get_triangles = .ok [] := by
  refine ⟨?_, rfl, rfl⟩
  simp only [Object.get_points, Object.new, Object.add_point, List.nil_append,
    Object.get_points_loop, Point.transform_identity, ok_bind]

/-- C19 (counterexample): the default world with one registered Object that
holds the point `(0, 0, -2)`: the first `make_view_box` returns a ViewBox with
one point, the second, with nothing added in between, a ViewBox with the same
point twice. -/
theorem make_view_box_not_repeatable :
    ∃ world vb1 world1 vb2 world2, World.new sqrt_model = .ok world ∧
      (world.add_object
        (Object.new.add_point (Point.of_3d ⟨0, 0, -2⟩ ⟨255, 0, 0⟩))).make_view_box
          = .ok (vb1, world1) ∧
      world1.make_view_box = .ok (vb2, world2) ∧
      vb1.points_ = [⟨⟨0, 0, 1 / 9, 1⟩, ⟨255, 0, 0⟩⟩] ∧
      vb2.points_ = [⟨⟨0, 0, 1 / 9, 1⟩, ⟨255, 0, 0⟩⟩, ⟨⟨0, 0, 1 / 9, 1⟩, ⟨255, 0, 0⟩⟩] ∧
      vb1 ≠ vb2 := by
  obtain ⟨hpts, hsec, htri⟩ := Object.get_single_point ⟨0, 0, -2⟩ ⟨255, 0, 0⟩
  have hclip : ∀ w : World, w.frustum_ = default_frustum sqrt_model →
      w.clip_point (Point.of_3d ⟨0, 0, -2⟩ ⟨255, 0, 0⟩)
        = .ok (some (Point.of_3d ⟨0, 0, -2⟩ ⟨255, 0, 0⟩)) := by
    intro w hw
    unfold World.clip_point
    rw [hw]
    exact clip_point_loop_inside _ _
      (default_inside_all sqrt_model_pos (by norm_num) (by norm_num) (by norm_num)
        (by norm_num) (by norm_num) (by norm_num))
  have hproj : ∀ w : World, w.frustum_ = default_frustum sqrt_model →
      w.project_point (Point.of_3d ⟨0, 0, -2⟩ ⟨255, 0, 0⟩)
        = .ok ⟨⟨0, 0, 1 / 9, 1⟩, ⟨255, 0, 0⟩⟩ := by
    intro w hw
    unfold World.project_point
    rw [hw]
    exact project_default_point sqrt_model _
  have hstep : ∀ (objs : List Object) (tris : List Triangle) (pts : List Point)
      (secs : List Sector) (rest : List Point) (vb : ViewBox),
      World.process_points_loop ⟨default_frustum sqrt_model, objs, tris, pts, secs⟩
          (Point.of_3d ⟨0, 0, -2⟩ ⟨255, 0, 0⟩ :: rest) vb
        = World.process_points_loop ⟨default_frustum sqrt_model, objs, tris, pts, secs⟩ rest
            { vb with points_ := vb.points_ ++ [⟨⟨0, 0, 1 / 9, 1⟩, ⟨255, 0, 0⟩⟩] } :=
    fun objs tris pts secs rest vb =>
      process_points_loop_kept _ _ _ rest vb (hclip _ rfl) (hproj _ rfl)
  have hc1 : World.collect_scene_elements
      ⟨default_frustum sqrt_model,
        [Object.new.add_point (Point.of_3d ⟨0, 0, -2⟩ ⟨255, 0, 0⟩)], [], [], []⟩
      = .ok ⟨default_frustum sqrt_model,
        [Object.new.add_point (Point.of_3d ⟨0, 0, -2⟩ ⟨255, 0, 0⟩)], [],
        [Point.of_3d ⟨0, 0, -2⟩ ⟨255, 0, 0⟩], []⟩ := by
    simp only [World.collect_scene_elements, World.collect_scene_elements_loop, hpts, hsec,
      htri, ok_bind, List.nil_append, List.append_nil]
  have hc2 : World.collect_scene_elements
      ⟨default_frustum sqrt_model,
        [Object.new.add_point (Point.of_3d ⟨0, 0, -2⟩ ⟨255, 0, 0⟩)], [],
        [Point.of_3d ⟨0, 0, -2⟩ ⟨255, 0, 0⟩], []⟩
      = .ok ⟨default_frustum sqrt_model,
        [Object.new.add_point (Point.of_3d ⟨0, 0, -2⟩ ⟨255, 0, 0⟩)], [],
        [Point.of_3d ⟨0, 0, -2⟩ ⟨255, 0, 0⟩, Point.of_3d ⟨0, 0, -2⟩ ⟨255, 0, 0⟩], []⟩ := by
    simp only [World.collect_scene_elements, World.collect_scene_elements_loop, hpts, hsec,
      htri, ok_bind, List.nil_append, List.append_nil, List.singleton_append]
  have hm1 : World.make_view_box
      ⟨default_frustum sqrt_model,
        [Object.new.add_point (Point.of_3d ⟨0, 0, -2⟩ ⟨255, 0, 0⟩)], [], [], []⟩
      = .ok (⟨[], [⟨⟨0, 0, 1 / 9, 1⟩, ⟨255, 0, 0⟩⟩], []⟩,
          ⟨default_frustum sqrt_model,
            [Object.new.add_point (Point.of_3d ⟨0, 0, -2⟩ ⟨255, 0, 0⟩)], [],
            [Point.of_3d ⟨0, 0, -2⟩ ⟨255, 0, 0⟩], []⟩) := by
    rw [make_view_box_of_collect _ _ hc1]
    simp only [World.process_points, hstep]
    simp only [World.process_points_loop, World.process_sectors, World.process_sectors_loop,
      World.process_triangles, World.process_triangles_loop, ok_bind, List.nil_append]
    rfl
  have hm2 : World.make_view_box
      ⟨default_frustum sqrt_model,
        [Object.new.add_point (Point.of_3d ⟨0, 0, -2⟩ ⟨255, 0, 0⟩)], [],
        [Point.of_3d ⟨0, 0, -2⟩ ⟨255, 0, 0⟩], []⟩
      = .ok (⟨[], [⟨⟨0, 0, 1 / 9, 1⟩, ⟨255, 0, 0⟩⟩, ⟨⟨0, 0, 1 / 9, 1⟩, ⟨255, 0, 0⟩⟩], []⟩,
          ⟨default_frustum sqrt_model,
            [Object.new.add_point (Point.of_3d ⟨0, 0, -2⟩ ⟨255, 0, 0⟩)], [],
            [Point.of_3d ⟨0, 0, -2⟩ ⟨255, 0, 0⟩, Point.of_3d ⟨0, 0, -2⟩ ⟨255, 0, 0⟩], []⟩) := by
    rw [make_view_box_of_collect _ _ hc2]
    simp only [World.process_points, hstep]
    simp only [World.process_points_loop, World.process_sectors, World.process_sectors_loop,
      World.process_triangles, World.process_triangles_loop, ok_bind, List.nil_append,
      List.singleton_append]
    rfl
  refine ⟨_, _, _, _, _, World.new_eq sqrt_model, hm1, hm2, rfl, rfl, ?_⟩
  intro h
  have hlen := congrArg (fun v : ViewBox => v.points_.length) h
  simp at hlen

theorem error_bind {α β : Type} (e : Error) (f : α → Except Error β) :
    (Except.error e >>= f) = .error e := rfl

/-- A loop that appends the output of each element to one field of the ViewBox
returns the ViewBox with the concatenated outputs appended to that field. -/
theorem loop_outputs {α β : Type} (g : α → Except Error (List β))
    (put : ViewBox → List β → ViewBox)
    (hput : ∀ vb x y, put (put vb x) y = put vb (x ++ y)) (hput0 : ∀ vb, put vb [] = vb)
    (loop : List α → ViewBox → Except Error ViewBox)
    (hnil : ∀ vb, loop [] vb = .ok vb)
    (hcons : ∀ a rest vb, loop (a :: rest) vb = (g a >>= fun d => loop rest (put vb d)))
    (l : List α) :
    ∀ vb, loop l vb = (outputs g l >>= fun out => pure (put vb out)) := by
  induction l with
  | nil =>
    intro vb
    rw [hnil]
    simp only [outputs, ok_bind, hput0]
    rfl
  | cons a rest ih =>
    intro vb
    rw [hcons]
    simp only [outputs]
    cases g a with
    | error e => rfl
    | ok d =>
      simp only [ok_bind]
      rw [ih]
      cases outputs g rest with
      | error e => rfl
      | ok ds =>
        simp only [ok_bind]
        rw [hput]
        rfl

/-- The outputs of a concatenation are defined exactly when those of both
parts are, and are their concatenation. -/
theorem outputs_append {α β : Type} (g : α → Except Error (List β)) (xs ys : List α)
    (o : List β) :
    outputs g (xs ++ ys) = .ok o ↔
      ∃ o1 o2, outputs g xs = .ok o1 ∧ outputs g ys = .ok o2 ∧ o = o1 ++ o2 := by
  induction xs generalizing o with
  | nil =>
    simp only [List.nil_append, outputs]
    constructor
    · intro h
      exact ⟨[], o, rfl, h, rfl⟩
    · rintro ⟨o1, o2, h1, h2, rfl⟩
      cases h1
      exact h2
  | cons a rest ih =>
    rw [List.cons_append]
    simp only [outputs]
    cases g a with
    | error e =>
      simp only [error_bind]
      constructor
      · intro h
        cases h
      · rintro ⟨o1, o2, h1, _, _⟩
        cases h1
    | ok d =>
      simp only [ok_bind]
      constructor
      · intro h
        cases hr : outputs g (rest ++ ys) with
        | error e =>
          rw [hr] at h
          cases h
        | ok r =>
          rw [hr] at h
          obtain ⟨o1, o2, h1, h2, rfl⟩ := (ih r).mp hr
          rw [h1]
          refine ⟨d ++ o1, o2, rfl, h2, ?_⟩
          have ho : d ++ (o1 ++ o2) = o := by
            simpa [bind, Except.bind, pure, Except.pure] using h
          rw [← ho, List.append_assoc]
      · rintro ⟨o1, o2, h1, h2, rfl⟩
        cases hr : outputs g rest with
        | error e =>
          rw [hr] at h1
          cases h1
        | ok r =>
          rw [hr] at h1
          have ho1 : d ++ r = o1 := by
            simpa [bind, Except.bind, pure, Except.pure] using h1
          rw [(ih (r ++ o2)).mpr ⟨r, o2, hr, h2, rfl⟩, ← ho1, List.append_assoc]
          rfl

/-- The loop of `process_points` appends the outputs of its points. -/
theorem process_points_loop_outputs (w : World) (l : List Point) (vb : ViewBox) :
    World.process_points_loop w l vb
      = (outputs (point_output w.frustum_) l >>= fun out =>
          pure { vb with points_ := vb.points_ ++ out }) := by
  refine loop_outputs (point_output w.frustum_)
    (fun vb out => { vb with points_ := vb.points_ ++ out })
    (fun vb x y => by simp only [List.append_assoc])
    (fun vb => by simp only [List.append_nil])
    (World.process_points_loop w) (fun vb => rfl) ?_ l vb
  intro p rest vb
  simp only [World.process_points_loop, point_output, World.clip_point, World.project_point]
  cases World.clip_point_loop p w.frustum_.get_frustum_planes with
  | error e => rfl
  | ok r =>
    cases r with
    | none =>
      show w.process_points_loop rest vb
        = w.process_points_loop rest { vb with points_ := vb.points_ ++ [] }
      rw [List.append_nil]
    | some c =>
      simp only [ok_bind]
      cases c.transform w.frustum_.get_projection_matrix with
      | error e => rfl
      | ok q => rfl

/-- The loop of `process_sectors` appends the outputs of its segments. -/
theorem process_sectors_loop_outputs (w : World) (l : List Sector) (vb : ViewBox) :
    World.process_sectors_loop w l vb
      = (outputs (sector_output w.frustum_) l >>= fun out =>
          pure { vb with sectors_ := vb.sectors_ ++ out }) := by
  refine loop_outputs (sector_output w.frustum_)
    (fun vb out => { vb with sectors_ := vb.sectors_ ++ out })
    (fun vb x y => by simp only [List.append_assoc])
    (fun vb => by simp only [List.append_nil])
    (World.process_sectors_loop w) (fun vb => rfl) ?_ l vb
  intro p rest vb
  simp only [World.process_sectors_loop, sector_output, World.clip_sector, World.project_sector]
  cases World.clip_sector_loop w.frustum_.get_frustum_planes p with
  | error e => rfl
  | ok r =>
    cases r with
    | none =>
      show w.process_sectors_loop rest vb
        = w.process_sectors_loop rest { vb with sectors_ := vb.sectors_ ++ [] }
      rw [List.append_nil]
    | some c =>
      simp only [ok_bind]
      cases c.transform w.frustum_.get_projection_matrix with
      | error e => rfl
      | ok q => rfl

/-- The inner loop of `process_triangles` appends the projected fragments. -/
theorem process_clipped_triangles_outputs (w : World) (l : List Triangle) (vb : ViewBox) :
    World.process_clipped_triangles w l vb
      = (outputs (fragment_output w.frustum_) l >>= fun out =>
          pure { vb with triangles_ := vb.triangles_ ++ out }) := by
  refine loop_outputs (fragment_output w.frustum_)
    (fun vb out => { vb with triangles_ := vb.triangles_ ++ out })
    (fun vb x y => by simp only [List.append_assoc])
    (fun vb => by simp only [List.append_nil])
    (World.process_clipped_triangles w) (fun vb => rfl) ?_ l vb
  intro p rest vb
  simp only [World.process_clipped_triangles, fragment_output, World.project_triangle]
  cases p.transform w.frustum_.get_projection_matrix with
  | error e => rfl
  | ok q => rfl

/-- The loop of `process_triangles` appends the outputs of its triangles. -/
theorem process_triangles_loop_outputs (w : World) (l : List Triangle) (vb : ViewBox) :
    World.process_triangles_loop w l vb
      = (outputs (triangle_output w.frustum_) l >>= fun out =>
          pure { vb with triangles_ := vb.triangles_ ++ out }) := by
  refine loop_outputs (triangle_output w.frustum_)
    (fun vb out => { vb with triangles_ := vb.triangles_ ++ out })
    (fun vb x y => by simp only [List.append_assoc])
    (fun vb => by simp only [List.append_nil])
    (World.process_triangles_loop w) (fun vb => rfl) ?_ l vb
  intro p rest vb
  simp only [World.process_triangles_loop, triangle_output, World.clip_triangle,
    process_clipped_triangles_outputs]
  cases World.clip_triangle_loop w.frustum_.get_frustum_planes [p] with
  | error e => rfl
  | ok cl =>
    simp only [ok_bind]
    cases outputs (fragment_output w.frustum_) cl with
    | error e => rfl
    | ok o => rfl

/-- The loop of `collect_scene_elements` either fails on every world or appends
the same three lists, those of the objects, to every world. -/
theorem collect_scene_elements_loop_shape (objects : List Object) :
    (∃ e, ∀ X : World, World.collect_scene_elements_loop objects X = .error e) ∨
    (∃ dt dp ds, ∀ X : World, World.collect_scene_elements_loop objects X
      = .ok ⟨X.frustum_, X.objects_, X.triangles_ ++ dt, X.points_ ++ dp, X.sectors_ ++ ds⟩) := by
  induction objects with
  | nil =>
    refine Or.inr ⟨[], [], [], fun X => ?_⟩
    cases X
    simp only [World.collect_scene_elements_loop, List.append_nil]
  | cons o rest ih =>
    cases hp : o.get_points with
    | error e =>
      exact Or.inl ⟨e, fun X => by simp only [World.collect_scene_elements_loop, hp, error_bind]⟩
    | ok ps =>
      cases hs : o.get_sectors with
      | error e =>
        exact Or.inl ⟨e, fun X => by
          simp only [World.collect_scene_elements_loop, hp, hs, ok_bind, error_bind]⟩
      | ok ss =>
        cases ht : o.get_triangles with
        | error e =>
          exact Or.inl ⟨e, fun X => by
            simp only [World.collect_scene_elements_loop, hp, hs, ht, ok_bind, error_bind]⟩
        | ok ts =>
          rcases ih with ⟨e, he⟩ | ⟨dt, dp, ds, hd⟩
          · exact Or.inl ⟨e, fun X => by
              simp only [World.collect_scene_elements_loop, hp, hs, ht, ok_bind, he]⟩
          · refine Or.inr ⟨ts ++ dt, ps ++ dp, ss ++ ds, fun X => ?_⟩
            simp only [World.collect_scene_elements_loop, hp, hs, ht, ok_bind, hd,
              List.append_assoc]

/-- The ViewBox of `make_view_box` holds the outputs of the collected
primitives, and the world left behind is the collected one. -/
theorem make_view_box_iff (world collected : World)
    (h : world.collect_scene_elements = .ok collected) (vb : ViewBox) (world1 : World) :
    world.make_view_box = .ok (vb, world1) ↔
      world1 = collected ∧
      ∃ ot op os, outputs (triangle_output collected.frustum_) collected.triangles_ = .ok ot ∧
        outputs (point_output collected.frustum_) collected.points_ = .ok op ∧
        outputs (sector_output collected.frustum_) collected.sectors_ = .ok os ∧
        vb = ⟨ot, op, os⟩ := by
  rw [make_view_box_of_collect world collected h]
  simp only [World.process_points, World.process_sectors, World.process_triangles,
    process_points_loop_outputs, process_sectors_loop_outputs, process_triangles_loop_outputs]
  cases hp : outputs (point_output collected.frustum_) collected.points_ with
  | error e =>
    simp only [error_bind]
    constructor
    · intro hc
      cases hc
    · rintro ⟨_, ot, op, os, _, h2, _⟩
      cases h2
  | ok op =>
    simp only [ok_bind]
    cases hs : outputs (sector_output collected.frustum_) collected.sectors_ with
    | error e =>
      constructor
      · intro hc
        cases hc
      · rintro ⟨_, ot, op, os, _, _, h3, _⟩
        cases h3
    | ok os =>
      cases ht : outputs (triangle_output collected.frustum_) collected.triangles_ with
      | error e =>
        constructor
        · intro hc
          cases hc
        · rintro ⟨_, ot, op, os, h1, _⟩
          cases h1
      | ok ot =>
        constructor
        · intro hc
          have hc2 : ((⟨[] ++ ot, [] ++ op, [] ++ os⟩ : ViewBox), collected) = (vb, world1) := by
            simpa [bind, Except.bind, pure, Except.pure] using hc
          obtain ⟨e1, e2⟩ := Prod.mk.inj hc2
          refine ⟨e2.symm, ot, op, os, rfl, rfl, rfl, ?_⟩
          rw [← e1]
          simp only [List.nil_append]
        · rintro ⟨rfl, ot2, op2, os2, h1, h2, h3, rfl⟩
          cases h1
          cases h2
          cases h3
          simp [bind, Except.bind, pure, Except.pure]

/-- C19 (amended): `make_view_box` is repeatable up to the registered Objects.
When a call of `make_view_box` returns, the next call, with no additions or
frustum change in between, returns as well, and its ViewBox is the first one
followed by the ViewBox that the registered Objects alone produce (the World
stripped of its loose primitives): `collect_scene_elements` appends the
Objects' primitives to the World's lists once more on every call.  So the two
ViewBoxes are equal exactly when no primitive of a registered Object reaches
the ViewBox, and in particular for every World without registered Objects,
which the call leaves as it was. -/
theorem make_view_box_twice (world : World) (vb1 : ViewBox) (world1 : World)
    (h1 : world.make_view_box = .ok (vb1, world1)) :
    ∃ vb2 world2 added stripped1,
      world1.make_view_box = .ok (vb2, world2) ∧
      ({ world with points_ := [], sectors_ := [], triangles_ := [] } : World).make_view_box
        = .ok (added, stripped1) ∧
      vb2.points_ = vb1.points_ ++ added.points_ ∧
      vb2.sectors_ = vb1.sectors_ ++ added.sectors_ ∧
      vb2.triangles_ = vb1.triangles_ ++ added.triangles_ ∧
      (vb2 = vb1 ↔ added = ⟨[], [], []⟩) ∧
      (world.objects_ = [] → vb2 = vb1 ∧ world1 = world) := by
  rcases collect_scene_elements_loop_shape world.objects_ with ⟨e, he⟩ | ⟨dt, dp, ds, hd⟩
  · simp [World.make_view_box, World.collect_scene_elements, he, bind, Except.bind] at h1
  · have hc1 : world.collect_scene_elements
        = .ok ⟨world.frustum_, world.objects_, world.triangles_ ++ dt, world.points_ ++ dp,
            world.sectors_ ++ ds⟩ := hd world
    obtain ⟨hw1, ot, op, os, hT, hP, hS, hvb1⟩ := (make_view_box_iff _ _ hc1 vb1 world1).mp h1
    obtain ⟨xt, yt, _, hyt, ext⟩ := (outputs_append _ _ _ _).mp hT
    obtain ⟨xp, yp, _, hyp, exp⟩ := (outputs_append _ _ _ _).mp hP
    obtain ⟨xs, ys, _, hys, exs⟩ := (outputs_append _ _ _ _).mp hS
    have hc2 : world1.collect_scene_elements
        = .ok ⟨world.frustum_, world.objects_, (world.triangles_ ++ dt) ++ dt,
            (world.points_ ++ dp) ++ dp, (world.sectors_ ++ ds) ++ ds⟩ := by
      rw [hw1]
      exact hd _
    have hcs : World.collect_scene_elements
          { world with points_ := [], sectors_ := [], triangles_ := [] }
        = .ok ⟨world.frustum_, world.objects_, dt, dp, ds⟩ := by
      have := hd ⟨world.frustum_, world.objects_, [], [], []⟩
      simp only [List.nil_append] at this
      exact this
    have h2 := (make_view_box_iff _ _ hc2 ⟨ot ++ yt, op ++ yp, os ++ ys⟩ _).mpr
      ⟨rfl, ot ++ yt, op ++ yp, os ++ ys,
        (outputs_append _ _ _ _).mpr ⟨ot, yt, hT, hyt, rfl⟩,
        (outputs_append _ _ _ _).mpr ⟨op, yp, hP, hyp, rfl⟩,
        (outputs_append _ _ _ _).mpr ⟨os, ys, hS, hys, rfl⟩, rfl⟩
    have hs := (make_view_box_iff _ _ hcs ⟨yt, yp, ys⟩ _).mpr
      ⟨rfl, yt, yp, ys, hyt, hyp, hys, rfl⟩
    refine ⟨_, _, _, _, h2, hs, ?_, ?_, ?_, ?_, ?_⟩
    · rw [hvb1]
    · rw [hvb1]
    · rw [hvb1]
    · rw [hvb1]
      simp only [ViewBox.mk.injEq, List.append_right_eq_self]
    · intro hobj
      have h0 := hd ⟨world.frustum_, [], [], [], []⟩
      rw [hobj] at h0
      simp only [World.collect_scene_elements_loop, List.nil_append, Except.ok.injEq,
        World.mk.injEq, true_and] at h0
      obtain ⟨e1, e2, e3⟩ := h0
      subst e1 e2 e3
      simp only [outputs, Except.ok.injEq] at hyt hyp hys
      subst hyt hyp hys
      refine ⟨?_, ?_⟩
      · rw [hvb1]
        simp only [List.append_nil]
      · rw [hw1]
        cases world
        simp only [List.append_nil]

/-- The default world with one registered Object that holds the point
`(0, 0, -100)`, behind the far plane: the Object's point never reaches the
ViewBox, and both calls of `make_view_box` return the empty ViewBox. -/
theorem make_view_box_twice_witness :
    ∃ world world1 vb2 world2, World.new sqrt_model = .ok world ∧
      (world.add_object
        (Object.new.add_point (Point.of_3d ⟨0, 0, -100⟩ ⟨255, 0, 0⟩))).make_view_box
          = .ok (⟨[], [], []⟩, world1) ∧
      world1.make_view_box = .ok (vb2, world2) ∧ vb2 = ⟨[], [], []⟩ := by
  obtain ⟨hpts, hsec, htri⟩ := Object.get_single_point ⟨0, 0, -100⟩ ⟨255, 0, 0⟩
  have hc1 : World.collect_scene_elements
      ⟨default_frustum sqrt_model,
        [Object.new.add_point (Point.of_3d ⟨0, 0, -100⟩ ⟨255, 0, 0⟩)], [], [], []⟩
      = .ok ⟨default_frustum sqrt_model,
        [Object.new.add_point (Point.of_3d ⟨0, 0, -100⟩ ⟨255, 0, 0⟩)], [],
        [Point.of_3d ⟨0, 0, -100⟩ ⟨255, 0, 0⟩], []⟩ := by
    simp only [World.collect_scene_elements, World.collect_scene_elements_loop, hpts, hsec,
      htri, ok_bind, List.nil_append, List.append_nil]
  have hcl : World.clip_point_loop (Point.of_3d ⟨0, 0, -100⟩ ⟨255, 0, 0⟩)
      (default_frustum sqrt_model).get_frustum_planes = .ok none :=
    clip_point_loop_outside _ _ (default_frustum sqrt_model).far_plane_
      (by simp [Frustum.get_frustum_planes]) (default_outside_far sqrt_model_pos (by norm_num))
  have hP : outputs (point_output (default_frustum sqrt_model))
      [Point.of_3d ⟨0, 0, -100⟩ ⟨255, 0, 0⟩] = .ok [] := by
    simp only [outputs, point_output, hcl, ok_bind]
    rfl
  have hm1 : World.make_view_box
      ⟨default_frustum sqrt_model,
        [Object.new.add_point (Point.of_3d ⟨0, 0, -100⟩ ⟨255, 0, 0⟩)], [], [], []⟩
      = .ok (⟨[], [], []⟩, ⟨default_frustum sqrt_model,
        [Object.new.add_point (Point.of_3d ⟨0, 0, -100⟩ ⟨255, 0, 0⟩)], [],
        [Point.of_3d ⟨0, 0, -100⟩ ⟨255, 0, 0⟩], []⟩) :=
    (make_view_box_iff _ _ hc1 _ _).mpr ⟨rfl, [], [], [], rfl, hP, rfl, rfl⟩
  obtain ⟨vb2, world2, added, stripped1, h2, hs, _, _, _, hiff, _⟩ :=
    make_view_box_twice _ _ _ hm1
  have hadd : (Except.ok (added, stripped1) : Except Error (ViewBox × World))
      = .ok (⟨[], [], []⟩, _) := hs.symm.trans hm1
  have hempty : added = ⟨[], [], []⟩ := by
    injection hadd with h
    exact (Prod.mk.inj h).1
  exact ⟨_, _, vb2, world2, World.new_eq sqrt_model, hm1, h2, hiff.mpr hempty⟩

/-! ## Claims on projecting what clipping keeps -/

/-- What `clip_point` keeps is the point itself, and it is inside every plane. -/
theorem clip_point_loop_kept (p kept : Point) (planes : List Plane)
    (h : World.clip_point_loop p planes = .ok (some kept)) :
    kept = p ∧ ∀ plane ∈ planes, Inside plane p.p_ := by
  induction planes with
  | nil =>
    simp only [World.clip_point_loop, Except.ok.injEq, Option.some.injEq] at h
    exact ⟨h.symm, fun plane hp => absurd hp (List.not_mem_nil plane)⟩
  | cons q rest ih =>
    by_cases hw : p.p_.w = 0
    · simp [World.clip_point_loop, Plane.distance_to_point, normalize_vector_error _ hw, bind,
        Except.bind] at h
    · rw [clip_point_loop_cons p q rest _ (distance_to_point_ok q p.p_ hw)] at h
      split at h
      · cases h
      · next hneg =>
        obtain ⟨hk, hin⟩ := ih h
        refine ⟨hk, fun plane hp => ?_⟩
        rcases List.mem_cons.mp hp with heq | hmem
        · subst heq
          exact ⟨_, distance_to_point_ok plane p.p_ hw, not_lt.mp hneg⟩
        · exact hin plane hmem

/-- The value of `apply_transform_and_normalize` when the product has `w ≠ 0`. -/
theorem apply_transform_and_normalize_ok (v : Vector4d) (m : Matrix4d)
    (h : (m.mulVec v).w ≠ 0) :
    apply_transform_and_normalize v m
      = .ok ⟨(m.mulVec v).x / (m.mulVec v).w, (m.mulVec v).y / (m.mulVec v).w,
          (m.mulVec v).z / (m.mulVec v).w, 1⟩ :=
  normalize_vector_ok _ h

/-- `Point::transform` returns the transformed position with the colour kept:
the second normalisation, in the constructor, changes nothing. -/
theorem point_transform_of_atn (p : Point) (m : Matrix4d) (q : Vector4d)
    (h : apply_transform_and_normalize p.p_ m = .ok q) :
    p.transform m = .ok ⟨q, p.color_⟩ := by
  have hq : normalize_vector q = .ok q := normalize_vector_of_w_one q (normalize_vector_w h)
  simp only [Point.transform, h, ok_bind, Point.of_4d, hq]
  rfl

/-- The `w` component of the default projection of `(x, y, z, 1)` is `-z`, so a
point with `z ≠ 0` projects. -/
theorem project_default_ok (sqrt : ℚ → ℚ) (x y z : ℚ) (color : Color) (hz : z ≠ 0) :
    ((default_frustum sqrt).get_projection_matrix.mulVec ⟨x, y, z, 1⟩).w = -z ∧
    ∃ q, (⟨⟨x, y, z, 1⟩, color⟩ : Point).transform (default_frustum sqrt).get_projection_matrix
      = .ok q := by
  have hw : ((default_frustum sqrt).get_projection_matrix.mulVec ⟨x, y, z, 1⟩).w = -z := by
    simp [Matrix4d.mulVec, Vector4d.dot, default_frustum, Frustum.get_projection_matrix,
      Frustum.compute_projection_matrix]
  refine ⟨hw, ?_⟩
  have hne : ((default_frustum sqrt).get_projection_matrix.mulVec ⟨x, y, z, 1⟩).w ≠ 0 := by
    rw [hw]
    exact neg_ne_zero.mpr hz
  exact ⟨_, point_transform_of_atn _ _ _ (apply_transform_and_normalize_ok _ _ hne)⟩

/-- The six default planes keep only points with `z < 0`. -/
theorem default_inside_all_z_neg {sqrt : ℚ → ℚ} (hs : SqrtPos sqrt) {x y z : ℚ}
    (h : ∀ plane ∈ (default_frustum sqrt).get_frustum_planes, Inside plane ⟨x, y, z, 1⟩) :
    z < 0 := by
  have hn : x + y + z + 1 ≤ 0 := by
    have := (inside_iff_of_dist (default_near_dist sqrt x y z) (hs 48 (by norm_num))).mp
      (h _ (by simp [Frustum.get_frustum_planes, default_frustum, Frustum.initialize_planes,
        Frustum.compute_projection_matrix, Frustum.uninitialized]))
    linarith
  have hl : z ≤ x := by
    have := (inside_iff_of_dist (default_left_dist sqrt x y z) (hs 8 (by norm_num))).mp
      (h _ (by simp [Frustum.get_frustum_planes, default_frustum, Frustum.initialize_planes,
        Frustum.compute_projection_matrix, Frustum.uninitialized]))
    linarith
  have hb : z ≤ y := by
    have := (inside_iff_of_dist (default_bottom_dist sqrt x y z) (hs 8 (by norm_num))).mp
      (h _ (by simp [Frustum.get_frustum_planes, default_frustum, Frustum.initialize_planes,
        Frustum.compute_projection_matrix, Frustum.uninitialized]))
    linarith
  linarith

/-- One point of `process_points` that clipping drops. -/
theorem process_points_loop_dropped (world : World) (p : Point) (rest : List Point)
    (view_box : ViewBox) (hclip : world.clip_point p = .ok none) :
    World.process_points_loop world (p :: rest) view_box
      = World.process_points_loop world rest view_box := by
  simp only [World.process_points_loop, hclip, ok_bind]

/-- On a point with `w ≠ 0` the loop of `clip_point` returns a value. -/
theorem clip_point_loop_total (p : Point) (planes : List Plane) (hw : p.p_.w ≠ 0) :
    ∃ r, World.clip_point_loop p planes = .ok r := by
  induction planes with
  | nil => exact ⟨_, rfl⟩
  | cons q rest ih =>
    rw [clip_point_loop_cons p q rest _ (distance_to_point_ok q p.p_ hw)]
    split
    · exact ⟨_, rfl⟩
    · exact ih

/-- Under the default frustum a kept point `(x, y, z, 1)` is returned as it is
and has `z < 0`. -/
theorem default_clip_point_kept {sqrt : ℚ → ℚ} (hs : SqrtPos sqrt) (world : World)
    (hf : world.frustum_ = default_frustum sqrt) (x y z : ℚ) (color : Color) (kept : Point)
    (h : world.clip_point ⟨⟨x, y, z, 1⟩, color⟩ = .ok (some kept)) :
    kept = ⟨⟨x, y, z, 1⟩, color⟩ ∧ z < 0 := by
  unfold World.clip_point at h
  rw [hf] at h
  obtain ⟨hk, hin⟩ := clip_point_loop_kept _ _ _ h
  exact ⟨hk, default_inside_all_z_neg hs hin⟩

/-- Under the default frustum `project` returns a point for every `(x, y, z, 1)`
with `z ≠ 0`. -/
theorem default_project_point_ok (sqrt : ℚ → ℚ) (world : World)
    (hf : world.frustum_ = default_frustum sqrt) (x y z : ℚ) (color : Color) (hz : z ≠ 0) :
    ∃ q, world.project_point ⟨⟨x, y, z, 1⟩, color⟩ = .ok q := by
  unfold World.project_point
  rw [hf]
  exact (project_default_ok sqrt x y z color hz).2

/-- Under the default frustum the loop of `process_points` returns a ViewBox on
every list of points with `w = 1`. -/
theorem default_process_points_loop_ok {sqrt : ℚ → ℚ} (hs : SqrtPos sqrt) (world : World)
    (hf : world.frustum_ = default_frustum sqrt) (points : List Point) :
    ∀ view_box : ViewBox, (∀ p ∈ points, p.p_.w = 1) →
      ∃ vb, World.process_points_loop world points view_box = .ok vb := by
  induction points with
  | nil => exact fun view_box _ => ⟨view_box, rfl⟩
  | cons p rest ih =>
    intro view_box hw
    obtain ⟨⟨x, y, z, w⟩, color⟩ := p
    have hw1 : w = 1 := hw _ (List.mem_cons_self _ _)
    subst hw1
    have hrest := fun vb => ih vb fun q hq => hw q (List.mem_cons_of_mem _ hq)
    have htotal : ∃ r, world.clip_point ⟨⟨x, y, z, 1⟩, color⟩ = .ok r :=
      clip_point_loop_total _ _ one_ne_zero
    obtain ⟨r, hr⟩ := htotal
    cases r with
    | none =>
      rw [process_points_loop_dropped world _ rest view_box hr]
      exact hrest view_box
    | some kept =>
      obtain ⟨hk, hz⟩ := default_clip_point_kept hs world hf x y z color kept hr
      subst hk
      obtain ⟨q, hq⟩ := default_project_point_ok sqrt world hf x y z color hz.ne
      rw [process_points_loop_kept world _ q rest view_box hr hq]
      exact hrest _

/-- C28: under the default frustum `(-1, 1, -1, 1, 1, 10)` every point
`(x, y, z, 1)` that `clip_point` keeps has `z < 0`; the `w` component of
`projection_matrix * p` is `-z`, hence non-zero, and `project` returns a point;
so `process_points` over any list of points with `w = 1` returns a ViewBox and
never raises the `w = 0` normalisation error. -/
theorem clipped_point_projects (sqrt : ℚ → ℚ) (hs : SqrtPos sqrt) :
    ∃ world, World.new sqrt = .ok world ∧
      (∀ (x y z : ℚ) (color : Color) (kept : Point),
        world.clip_point ⟨⟨x, y, z, 1⟩, color⟩ = .ok (some kept) →
        kept = ⟨⟨x, y, z, 1⟩, color⟩ ∧ z < 0 ∧
        (world.frustum_.get_projection_matrix.mulVec ⟨x, y, z, 1⟩).w = -z ∧
        (world.frustum_.get_projection_matrix.mulVec ⟨x, y, z, 1⟩).w ≠ 0 ∧
        ∃ q, world.project_point kept = .ok q) ∧
      (∀ (points : List Point) (view_box : ViewBox), (∀ p ∈ points, p.p_.w = 1) →
        ∃ vb, ({ world with points_ := points } : World).process_points view_box = .ok vb) := by
  refine ⟨_, World.new_eq sqrt, ?_, ?_⟩
  · intro x y z color kept h
    obtain ⟨hk, hz⟩ := default_clip_point_kept hs _ rfl x y z color kept h
    obtain ⟨q, hq⟩ := default_project_point_ok sqrt
      ⟨default_frustum sqrt, [], [], [], []⟩ rfl x y z color hz.ne
    have hw := (project_default_ok sqrt x y z color hz.ne).1
    refine ⟨hk, hz, hw, ?_, q, ?_⟩
    · rw [hw]
      exact neg_ne_zero.mpr hz.ne
    · rw [hk]
      exact hq
  · intro points view_box hw
    exact default_process_points_loop_ok hs
      ⟨default_frustum sqrt, [], [], points, []⟩ rfl points view_box hw

/-- The statement of `clipped_point_projects` with `sqrt_model` for the square
root, read at the point `(0, 0, -2, 1)`, which `clip_point` keeps. -/
theorem clipped_point_projects_witness :
    ∃ world, World.new sqrt_model = .ok world ∧
      world.clip_point ⟨⟨0, 0, -2, 1⟩, ⟨255, 0, 0⟩⟩ = .ok (some ⟨⟨0, 0, -2, 1⟩, ⟨255, 0, 0⟩⟩) ∧
      ∃ q, world.project_point ⟨⟨0, 0, -2, 1⟩, ⟨255, 0, 0⟩⟩ = .ok q := by
  obtain ⟨world, hw, hkept, _⟩ := clipped_point_projects sqrt_model sqrt_model_pos
  have hw2 : world = ⟨default_frustum sqrt_model, [], [], [], []⟩ := by
    rw [World.new_eq] at hw
    cases hw
    rfl
  have hclip : world.clip_point ⟨⟨0, 0, -2, 1⟩, ⟨255, 0, 0⟩⟩
      = .ok (some ⟨⟨0, 0, -2, 1⟩, ⟨255, 0, 0⟩⟩) := by
    rw [hw2]
    exact clip_point_loop_inside _ _
      (default_inside_all sqrt_model_pos (by norm_num) (by norm_num) (by norm_num)
        (by norm_num) (by norm_num) (by norm_num))
  obtain ⟨_, _, _, _, q, hq⟩ := hkept 0 0 (-2) ⟨255, 0, 0⟩ ⟨⟨0, 0, -2, 1⟩, ⟨255, 0, 0⟩⟩ hclip
  exact ⟨world, hw, hclip, q, hq⟩

/-! ## Claims on composing model transforms -/

/-- The product of two matrices acts as the composition. -/
theorem mulVec_mul (m t : Matrix4d) (v : Vector4d) :
    (m.mul t).mulVec v = m.mulVec (t.mulVec v) := by
  simp only [Matrix4d.mul, Matrix4d.mulRow, Matrix4d.mulVec, Vector4d.dot, Matrix4d.col0,
    Matrix4d.col1, Matrix4d.col2, Matrix4d.col3, Vector4d.mk.injEq]
  refine ⟨?_, ?_, ?_, ?_⟩ <;> ring

/-- Transforming by `t`, normalising, transforming by `m` and normalising is
transforming by `m * t` and normalising once. -/
theorem apply_transform_and_normalize_comp (v : Vector4d) (t m : Matrix4d) (q r : Vector4d)
    (h1 : apply_transform_and_normalize v t = .ok q)
    (h2 : apply_transform_and_normalize q m = .ok r) :
    apply_transform_and_normalize v (m.mul t) = .ok r := by
  have hu : (t.mulVec v).w ≠ 0 := by
    intro h0
    simp [apply_transform_and_normalize, normalize_vector_error _ h0] at h1
  rw [apply_transform_and_normalize_ok v t hu] at h1
  cases h1
  set u := t.mulVec v with hu_def
  have hr : (m.mulVec ⟨u.x / u.w, u.y / u.w, u.z / u.w, 1⟩).w ≠ 0 := by
    intro h0
    simp [apply_transform_and_normalize, normalize_vector_error _ h0] at h2
  rw [apply_transform_and_normalize_ok _ m hr] at h2
  cases h2
  have key : ∀ row : Vector4d,
      row.dot u = u.w * row.dot ⟨u.x / u.w, u.y / u.w, u.z / u.w, 1⟩ := by
    intro row
    simp only [Vector4d.dot]
    field_simp
  have hmul : (m.mul t).mulVec v = m.mulVec u := mulVec_mul m t v
  have hw : ((m.mul t).mulVec v).w ≠ 0 := by
    rw [hmul]
    simp only [Matrix4d.mulVec] at hr ⊢
    rw [key]
    exact mul_ne_zero hu hr
  rw [apply_transform_and_normalize_ok _ _ hw, hmul]
  simp only [Matrix4d.mulVec, Except.ok.injEq, Vector4d.mk.injEq, and_true] at hr ⊢
  refine ⟨?_, ?_, ?_⟩
  · rw [key m.r0, key m.r3, mul_div_mul_left _ _ hu]
  · rw [key m.r1, key m.r3, mul_div_mul_left _ _ hu]
  · rw [key m.r2, key m.r3, mul_div_mul_left _ _ hu]

/-- `Sector::transform` returns the two transformed endpoints with the colour
kept. -/
theorem sector_transform_of_atn (s : Sector) (m : Matrix4d) (q1 q2 : Vector4d)
    (h1 : apply_transform_and_normalize s.p1_ m = .ok q1)
    (h2 : apply_transform_and_normalize s.p2_ m = .ok q2) :
    s.transform m = .ok ⟨q1, q2, s.color_⟩ := by
  have hq1 : normalize_vector q1 = .ok q1 := normalize_vector_of_w_one q1 (normalize_vector_w h1)
  have hq2 : normalize_vector q2 = .ok q2 := normalize_vector_of_w_one q2 (normalize_vector_w h2)
  simp only [Sector.transform, h1, h2, ok_bind, Sector.of_4d, hq1, hq2]
  rfl

/-- `Triangle::transform` returns the three transformed vertices with the
colour kept. -/
theorem triangle_transform_of_atn (t : Triangle) (m : Matrix4d) (q1 q2 q3 : Vector4d)
    (h1 : apply_transform_and_normalize t.p1_ m = .ok q1)
    (h2 : apply_transform_and_normalize t.p2_ m = .ok q2)
    (h3 : apply_transform_and_normalize t.p3_ m = .ok q3) :
    t.transform m = .ok ⟨q1, q2, q3, t.color_⟩ := by
  have hq1 : normalize_vector q1 = .ok q1 := normalize_vector_of_w_one q1 (normalize_vector_w h1)
  have hq2 : normalize_vector q2 = .ok q2 := normalize_vector_of_w_one q2 (normalize_vector_w h2)
  have hq3 : normalize_vector q3 = .ok q3 := normalize_vector_of_w_one q3 (normalize_vector_w h3)
  simp only [Triangle.transform, h1, h2, h3, ok_bind, Triangle.of_4d, hq1, hq2, hq3]
  rfl

/-- A defined `Point::transform` comes from a defined transform of the
position. -/
theorem point_transform_inv (p q : Point) (m : Matrix4d) (h : p.transform m = .ok q) :
    apply_transform_and_normalize p.p_ m = .ok q.p_ ∧ q.color_ = p.color_ := by
  cases h1 : apply_transform_and_normalize p.p_ m with
  | error e => simp [Point.transform, h1, bind, Except.bind] at h
  | ok u =>
    rw [point_transform_of_atn p m u h1] at h
    cases h
    exact ⟨rfl, rfl⟩

/-- A defined `Sector::transform` comes from defined transforms of the two
endpoints. -/
theorem sector_transform_inv (s q : Sector) (m : Matrix4d) (h : s.transform m = .ok q) :
    apply_transform_and_normalize s.p1_ m = .ok q.p1_ ∧
    apply_transform_and_normalize s.p2_ m = .ok q.p2_ ∧ q.color_ = s.color_ := by
  cases h1 : apply_transform_and_normalize s.p1_ m with
  | error e => simp [Sector.transform, h1, bind, Except.bind] at h
  | ok u1 =>
    cases h2 : apply_transform_and_normalize s.p2_ m with
    | error e => simp [Sector.transform, h1, h2, bind, Except.bind] at h
    | ok u2 =>
      rw [sector_transform_of_atn s m u1 u2 h1 h2] at h
      cases h
      exact ⟨rfl, rfl, rfl⟩

/-- A defined `Triangle::transform` comes from defined transforms of the three
vertices. -/
theorem triangle_transform_inv (t q : Triangle) (m : Matrix4d) (h : t.transform m = .ok q) :
    apply_transform_and_normalize t.p1_ m = .ok q.p1_ ∧
    apply_transform_and_normalize t.p2_ m = .ok q.p2_ ∧
    apply_transform_and_normalize t.p3_ m = .ok q.p3_ ∧ q.color_ = t.color_ := by
  cases h1 : apply_transform_and_normalize t.p1_ m with
  | error e => simp [Triangle.transform, h1, bind, Except.bind] at h
  | ok u1 =>
    cases h2 : apply_transform_and_normalize t.p2_ m with
    | error e => simp [Triangle.transform, h1, h2, bind, Except.bind] at h
    | ok u2 =>
      cases h3 : apply_transform_and_normalize t.p3_ m with
      | error e => simp [Triangle.transform, h1, h2, h3, bind, Except.bind] at h
      | ok u3 =>
        rw [triangle_transform_of_atn t m u1 u2 u3 h1 h2 h3] at h
        cases h
        exact ⟨rfl, rfl, rfl, rfl⟩

/-- Transforming a point by `t` and then by `m` is transforming it by `m * t`. -/
theorem point_transform_comp (p q r : Point) (t m : Matrix4d)
    (h1 : p.transform t = .ok q) (h2 : q.transform m = .ok r) :
    p.transform (m.mul t) = .ok r := by
  obtain ⟨a1, c1⟩ := point_transform_inv p q t h1
  obtain ⟨a2, c2⟩ := point_transform_inv q r m h2
  rw [point_transform_of_atn p (m.mul t) r.p_
    (apply_transform_and_normalize_comp _ t m _ _ a1 a2), ← c1, ← c2]

/-- Transforming a sector by `t` and then by `m` is transforming it by
`m * t`. -/
theorem sector_transform_comp (s q r : Sector) (t m : Matrix4d)
    (h1 : s.transform t = .ok q) (h2 : q.transform m = .ok r) :
    s.transform (m.mul t) = .ok r := by
  obtain ⟨a1, b1, c1⟩ := sector_transform_inv s q t h1
  obtain ⟨a2, b2, c2⟩ := sector_transform_inv q r m h2
  rw [sector_transform_of_atn s (m.mul t) r.p1_ r.p2_
    (apply_transform_and_normalize_comp _ t m _ _ a1 a2)
    (apply_transform_and_normalize_comp _ t m _ _ b1 b2), ← c1, ← c2]

/-- Transforming a triangle by `t` and then by `m` is transforming it by
`m * t`. -/
theorem triangle_transform_comp (s q r : Triangle) (t m : Matrix4d)
    (h1 : s.transform t = .ok q) (h2 : q.transform m = .ok r) :
    s.transform (m.mul t) = .ok r := by
  obtain ⟨a1, b1, d1, c1⟩ := triangle_transform_inv s q t h1
  obtain ⟨a2, b2, d2, c2⟩ := triangle_transform_inv q r m h2
  rw [triangle_transform_of_atn s (m.mul t) r.p1_ r.p2_ r.p3_
    (apply_transform_and_normalize_comp _ t m _ _ a1 a2)
    (apply_transform_and_normalize_comp _ t m _ _ b1 b2)
    (apply_transform_and_normalize_comp _ t m _ _ d1 d2), ← c1, ← c2]

/-- A loop that pushes `f a` for every `a` of a list, stopping at the first
error, returns the accumulator extended by the images, and returns a value
exactly when every image is defined. -/
theorem push_loop_iff {α β : Type} (f : α → Except Error β)
    (loop : List α → List β → Except Error (List β))
    (hnil : ∀ acc, loop [] acc = .ok acc)
    (hcons : ∀ a rest acc, loop (a :: rest) acc = (f a >>= fun b => loop rest (acc ++ [b])))
    (ps : List α) :
    ∀ (acc r : List β), loop ps acc = .ok r ↔
      ∃ qs, r = acc ++ qs ∧ List.Forall₂ (fun p q => f p = .ok q) ps qs := by
  induction ps with
  | nil =>
    intro acc r
    rw [hnil]
    constructor
    · intro h
      cases h
      exact ⟨[], (List.append_nil _).symm, List.Forall₂.nil⟩
    · rintro ⟨qs, hr, hall⟩
      cases hall
      rw [hr, List.append_nil]
  | cons a rest ih =>
    intro acc r
    rw [hcons]
    constructor
    · intro h
      cases hfa : f a with
      | error e => simp [hfa, bind, Except.bind] at h
      | ok b =>
        rw [hfa, ok_bind] at h
        obtain ⟨qs, hr, hall⟩ := (ih _ _).mp h
        exact ⟨b :: qs, by rw [hr, List.append_assoc, List.singleton_append],
          List.Forall₂.cons hfa hall⟩
    · rintro ⟨qs, hr, hall⟩
      cases hall with
      | cons hfa htail =>
        rw [hfa, ok_bind]
        exact (ih _ _).mpr ⟨_, by rw [hr, List.append_assoc, List.singleton_append], htail⟩

/-- Composition of two element-wise relations along a middle list. -/
theorem forall₂_trans {α β γ : Type} {R : α → β → Prop} {S : β → γ → Prop} {T : α → γ → Prop}
    (h : ∀ a b c, R a b → S b c → T a c) :
    ∀ {as : List α} {bs : List β} {cs : List γ},
      List.Forall₂ R as bs → List.Forall₂ S bs cs → List.Forall₂ T as cs := by
  intro as bs cs h1
  induction h1 generalizing cs with
  | nil =>
    intro h2
    cases h2
    exact List.Forall₂.nil
  | cons hab _ ih =>
    intro h2
    cases h2 with
    | cons hbc htail => exact List.Forall₂.cons (h _ _ _ hab hbc) (ih htail)

/-- C21: composing a transform on the object commutes with reading.  For every
Object `o` and matrix `M`: a stored point whose transform by the model matrix
`T` and then by `M` are both defined is returned, after `apply_transform(M)`,
as that same point, `normalize(M * normalize(T * p)) = normalize((M * T) * p)`;
the same holds for segments and triangles, and for the whole lists returned by
`get_points`, `get_sectors` and `get_triangles`. -/
theorem apply_transform_commutes_with_reading (o : Object) (m : Matrix4d) :
    (o.apply_transform m).transform_matrix_ = m.mul o.transform_matrix_ ∧
    (∀ (v q r : Vector4d), apply_transform_and_normalize v o.transform_matrix_ = .ok q →
      apply_transform_and_normalize q m = .ok r →
      apply_transform_and_normalize v (m.mul o.transform_matrix_) = .ok r) ∧
    (∀ (p q r : Point), p.transform o.transform_matrix_ = .ok q → q.transform m = .ok r →
      p.transform (o.apply_transform m).transform_matrix_ = .ok r) ∧
    (∀ (s q r : Sector), s.transform o.transform_matrix_ = .ok q → q.transform m = .ok r →
      s.transform (o.apply_transform m).transform_matrix_ = .ok r) ∧
    (∀ (t q r : Triangle), t.transform o.transform_matrix_ = .ok q → q.transform m = .ok r →
      t.transform (o.apply_transform m).transform_matrix_ = .ok r) ∧
    (∀ (qs rs : List Point), o.get_points = .ok qs →
      Object.get_points_loop m qs [] = .ok rs → (o.apply_transform m).get_points = .ok rs) ∧
    (∀ (qs rs : List Sector), o.get_sectors = .ok qs →
      Object.get_sectors_loop m qs [] = .ok rs → (o.apply_transform m).get_sectors = .ok rs) ∧
    (∀ (qs rs : List Triangle), o.get_triangles = .ok qs →
      Object.get_triangles_loop m qs [] = .ok rs →
      (o.apply_transform m).get_triangles = .ok rs) := by
  refine ⟨rfl, fun v q r h1 h2 => apply_transform_and_normalize_comp v _ m q r h1 h2,
    fun p q r h1 h2 => point_transform_comp p q r _ m h1 h2,
    fun s q r h1 h2 => sector_transform_comp s q r _ m h1 h2,
    fun t q r h1 h2 => triangle_transform_comp t q r _ m h1 h2, ?_, ?_, ?_⟩
  · intro qs rs h1 h2
    have hp := fun k => push_loop_iff (fun p : Point => p.transform k)
      (Object.get_points_loop k) (fun _ => rfl) (fun _ _ _ => rfl)
    obtain ⟨qs1, e1, f1⟩ := (hp o.transform_matrix_ o.points_ [] qs).mp h1
    obtain ⟨rs1, e2, f2⟩ := (hp m qs [] rs).mp h2
    rw [List.nil_append] at e1 e2
    subst e1 e2
    exact (hp (m.mul o.transform_matrix_) o.points_ [] rs).mpr
      ⟨rs, (List.nil_append _).symm,
        forall₂_trans (fun p q r h1 h2 => point_transform_comp p q r _ m h1 h2) f1 f2⟩
  · intro qs rs h1 h2
    have hp := fun k => push_loop_iff (fun p : Sector => p.transform k)
      (Object.get_sectors_loop k) (fun _ => rfl) (fun _ _ _ => rfl)
    obtain ⟨qs1, e1, f1⟩ := (hp o.transform_matrix_ o.sectors_ [] qs).mp h1
    obtain ⟨rs1, e2, f2⟩ := (hp m qs [] rs).mp h2
    rw [List.nil_append] at e1 e2
    subst e1 e2
    exact (hp (m.mul o.transform_matrix_) o.sectors_ [] rs).mpr
      ⟨rs, (List.nil_append _).symm,
        forall₂_trans (fun p q r h1 h2 => sector_transform_comp p q r _ m h1 h2) f1 f2⟩
  · intro qs rs h1 h2
    have hp := fun k => push_loop_iff (fun p : Triangle => p.transform k)
      (Object.get_triangles_loop k) (fun _ => rfl) (fun _ _ _ => rfl)
    obtain ⟨qs1, e1, f1⟩ := (hp o.transform_matrix_ o.triangles_ [] qs).mp h1
    obtain ⟨rs1, e2, f2⟩ := (hp m qs [] rs).mp h2
    rw [List.nil_append] at e1 e2
    subst e1 e2
    exact (hp (m.mul o.transform_matrix_) o.triangles_ [] rs).mpr
      ⟨rs, (List.nil_append _).symm,
        forall₂_trans (fun p q r h1 h2 => triangle_transform_comp p q r _ m h1 h2) f1 f2⟩

/-- The point part of `apply_transform_commutes_with_reading` for the object
translated by `(0, 0, -5)`, the point `(1, 2, 3)` and the matrix that doubles
`w`: read after `apply_transform` the point is `(1/2, 1, -1)`. -/
theorem apply_transform_commutes_with_reading_witness :
    (Point.of_3d ⟨1, 2, 3⟩ ⟨255, 0, 0⟩).transform
        ((Object.new.translate ⟨0, 0, -5⟩).apply_transform
          ⟨⟨1, 0, 0, 0⟩, ⟨0, 1, 0, 0⟩, ⟨0, 0, 1, 0⟩, ⟨0, 0, 0, 2⟩⟩).transform_matrix_
      = .ok ⟨⟨1 / 2, 1, -1, 1⟩, ⟨255, 0, 0⟩⟩ := by
  have h1 : (Point.of_3d ⟨1, 2, 3⟩ ⟨255, 0, 0⟩).transform
      (Object.new.translate ⟨0, 0, -5⟩).transform_matrix_
        = .ok ⟨⟨1, 2, -2, 1⟩, ⟨255, 0, 0⟩⟩ := by
    have ha : apply_transform_and_normalize (Point.of_3d ⟨1, 2, 3⟩ ⟨255, 0, 0⟩).p_
        (Object.new.translate ⟨0, 0, -5⟩).transform_matrix_ = .ok ⟨1, 2, -2, 1⟩ := by
      rw [apply_transform_and_normalize_ok _ _ (by
        norm_num [Matrix4d.mulVec, Vector4d.dot, Object.new, Object.translate,
          Matrix4d.identity, Point.of_3d, from_3d_to_4d])]
      norm_num [Matrix4d.mulVec, Vector4d.dot, Object.new, Object.translate,
        Matrix4d.identity, Point.of_3d, from_3d_to_4d]
    exact point_transform_of_atn _ _ _ ha
  have h2 : (⟨⟨1, 2, -2, 1⟩, ⟨255, 0, 0⟩⟩ : Point).transform
      ⟨⟨1, 0, 0, 0⟩, ⟨0, 1, 0, 0⟩, ⟨0, 0, 1, 0⟩, ⟨0, 0, 0, 2⟩⟩
        = .ok ⟨⟨1 / 2, 1, -1, 1⟩, ⟨255, 0, 0⟩⟩ := by
    have ha : apply_transform_and_normalize (⟨⟨1, 2, -2, 1⟩, ⟨255, 0, 0⟩⟩ : Point).p_
        ⟨⟨1, 0, 0, 0⟩, ⟨0, 1, 0, 0⟩, ⟨0, 0, 1, 0⟩, ⟨0, 0, 0, 2⟩⟩ = .ok ⟨1 / 2, 1, -1, 1⟩ := by
      rw [apply_transform_and_normalize_ok _ _ (by norm_num [Matrix4d.mulVec, Vector4d.dot])]
      norm_num [Matrix4d.mulVec, Vector4d.dot]
    exact point_transform_of_atn _ _ _ ha
  exact (apply_transform_commutes_with_reading (Object.new.translate ⟨0, 0, -5⟩)
    ⟨⟨1, 0, 0, 0⟩, ⟨0, 1, 0, 0⟩, ⟨0, 0, 1, 0⟩, ⟨0, 0, 0, 2⟩⟩).2.2.1 _ _ _ h1 h2

/-! ## Claims on `handle_partial_clipping` -/

/-- The signed distance of a normalised point is the 4-dot with the plane. -/
theorem distance_of_w_one (plane : Plane) (v : Vector4d) (hw : v.w = 1) :
    plane.distance_to_point v = .ok (plane.nd_.dot v) := by
  rw [distance_to_point_ok plane v (by rw [hw]; exact one_ne_zero)]
  cases v
  simp only at hw
  subst hw
  simp

/-- The weight of the inside vertex in the cut of a straddling edge lies in
`(0, 1]`. -/
theorem edge_weight_bounds (plane : Plane) (inside outside : Vector4d)
    (hi : 0 ≤ plane.nd_.dot inside) (ho : plane.nd_.dot outside < 0) :
    0 < edge_weight plane inside outside ∧ edge_weight plane inside outside ≤ 1 := by
  unfold edge_weight
  have hden : plane.nd_.dot outside - plane.nd_.dot inside < 0 := by linarith
  constructor
  · exact div_pos_of_neg_of_neg ho hden
  · rw [div_le_one_of_neg hden]
    linarith

/-- The cut of a straddling edge between normalised vertices is normalised and
lies on the plane. -/
theorem edge_cut_on_plane (plane : Plane) (inside outside : Vector4d)
    (hiw : inside.w = 1) (how : outside.w = 1)
    (hi : 0 ≤ plane.nd_.dot inside) (ho : plane.nd_.dot outside < 0) :
    (edge_cut plane inside outside).w = 1 ∧
    plane.nd_.dot (edge_cut plane inside outside) = 0 ∧
    plane.distance_to_point (edge_cut plane inside outside) = .ok 0 := by
  have hden : plane.nd_.dot outside - plane.nd_.dot inside ≠ 0 := by
    have : plane.nd_.dot outside - plane.nd_.dot inside < 0 := by linarith
    exact this.ne
  have hw : (edge_cut plane inside outside).w = 1 := by
    simp only [edge_cut, Vector4d.add, Vector4d.smul, hiw, how]
    ring
  have hdot : plane.nd_.dot (edge_cut plane inside outside) = 0 := by
    have hlin : plane.nd_.dot (edge_cut plane inside outside)
        = plane.nd_.dot inside * edge_weight plane inside outside
          + plane.nd_.dot outside * (1 - edge_weight plane inside outside) := by
      simp only [edge_cut, Vector4d.add, Vector4d.smul, Vector4d.dot]
      ring
    rw [hlin]
    unfold edge_weight
    field_simp
    ring
  refine ⟨hw, hdot, ?_⟩
  rw [distance_of_w_one plane _ hw, hdot]

/-- The call `plane_line_intersection(Line(inside, outside), plane)` on a
straddling pair of normalised vertices returns a point with `w ≠ 0` whose
normalisation is the cut of the edge. -/
theorem plane_line_intersection_straddling (plane : Plane) (inside outside : Vector4d)
    (hiw : inside.w = 1) (how : outside.w = 1)
    (hi : 0 ≤ plane.nd_.dot inside) (ho : plane.nd_.dot outside < 0) :
    ∃ X, plane_line_intersection ⟨inside, outside⟩ plane = .ok X ∧ X.w ≠ 0 ∧
      normalize_vector X = .ok (edge_cut plane inside outside) := by
  have hne : plane.nd_.dot outside ≠ 0 := ho.ne
  have hden : plane.nd_.dot outside - plane.nd_.dot inside < 0 := by linarith
  have hX : plane_line_intersection ⟨inside, outside⟩ plane
      = .ok ((⟨inside, outside⟩ : Line).at (-(plane.nd_.dot inside) / plane.nd_.dot outside)) := by
    simp only [plane_line_intersection, hne, if_false]
  have hXw : ((⟨inside, outside⟩ : Line).at
      (-(plane.nd_.dot inside) / plane.nd_.dot outside)).w
        = (plane.nd_.dot outside - plane.nd_.dot inside) / plane.nd_.dot outside := by
    simp only [Line.at, Vector4d.add, Vector4d.smul, hiw, how]
    field_simp
    ring
  have hXw0 : ((⟨inside, outside⟩ : Line).at
      (-(plane.nd_.dot inside) / plane.nd_.dot outside)).w ≠ 0 := by
    rw [hXw]
    exact div_ne_zero hden.ne hne
  refine ⟨_, hX, hXw0, ?_⟩
  rw [normalize_vector_ok _ hXw0, hXw]
  simp only [Line.at, Vector4d.add, Vector4d.smul, edge_cut, edge_weight, hiw, how,
    Except.ok.injEq, Vector4d.mk.injEq]
  have h2 := hden.ne
  refine ⟨?_, ?_, ?_, ?_⟩
  all_goals field_simp
  all_goals ring

/-- The value of `handle_partial_clipping` once its choice of
`(inside1, inside2, outside)` is known, the three vertices being normalised,
the two inside ones at distance `>= 0` and the outside one at distance `< 0`:
no call fails and the two fragments are appended. -/
theorem handle_partial_clipping_eval (triangle : Triangle) (d1 d2 d3 : ℚ) (plane : Plane)
    (result : List Triangle) (inside1 inside2 outside : Vector4d)
    (hsel : (if d1 < 0 then (triangle.p2_, triangle.p3_, triangle.p1_)
      else if d2 < 0 then (triangle.p3_, triangle.p1_, triangle.p2_)
      else (triangle.p1_, triangle.p2_, triangle.p3_)) = (inside1, inside2, outside))
    (hw1 : inside1.w = 1) (hw2 : inside2.w = 1) (hwo : outside.w = 1)
    (hi1 : 0 ≤ plane.nd_.dot inside1) (hi2 : 0 ≤ plane.nd_.dot inside2)
    (ho : plane.nd_.dot outside < 0) :
    World.handle_partial_clipping triangle d1 d2 d3 plane result
      = .ok (result ++
          [⟨inside1, edge_cut plane inside1 outside, inside2, triangle.color_⟩,
            ⟨inside2, edge_cut plane inside1 outside, edge_cut plane inside2 outside,
              triangle.color_⟩]) := by
  obtain ⟨X1, hX1, _, hn1⟩ :=
    plane_line_intersection_straddling plane inside1 outside hw1 hwo hi1 ho
  obtain ⟨X2, hX2, _, hn2⟩ :=
    plane_line_intersection_straddling plane inside2 outside hw2 hwo hi2 ho
  simp only [World.handle_partial_clipping]
  rw [hsel]
  simp only [hX1, hX2, ok_bind, Triangle.of_4d, normalize_vector_of_w_one inside1 hw1,
    normalize_vector_of_w_one inside2 hw2, hn1, hn2]
  rfl

/-- The choice of `(inside1, inside2, outside)` made by
`handle_partial_clipping` when exactly one distance is negative: the outside
vertex is the one at negative distance and the triple is a rotation of the
input vertices. -/
theorem handle_partial_clipping_choice (triangle : Triangle) (plane : Plane) (d1 d2 d3 : ℚ)
    (hw1 : triangle.p1_.w = 1) (hw2 : triangle.p2_.w = 1) (hw3 : triangle.p3_.w = 1)
    (hd1 : plane.distance_to_point triangle.p1_ = .ok d1)
    (hd2 : plane.distance_to_point triangle.p2_ = .ok d2)
    (hd3 : plane.distance_to_point triangle.p3_ = .ok d3) (hone : OneOutside d1 d2 d3) :
    ∃ inside1 inside2 outside,
      (if d1 < 0 then (triangle.p2_, triangle.p3_, triangle.p1_)
        else if d2 < 0 then (triangle.p3_, triangle.p1_, triangle.p2_)
        else (triangle.p1_, triangle.p2_, triangle.p3_)) = (inside1, inside2, outside) ∧
      ((inside1, inside2, outside) = (triangle.p2_, triangle.p3_, triangle.p1_) ∨
        (inside1, inside2, outside) = (triangle.p3_, triangle.p1_, triangle.p2_) ∨
        (inside1, inside2, outside) = (triangle.p1_, triangle.p2_, triangle.p3_)) ∧
      inside1.w = 1 ∧ inside2.w = 1 ∧ outside.w = 1 ∧
      0 ≤ plane.nd_.dot inside1 ∧ 0 ≤ plane.nd_.dot inside2 ∧ plane.nd_.dot outside < 0 := by
  have e1 : d1 = plane.nd_.dot triangle.p1_ := by
    rw [distance_of_w_one plane _ hw1] at hd1
    cases hd1
    rfl
  have e2 : d2 = plane.nd_.dot triangle.p2_ := by
    rw [distance_of_w_one plane _ hw2] at hd2
    cases hd2
    rfl
  have e3 : d3 = plane.nd_.dot triangle.p3_ := by
    rw [distance_of_w_one plane _ hw3] at hd3
    cases hd3
    rfl
  rcases hone with ⟨h1, h2, h3⟩ | ⟨h1, h2, h3⟩ | ⟨h1, h2, h3⟩
  · exact ⟨triangle.p2_, triangle.p3_, triangle.p1_, by rw [if_pos h1], Or.inl rfl,
      hw2, hw3, hw1, e2 ▸ h2, e3 ▸ h3, e1 ▸ h1⟩
  · exact ⟨triangle.p3_, triangle.p1_, triangle.p2_,
      by rw [if_neg (not_lt.mpr h1), if_pos h2], Or.inr (Or.inl rfl),
      hw3, hw1, hw2, e3 ▸ h3, e1 ▸ h1, e2 ▸ h2⟩
  · exact ⟨triangle.p1_, triangle.p2_, triangle.p3_,
      by rw [if_neg (not_lt.mpr h1), if_neg (not_lt.mpr h2)], Or.inr (Or.inr rfl),
      hw1, hw2, hw3, e1 ▸ h1, e2 ▸ h2, e3 ▸ h3⟩

/-- C22: `handle_partial_clipping`, called on a triangle (vertices normalised)
with exactly one vertex at negative distance from the plane and the other two
at distance `>= 0`, appends exactly two triangles `(inside1, X1, inside2)` and
`(inside2, X1, X2)` with the input colour, where `(inside1, inside2, outside)`
is the rotation of the vertices that puts the outside one last, `X1` is
normalised, lies on the plane (signed distance `0`) and is a convex combination
of `inside1` and the outside vertex, and `X2` likewise for `inside2`. -/
theorem handle_partial_clipping_fragments (triangle : Triangle) (plane : Plane)
    (result : List Triangle) (d1 d2 d3 : ℚ)
    (hw1 : triangle.p1_.w = 1) (hw2 : triangle.p2_.w = 1) (hw3 : triangle.p3_.w = 1)
    (hd1 : plane.distance_to_point triangle.p1_ = .ok d1)
    (hd2 : plane.distance_to_point triangle.p2_ = .ok d2)
    (hd3 : plane.distance_to_point triangle.p3_ = .ok d3) (hone : OneOutside d1 d2 d3) :
    ∃ inside1 inside2 outside X1 X2 a1 a2,
      ((inside1, inside2, outside) = (triangle.p2_, triangle.p3_, triangle.p1_) ∨
        (inside1, inside2, outside) = (triangle.p3_, triangle.p1_, triangle.p2_) ∨
        (inside1, inside2, outside) = (triangle.p1_, triangle.p2_, triangle.p3_)) ∧
      Inside plane inside1 ∧ Inside plane inside2 ∧ Outside plane outside ∧
      World.handle_partial_clipping triangle d1 d2 d3 plane result
        = .ok (result ++ [⟨inside1, X1, inside2, triangle.color_⟩,
            ⟨inside2, X1, X2, triangle.color_⟩]) ∧
      X1.w = 1 ∧ X2.w = 1 ∧
      plane.distance_to_point X1 = .ok 0 ∧ plane.distance_to_point X2 = .ok 0 ∧
      0 ≤ a1 ∧ a1 ≤ 1 ∧ X1 = (inside1.smul a1).add (outside.smul (1 - a1)) ∧
      0 ≤ a2 ∧ a2 ≤ 1 ∧ X2 = (inside2.smul a2).add (outside.smul (1 - a2)) := by
  obtain ⟨inside1, inside2, outside, hsel, hrot, hi1w, hi2w, how, hi1, hi2, ho⟩ :=
    handle_partial_clipping_choice triangle plane d1 d2 d3 hw1 hw2 hw3 hd1 hd2 hd3 hone
  obtain ⟨hc1w, _, hc1d⟩ := edge_cut_on_plane plane inside1 outside hi1w how hi1 ho
  obtain ⟨hc2w, _, hc2d⟩ := edge_cut_on_plane plane inside2 outside hi2w how hi2 ho
  obtain ⟨ha1, ha1'⟩ := edge_weight_bounds plane inside1 outside hi1 ho
  obtain ⟨ha2, ha2'⟩ := edge_weight_bounds plane inside2 outside hi2 ho
  exact ⟨inside1, inside2, outside, edge_cut plane inside1 outside,
    edge_cut plane inside2 outside, edge_weight plane inside1 outside,
    edge_weight plane inside2 outside, hrot,
    ⟨_, distance_of_w_one plane inside1 hi1w, hi1⟩,
    ⟨_, distance_of_w_one plane inside2 hi2w, hi2⟩,
    ⟨_, distance_of_w_one plane outside how, ho⟩,
    handle_partial_clipping_eval triangle d1 d2 d3 plane result inside1 inside2 outside hsel
      hi1w hi2w how hi1 hi2 ho,
    hc1w, hc2w, hc1d, hc2d, ha1.le, ha1', rfl, ha2.le, ha2', rfl⟩

/-- The plane `z >= 0` and the triangle `(0,0,-1), (1,0,1), (0,1,1)`, whose
first vertex alone is outside: the fragments are
`((1,0,1), (1/2,0,0), (0,1,1))` and `((0,1,1), (1/2,0,0), (0,1/2,0))`. -/
theorem handle_partial_clipping_fragments_witness :
    ∃ inside1 inside2 outside X1 X2,
      World.handle_partial_clipping
          ⟨⟨0, 0, -1, 1⟩, ⟨1, 0, 1, 1⟩, ⟨0, 1, 1, 1⟩, ⟨255, 0, 0⟩⟩ (-1) 1 1 ⟨⟨0, 0, 1, 0⟩⟩ []
        = .ok ([] ++ [⟨inside1, X1, inside2, ⟨255, 0, 0⟩⟩, ⟨inside2, X1, X2, ⟨255, 0, 0⟩⟩]) ∧
      Outside ⟨⟨0, 0, 1, 0⟩⟩ outside ∧
      (⟨⟨0, 0, 1, 0⟩⟩ : Plane).distance_to_point X1 = .ok 0 ∧
      (⟨⟨0, 0, 1, 0⟩⟩ : Plane).distance_to_point X2 = .ok 0 := by
  obtain ⟨inside1, inside2, outside, X1, X2, _, _, _, _, _, hout, h, _, _, hx1, hx2, _⟩ :=
    handle_partial_clipping_fragments
      ⟨⟨0, 0, -1, 1⟩, ⟨1, 0, 1, 1⟩, ⟨0, 1, 1, 1⟩, ⟨255, 0, 0⟩⟩ ⟨⟨0, 0, 1, 0⟩⟩ [] (-1) 1 1
      rfl rfl rfl
      (by rw [distance_of_w_one _ _ rfl]; norm_num [Vector4d.dot])
      (by rw [distance_of_w_one _ _ rfl]; norm_num [Vector4d.dot])
      (by rw [distance_of_w_one _ _ rfl]; norm_num [Vector4d.dot])
      (Or.inl ⟨by norm_num, by norm_num, by norm_num⟩)
  exact ⟨inside1, inside2, outside, X1, X2, h, hout, hx1, hx2⟩

/-- C24: the error branches are unreachable in the straddling case: for every
plane and every triangle with normalised vertices, exactly one of them at
negative distance and two at distance `>= 0`, `handle_partial_clipping` returns
a value; the divisor `plane.nd_ · outside` tested by `plane_line_intersection`
is non-zero in both calls, both calls return a point, and that point has
`w ≠ 0`, so constructing the two result triangles does not raise the
normalisation error. -/
theorem handle_partial_clipping_no_error (triangle : Triangle) (plane : Plane)
    (result : List Triangle) (d1 d2 d3 : ℚ)
    (hw1 : triangle.p1_.w = 1) (hw2 : triangle.p2_.w = 1) (hw3 : triangle.p3_.w = 1)
    (hd1 : plane.distance_to_point triangle.p1_ = .ok d1)
    (hd2 : plane.distance_to_point triangle.p2_ = .ok d2)
    (hd3 : plane.distance_to_point triangle.p3_ = .ok d3) (hone : OneOutside d1 d2 d3) :
    (∃ fragments, World.handle_partial_clipping triangle d1 d2 d3 plane result
      = .ok fragments) ∧
    ∃ inside1 inside2 outside,
      (if d1 < 0 then (triangle.p2_, triangle.p3_, triangle.p1_)
        else if d2 < 0 then (triangle.p3_, triangle.p1_, triangle.p2_)
        else (triangle.p1_, triangle.p2_, triangle.p3_)) = (inside1, inside2, outside) ∧
      plane.nd_.dot (⟨inside1, outside⟩ : Line).v_ ≠ 0 ∧
      plane.nd_.dot (⟨inside2, outside⟩ : Line).v_ ≠ 0 ∧
      (∃ X1 X2 t1 t2, plane_line_intersection ⟨inside1, outside⟩ plane = .ok X1 ∧
        plane_line_intersection ⟨inside2, outside⟩ plane = .ok X2 ∧
        X1.w ≠ 0 ∧ X2.w ≠ 0 ∧
        Triangle.of_4d inside1 X1 inside2 triangle.color_ = .ok t1 ∧
        Triangle.of_4d inside2 X1 X2 triangle.color_ = .ok t2) := by
  obtain ⟨inside1, inside2, outside, hsel, _, hi1w, hi2w, how, hi1, hi2, ho⟩ :=
    handle_partial_clipping_choice triangle plane d1 d2 d3 hw1 hw2 hw3 hd1 hd2 hd3 hone
  obtain ⟨X1, hX1, hX1w, hn1⟩ :=
    plane_line_intersection_straddling plane inside1 outside hi1w how hi1 ho
  obtain ⟨X2, hX2, hX2w, hn2⟩ :=
    plane_line_intersection_straddling plane inside2 outside hi2w how hi2 ho
  have ht1 : Triangle.of_4d inside1 X1 inside2 triangle.color_
      = .ok ⟨inside1, edge_cut plane inside1 outside, inside2, triangle.color_⟩ := by
    simp only [Triangle.of_4d, normalize_vector_of_w_one inside1 hi1w,
      normalize_vector_of_w_one inside2 hi2w, hn1, ok_bind]
    rfl
  have ht2 : Triangle.of_4d inside2 X1 X2 triangle.color_
      = .ok ⟨inside2, edge_cut plane inside1 outside, edge_cut plane inside2 outside,
          triangle.color_⟩ := by
    simp only [Triangle.of_4d, normalize_vector_of_w_one inside2 hi2w, hn1, hn2, ok_bind]
    rfl
  exact ⟨⟨_, handle_partial_clipping_eval triangle d1 d2 d3 plane result inside1 inside2
    outside hsel hi1w hi2w how hi1 hi2 ho⟩, inside1, inside2, outside, hsel, ho.ne, ho.ne,
    X1, X2, _, _, hX1, hX2, hX1w, hX2w, ht1, ht2⟩

/-- The plane `z >= 0` and the triangle `(0,0,-1), (1,0,1), (0,1,1)`:
`handle_partial_clipping` returns a value. -/
theorem handle_partial_clipping_no_error_witness :
    ∃ fragments, World.handle_partial_clipping
        ⟨⟨0, 0, -1, 1⟩, ⟨1, 0, 1, 1⟩, ⟨0, 1, 1, 1⟩, ⟨255, 0, 0⟩⟩ (-1) 1 1 ⟨⟨0, 0, 1, 0⟩⟩ []
      = .ok fragments :=
  (handle_partial_clipping_no_error
    ⟨⟨0, 0, -1, 1⟩, ⟨1, 0, 1, 1⟩, ⟨0, 1, 1, 1⟩, ⟨255, 0, 0⟩⟩ ⟨⟨0, 0, 1, 0⟩⟩ [] (-1) 1 1
    rfl rfl rfl
    (by rw [distance_of_w_one _ _ rfl]; norm_num [Vector4d.dot])
    (by rw [distance_of_w_one _ _ rfl]; norm_num [Vector4d.dot])
    (by rw [distance_of_w_one _ _ rfl]; norm_num [Vector4d.dot])
    (Or.inl ⟨by norm_num, by norm_num, by norm_num⟩)).1

/-- The area vector of a triangle does not change when its vertices are
rotated. -/
theorem area_vector_rotate (a b c : Vector4d) : area_vector a b c = area_vector b c a := by
  simp only [area_vector, Vector4d.xyz, Vector3d.sub, Vector3d.cross, Vector3d.mk.injEq]
  refine ⟨?_, ?_, ?_⟩ <;> ring

/-- The area vectors of the two fragments and of the cut-off corner, as
multiples of the area vector `N` of `(o, i, j)`: with `a1`, `a2` the weights of
the inside vertices in the two cuts, the fragments are `-(1 - a1) N` and
`-(a1 (1 - a2)) N` and the corner is `(a1 a2) N`. -/
theorem fragment_area_vectors (i j o : Vector4d) (a1 a2 : ℚ) :
    area_vector i ((i.smul a1).add (o.smul (1 - a1))) j
      = (area_vector o i j).smul (-(1 - a1)) ∧
    area_vector j ((i.smul a1).add (o.smul (1 - a1))) ((j.smul a2).add (o.smul (1 - a2)))
      = (area_vector o i j).smul (-(a1 * (1 - a2))) ∧
    area_vector o ((i.smul a1).add (o.smul (1 - a1))) ((j.smul a2).add (o.smul (1 - a2)))
      = (area_vector o i j).smul (a1 * a2) := by
  simp only [area_vector, Vector4d.xyz, Vector4d.add, Vector4d.smul, Vector3d.sub,
    Vector3d.cross, Vector3d.smul, Vector3d.mk.injEq]
  refine ⟨⟨?_, ?_, ?_⟩, ⟨?_, ?_, ?_⟩, ⟨?_, ?_, ?_⟩⟩ <;> ring

/-- C23 (counterexample): the plane `z >= 0` and the triangle
`(0,0,-1), (1,0,1), (0,1,1)` with its first vertex outside: the area vectors of
the two fragments sum to `(3/2, 3/2, -3/4)`, while the area vector of the input
minus that of the corner `((0,0,-1), (1/2,0,0), (0,1/2,0))` is
`(-3/2, -3/2, 3/4)`, the opposite vector. -/
theorem fragment_area_vectors_opposite :
    World.handle_partial_clipping
        ⟨⟨0, 0, -1, 1⟩, ⟨1, 0, 1, 1⟩, ⟨0, 1, 1, 1⟩, ⟨255, 0, 0⟩⟩ (-1) 1 1 ⟨⟨0, 0, 1, 0⟩⟩ []
      = .ok [⟨⟨1, 0, 1, 1⟩, ⟨1 / 2, 0, 0, 1⟩, ⟨0, 1, 1, 1⟩, ⟨255, 0, 0⟩⟩,
          ⟨⟨0, 1, 1, 1⟩, ⟨1 / 2, 0, 0, 1⟩, ⟨0, 1 / 2, 0, 1⟩, ⟨255, 0, 0⟩⟩] ∧
    (area_vector ⟨1, 0, 1, 1⟩ ⟨1 / 2, 0, 0, 1⟩ ⟨0, 1, 1, 1⟩).add
        (area_vector ⟨0, 1, 1, 1⟩ ⟨1 / 2, 0, 0, 1⟩ ⟨0, 1 / 2, 0, 1⟩)
      = ⟨3 / 2, 3 / 2, -3 / 4⟩ ∧
    (area_vector ⟨0, 0, -1, 1⟩ ⟨1, 0, 1, 1⟩ ⟨0, 1, 1, 1⟩).sub
        (area_vector ⟨0, 0, -1, 1⟩ ⟨1 / 2, 0, 0, 1⟩ ⟨0, 1 / 2, 0, 1⟩)
      = ⟨-3 / 2, -3 / 2, 3 / 4⟩ ∧
    (area_vector ⟨1, 0, 1, 1⟩ ⟨1 / 2, 0, 0, 1⟩ ⟨0, 1, 1, 1⟩).add
        (area_vector ⟨0, 1, 1, 1⟩ ⟨1 / 2, 0, 0, 1⟩ ⟨0, 1 / 2, 0, 1⟩)
      ≠ (area_vector ⟨0, 0, -1, 1⟩ ⟨1, 0, 1, 1⟩ ⟨0, 1, 1, 1⟩).sub
          (area_vector ⟨0, 0, -1, 1⟩ ⟨1 / 2, 0, 0, 1⟩ ⟨0, 1 / 2, 0, 1⟩) := by
  have hc1 : edge_cut ⟨⟨0, 0, 1, 0⟩⟩ ⟨1, 0, 1, 1⟩ ⟨0, 0, -1, 1⟩ = ⟨1 / 2, 0, 0, 1⟩ := by
    norm_num [edge_cut, edge_weight, Vector4d.dot, Vector4d.add, Vector4d.smul]
  have hc2 : edge_cut ⟨⟨0, 0, 1, 0⟩⟩ ⟨0, 1, 1, 1⟩ ⟨0, 0, -1, 1⟩ = ⟨0, 1 / 2, 0, 1⟩ := by
    norm_num [edge_cut, edge_weight, Vector4d.dot, Vector4d.add, Vector4d.smul]
  have heval := handle_partial_clipping_eval
    ⟨⟨0, 0, -1, 1⟩, ⟨1, 0, 1, 1⟩, ⟨0, 1, 1, 1⟩, ⟨255, 0, 0⟩⟩ (-1) 1 1 ⟨⟨0, 0, 1, 0⟩⟩ []
    ⟨1, 0, 1, 1⟩ ⟨0, 1, 1, 1⟩ ⟨0, 0, -1, 1⟩ (by norm_num) rfl rfl rfl
    (by norm_num [Vector4d.dot]) (by norm_num [Vector4d.dot]) (by norm_num [Vector4d.dot])
  rw [hc1, hc2, List.nil_append] at heval
  have hsum : (area_vector ⟨1, 0, 1, 1⟩ ⟨1 / 2, 0, 0, 1⟩ ⟨0, 1, 1, 1⟩).add
      (area_vector ⟨0, 1, 1, 1⟩ ⟨1 / 2, 0, 0, 1⟩ ⟨0, 1 / 2, 0, 1⟩)
      = ⟨3 / 2, 3 / 2, -3 / 4⟩ := by
    norm_num [area_vector, Vector4d.xyz, Vector3d.sub, Vector3d.cross, Vector3d.add]
  have hdiff : (area_vector ⟨0, 0, -1, 1⟩ ⟨1, 0, 1, 1⟩ ⟨0, 1, 1, 1⟩).sub
      (area_vector ⟨0, 0, -1, 1⟩ ⟨1 / 2, 0, 0, 1⟩ ⟨0, 1 / 2, 0, 1⟩)
      = ⟨-3 / 2, -3 / 2, 3 / 4⟩ := by
    norm_num [area_vector, Vector4d.xyz, Vector3d.sub, Vector3d.cross]
  refine ⟨heval, hsum, hdiff, ?_⟩
  rw [hsum, hdiff]
  intro h
  have hx := congrArg Vector3d.x h
  norm_num at hx

/-- C23 (amended): for a triangle (vertices normalised) with exactly one vertex
outside the plane, the two triangles appended by `handle_partial_clipping` are
wound opposite to the input: the sum of their cross-product area vectors equals
the area vector of the clipped-off corner `(outside, X1, X2)` minus that of the
input triangle.  The three are multiples of the input's area vector `N`, namely
`-α N`, `-β N` for the fragments and `γ N` for the corner with
`α, β, γ >= 0` and `α + β + γ = 1`, so the combined (unsigned) area of the
fragments is the area of the input minus the area of the corner. -/
theorem handle_partial_clipping_area (triangle : Triangle) (plane : Plane)
    (result : List Triangle) (d1 d2 d3 : ℚ)
    (hw1 : triangle.p1_.w = 1) (hw2 : triangle.p2_.w = 1) (hw3 : triangle.p3_.w = 1)
    (hd1 : plane.distance_to_point triangle.p1_ = .ok d1)
    (hd2 : plane.distance_to_point triangle.p2_ = .ok d2)
    (hd3 : plane.distance_to_point triangle.p3_ = .ok d3) (hone : OneOutside d1 d2 d3) :
    ∃ outside f1 f2 α β γ,
      Outside plane outside ∧
      (outside = triangle.p1_ ∨ outside = triangle.p2_ ∨ outside = triangle.p3_) ∧
      World.handle_partial_clipping triangle d1 d2 d3 plane result
        = .ok (result ++ [f1, f2]) ∧
      (area_vector f1.p1_ f1.p2_ f1.p3_).add (area_vector f2.p1_ f2.p2_ f2.p3_)
        = (area_vector outside f1.p2_ f2.p3_).sub
            (area_vector triangle.p1_ triangle.p2_ triangle.p3_) ∧
      0 ≤ α ∧ 0 ≤ β ∧ 0 ≤ γ ∧ α + β + γ = 1 ∧
      area_vector f1.p1_ f1.p2_ f1.p3_
        = (area_vector triangle.p1_ triangle.p2_ triangle.p3_).smul (-α) ∧
      area_vector f2.p1_ f2.p2_ f2.p3_
        = (area_vector triangle.p1_ triangle.p2_ triangle.p3_).smul (-β) ∧
      area_vector outside f1.p2_ f2.p3_
        = (area_vector triangle.p1_ triangle.p2_ triangle.p3_).smul γ := by
  obtain ⟨inside1, inside2, outside, hsel, hrot, hi1w, hi2w, how, hi1, hi2, ho⟩ :=
    handle_partial_clipping_choice triangle plane d1 d2 d3 hw1 hw2 hw3 hd1 hd2 hd3 hone
  obtain ⟨ha1, ha1'⟩ := edge_weight_bounds plane inside1 outside hi1 ho
  obtain ⟨ha2, ha2'⟩ := edge_weight_bounds plane inside2 outside hi2 ho
  have hinput : area_vector triangle.p1_ triangle.p2_ triangle.p3_
      = area_vector outside inside1 inside2 := by
    rcases hrot with h | h | h
    · simp only [Prod.mk.injEq] at h
      obtain ⟨h1, h2, h3⟩ := h
      rw [h1, h2, h3]
    · simp only [Prod.mk.injEq] at h
      obtain ⟨h1, h2, h3⟩ := h
      rw [h1, h2, h3]
      exact area_vector_rotate _ _ _
    · simp only [Prod.mk.injEq] at h
      obtain ⟨h1, h2, h3⟩ := h
      rw [h1, h2, h3]
      exact (area_vector_rotate _ _ _).symm
  have hout : outside = triangle.p1_ ∨ outside = triangle.p2_ ∨ outside = triangle.p3_ := by
    rcases hrot with h | h | h
    · exact Or.inl (Prod.mk.inj (Prod.mk.inj h).2).2
    · exact Or.inr (Or.inl (Prod.mk.inj (Prod.mk.inj h).2).2)
    · exact Or.inr (Or.inr (Prod.mk.inj (Prod.mk.inj h).2).2)
  obtain ⟨e1, e2, e3⟩ := fragment_area_vectors inside1 inside2 outside
    (edge_weight plane inside1 outside) (edge_weight plane inside2 outside)
  refine ⟨outside,
    ⟨inside1, edge_cut plane inside1 outside, inside2, triangle.color_⟩,
    ⟨inside2, edge_cut plane inside1 outside, edge_cut plane inside2 outside,
      triangle.color_⟩,
    1 - edge_weight plane inside1 outside,
    edge_weight plane inside1 outside * (1 - edge_weight plane inside2 outside),
    edge_weight plane inside1 outside * edge_weight plane inside2 outside,
    ⟨_, distance_of_w_one plane outside how, ho⟩, hout,
    handle_partial_clipping_eval triangle d1 d2 d3 plane result inside1 inside2 outside hsel
      hi1w hi2w how hi1 hi2 ho,
    ?_, by linarith, mul_nonneg ha1.le (by linarith), mul_nonneg ha1.le ha2.le, by ring,
    ?_, ?_, ?_⟩
  · show (area_vector inside1 (edge_cut plane inside1 outside) inside2).add
        (area_vector inside2 (edge_cut plane inside1 outside) (edge_cut plane inside2 outside))
      = (area_vector outside (edge_cut plane inside1 outside)
          (edge_cut plane inside2 outside)).sub
          (area_vector triangle.p1_ triangle.p2_ triangle.p3_)
    unfold edge_cut
    rw [e1, e2, e3, hinput]
    simp only [Vector3d.add, Vector3d.sub, Vector3d.smul, Vector3d.mk.injEq]
    refine ⟨?_, ?_, ?_⟩ <;> ring
  · show area_vector inside1 (edge_cut plane inside1 outside) inside2 = _
    unfold edge_cut
    rw [e1, hinput]
  · show area_vector inside2 (edge_cut plane inside1 outside)
      (edge_cut plane inside2 outside) = _
    unfold edge_cut
    rw [e2, hinput]
  · show area_vector outside (edge_cut plane inside1 outside)
      (edge_cut plane inside2 outside) = _
    unfold edge_cut
    rw [e3, hinput]

/-- The plane `z >= 0` and the triangle `(0,0,-1), (1,0,1), (0,1,1)`: the
fragments' area vectors sum to the corner's minus the input's. -/
theorem handle_partial_clipping_area_witness :
    ∃ outside f1 f2,
      World.handle_partial_clipping
          ⟨⟨0, 0, -1, 1⟩, ⟨1, 0, 1, 1⟩, ⟨0, 1, 1, 1⟩, ⟨255, 0, 0⟩⟩ (-1) 1 1 ⟨⟨0, 0, 1, 0⟩⟩ []
        = .ok ([] ++ [f1, f2]) ∧
      (area_vector f1.p1_ f1.p2_ f1.p3_).add (area_vector f2.p1_ f2.p2_ f2.p3_)
        = (area_vector outside f1.p2_ f2.p3_).sub
            (area_vector ⟨0, 0, -1, 1⟩ ⟨1, 0, 1, 1⟩ ⟨0, 1, 1, 1⟩) := by
  obtain ⟨outside, f1, f2, _, _, _, _, _, h, harea, _⟩ :=
    handle_partial_clipping_area
      ⟨⟨0, 0, -1, 1⟩, ⟨1, 0, 1, 1⟩, ⟨0, 1, 1, 1⟩, ⟨255, 0, 0⟩⟩ ⟨⟨0, 0, 1, 0⟩⟩ [] (-1) 1 1
      rfl rfl rfl
      (by rw [distance_of_w_one _ _ rfl]; norm_num [Vector4d.dot])
      (by rw [distance_of_w_one _ _ rfl]; norm_num [Vector4d.dot])
      (by rw [distance_of_w_one _ _ rfl]; norm_num [Vector4d.dot])
      (Or.inl ⟨by norm_num, by norm_num, by norm_num⟩)
  exact ⟨outside, f1, f2, h, harea⟩

/-! ## Claims on `fill_triangle` -/

/-- A bind fails with `e` only if one of its two parts does. -/
theorem bind_ne_error {α β : Type} (e : Error) (x : Except Error α)
    (f : α → Except Error β) (hx : x ≠ .error e) (hf : ∀ a, f a ≠ .error e) :
    (x >>= f) ≠ .error e := by
  cases x with
  | error e1 =>
    intro h
    apply hx
    simpa [bind, Except.bind] using h
  | ok a => exact hf a

/-- The only failure of `put_pixel` is the index assertion. -/
theorem put_pixel_ne_division_by_zero (s : Screen) (i j : Int) (color : Color) (z : ℚ) :
    s.put_pixel i j color z ≠ .error .division_by_zero := by
  unfold Screen.put_pixel
  split_ifs <;> simp

/-- A division by a non-zero divisor succeeds. -/
theorem checked_div_ok (a b : ℚ) (hb : b ≠ 0) : Screen.checked_div a b = .ok (a / b) := by
  simp [Screen.checked_div, hb]

/-- The span parameter never divides by zero. -/
theorem span_parameter_ne_division_by_zero (ax bx j : Int) :
    Screen.span_parameter ax bx j ≠ .error .division_by_zero := by
  unfold Screen.span_parameter
  split_ifs with h
  · simp
  · rw [checked_div_ok _ _ (by exact_mod_cast sub_ne_zero.mpr h)]
    simp

/-- The inner loop never divides by zero. -/
theorem fill_span_loop_ne_division_by_zero (ax bx : Int) (az bz : ℚ) (row : Int)
    (color : Color) (ks : List Nat) (screen : Screen) :
    Screen.fill_span_loop ax bx az bz row color ks screen ≠ .error .division_by_zero := by
  induction ks generalizing screen with
  | nil => simp [Screen.fill_span_loop]
  | cons k ks ih =>
    unfold Screen.fill_span_loop
    apply bind_ne_error _ _ _ (span_parameter_ne_division_by_zero _ _ _)
    intro phi
    apply bind_ne_error _ _ _ (put_pixel_ne_division_by_zero _ _ _ _ _)
    intro s
    exact ih s

/-- The swaps of `fill_triangle` leave the rows in ascending order. -/
theorem sort_by_y_sorted (v1 v2 v3 : Screen.PixelVertex) :
    (Screen.sort_by_y v1 v2 v3).1.y ≤ (Screen.sort_by_y v1 v2 v3).2.1.y ∧
    (Screen.sort_by_y v1 v2 v3).2.1.y ≤ (Screen.sort_by_y v1 v2 v3).2.2.y := by
  unfold Screen.sort_by_y
  by_cases h1 : v1.y > v2.y
  · simp only [h1, if_true]
    by_cases h2 : v2.y > v3.y
    · simp only [h2, if_true]
      by_cases h3 : v1.y > v2.y
      · simp only [h3, if_true]
        omega
      · simp only [h3, if_false]
        omega
    · simp only [h2, if_false]
      by_cases h3 : v1.y > v3.y
      · simp only [h3, if_true]
        omega
      · simp only [h3, if_false]
        omega
  · simp only [h1, if_false]
    by_cases h2 : v1.y > v3.y
    · simp only [h2, if_true]
      by_cases h3 : v2.y > v1.y
      · simp only [h3, if_true]
        omega
      · simp only [h3, if_false]
        omega
    · simp only [h2, if_false]
      by_cases h3 : v2.y > v3.y
      · simp only [h3, if_true]
        omega
      · simp only [h3, if_false]
        omega

/-- With the rows in ascending order, both divisors of a row of the scanline
loop are positive. -/
theorem row_divisors_pos (y1 y2 y3 i : Int) (h12 : y1 ≤ y2) (h23 : y2 ≤ y3)
    (h0 : 0 ≤ i) (hi : i < y3 - y1) :
    0 < y3 - y1 ∧ 0 < Screen.segment_height y1 y2 y3 i := by
  refine ⟨by omega, ?_⟩
  unfold Screen.segment_height Screen.second_half
  split_ifs with h
  · rcases of_decide_eq_true h with h | h <;> omega
  · have h2 : ¬ (i > y2 - y1 ∨ y2 = y1) := fun hc => h (decide_eq_true hc)
    omega

/-- A row of the scanline loop never divides by zero. -/
theorem fill_row_ne_division_by_zero (flf : ℚ → ℚ) (oor : ℚ → Int)
    (v1 v2 v3 : Screen.PixelVertex) (color : Color)
    (i : Int) (screen : Screen) (h12 : v1.y ≤ v2.y) (h23 : v2.y ≤ v3.y)
    (h0 : 0 ≤ i) (hi : i < v3.y - v1.y) :
    Screen.fill_row flf oor v1 v2 v3 color i screen ≠ .error .division_by_zero := by
  obtain ⟨ht, hs⟩ := row_divisors_pos v1.y v2.y v3.y i h12 h23 h0 hi
  unfold Screen.fill_row
  dsimp only
  rw [checked_div_ok _ _ (by exact_mod_cast ht.ne.symm)]
  simp only [ok_bind]
  rw [checked_div_ok _ _ (by exact_mod_cast hs.ne.symm)]
  simp only [ok_bind]
  exact fill_span_loop_ne_division_by_zero _ _ _ _ _ _ _ _

/-- The scanline loop over rows below `total_height` never divides by zero. -/
theorem fill_rows_loop_ne_division_by_zero (flf : ℚ → ℚ) (oor : ℚ → Int)
    (v1 v2 v3 : Screen.PixelVertex) (color : Color)
    (rows : List Nat) (screen : Screen) (h12 : v1.y ≤ v2.y) (h23 : v2.y ≤ v3.y)
    (hrows : ∀ i ∈ rows, (i : Int) < v3.y - v1.y) :
    Screen.fill_rows_loop flf oor v1 v2 v3 color rows screen ≠ .error .division_by_zero := by
  induction rows generalizing screen with
  | nil => simp [Screen.fill_rows_loop]
  | cons i rest ih =>
    unfold Screen.fill_rows_loop
    apply bind_ne_error _ _ _
      (fill_row_ne_division_by_zero flf oor v1 v2 v3 color i screen h12 h23 (by omega)
        (hrows i (List.mem_cons_self _ _)))
    intro s
    exact ih s (fun j hj => hrows j (List.mem_cons_of_mem _ hj))

/-- C25: `fill_triangle` never divides by zero.  After the three swaps the rows
are in ascending order; in every iteration `0 <= i < total_height` of the
scanline loop `total_height > 0` and the chosen `segment_height` is `> 0`; the
span parameter is `1`, without a division, when `bx = ax`; a triangle with
`y1 = y2 = y3` executes no iteration and leaves the screen as it was; and no
run of `fill_triangle` ends in a division by zero.  This holds for every
rounding `flf` of the `float` operations and every conversion `oor` outside the
range of `int`. -/
theorem fill_triangle_no_division_by_zero (self : Screen) (flf : ℚ → ℚ) (oor : ℚ → Int)
    (x1 y1 : Int) (z1 : ℚ) (x2 y2 : Int) (z2 : ℚ) (x3 y3 : Int) (z3 : ℚ) (color : Color) :
    (Screen.sort_by_y ⟨x1, y1, z1⟩ ⟨x2, y2, z2⟩ ⟨x3, y3, z3⟩).1.y
        ≤ (Screen.sort_by_y ⟨x1, y1, z1⟩ ⟨x2, y2, z2⟩ ⟨x3, y3, z3⟩).2.1.y ∧
    (Screen.sort_by_y ⟨x1, y1, z1⟩ ⟨x2, y2, z2⟩ ⟨x3, y3, z3⟩).2.1.y
        ≤ (Screen.sort_by_y ⟨x1, y1, z1⟩ ⟨x2, y2, z2⟩ ⟨x3, y3, z3⟩).2.2.y ∧
    (∀ i : Int, 0 ≤ i →
      i < (Screen.sort_by_y ⟨x1, y1, z1⟩ ⟨x2, y2, z2⟩ ⟨x3, y3, z3⟩).2.2.y
          - (Screen.sort_by_y ⟨x1, y1, z1⟩ ⟨x2, y2, z2⟩ ⟨x3, y3, z3⟩).1.y →
      0 < (Screen.sort_by_y ⟨x1, y1, z1⟩ ⟨x2, y2, z2⟩ ⟨x3, y3, z3⟩).2.2.y
          - (Screen.sort_by_y ⟨x1, y1, z1⟩ ⟨x2, y2, z2⟩ ⟨x3, y3, z3⟩).1.y ∧
      0 < Screen.segment_height
          (Screen.sort_by_y ⟨x1, y1, z1⟩ ⟨x2, y2, z2⟩ ⟨x3, y3, z3⟩).1.y
          (Screen.sort_by_y ⟨x1, y1, z1⟩ ⟨x2, y2, z2⟩ ⟨x3, y3, z3⟩).2.1.y
          (Screen.sort_by_y ⟨x1, y1, z1⟩ ⟨x2, y2, z2⟩ ⟨x3, y3, z3⟩).2.2.y i ∧
      ∀ screen, Screen.fill_row flf oor
          (Screen.sort_by_y ⟨x1, y1, z1⟩ ⟨x2, y2, z2⟩ ⟨x3, y3, z3⟩).1
          (Screen.sort_by_y ⟨x1, y1, z1⟩ ⟨x2, y2, z2⟩ ⟨x3, y3, z3⟩).2.1
          (Screen.sort_by_y ⟨x1, y1, z1⟩ ⟨x2, y2, z2⟩ ⟨x3, y3, z3⟩).2.2 color i screen
        ≠ .error .division_by_zero) ∧
    (∀ ax j : Int, Screen.span_parameter ax ax j = .ok 1) ∧
    (∀ ax bx j : Int, Screen.span_parameter ax bx j ≠ .error .division_by_zero) ∧
    (y1 = y2 ∧ y2 = y3 →
      Screen.fill_triangle self flf oor x1 y1 z1 x2 y2 z2 x3 y3 z3 color = .ok self) ∧
    Screen.fill_triangle self flf oor x1 y1 z1 x2 y2 z2 x3 y3 z3 color
      ≠ .error .division_by_zero := by
  obtain ⟨h12, h23⟩ := sort_by_y_sorted ⟨x1, y1, z1⟩ ⟨x2, y2, z2⟩ ⟨x3, y3, z3⟩
  refine ⟨h12, h23, ?_, ?_, span_parameter_ne_division_by_zero, ?_, ?_⟩
  · intro i h0 hi
    obtain ⟨ht, hs⟩ := row_divisors_pos _ _ _ i h12 h23 h0 hi
    exact ⟨ht, hs, fun screen =>
      fill_row_ne_division_by_zero flf oor _ _ _ color i screen h12 h23 h0 hi⟩
  · intro ax j
    simp [Screen.span_parameter]
  · rintro ⟨e12, e23⟩
    subst e12
    subst e23
    simp [Screen.fill_triangle, Screen.sort_by_y, Screen.fill_rows_loop]
  · unfold Screen.fill_triangle
    apply fill_rows_loop_ne_division_by_zero flf oor _ _ _ _ _ _ h12 h23
    intro i hi
    have hlt := List.mem_range.mp hi
    omega

/-! ## Claims on the walk of `draw_line` -/

end Renderer
